import Mathlib

/-!
transferdb: Oracle to MySQL/TiDB migration engine.

A shallow embedding of the parts of the repository that decide how reverse DDL is
routed (`module/reverse/o2m/ddl.go`), how versions are compared (`utils/util.go`),
how slices are split and compared (`utils/util.go`), how LogMiner rows are filtered
and how the chunks of a full load are applied and cleared
(`pkg/taskflow/extractor.go`), how query results are encoded (`service/engine.go`)
and how the top-level jobs gate on earlier errors and treat the failure of a table
(`module/reverse/o2m/reverse.go`, `module/reverse/o2m/table.go`,
`module/check/o2m/check.go`).

Conventions of the embedding:

* a Go `string` that holds text is the list of its code points (`GoString`); where
  the code looks at single bytes (`VersionOrdinal`), the string is the list of its
  UTF-8 bytes (`goBytes`), each a natural number below 256;
* a Go `byte` is a natural number, and arithmetic on it is reduced modulo `2 ^ 8`;
  an `int64` is an integer where the code keeps it between `0` and a slice length;
* a Go slice is the list of its elements, `Option` where the nil slice matters;
* a Go panic (explicit or an index out of range) is the result `none`, the status
  `Status.panic` or the outcome `Outcome.panic`;
* the Unicode tables of the Go library (`unicode.ToUpper`, `unicode.ToLower`, case
  folding) are parameters `upper`, `lower`, `fold`;
* a job (`NewReverse`, `NewCheck`) is a `Run`: the list of the actions it performs on
  the outside world, in order, and its outcome; the answers of the databases, of the
  metadata store and of the writer are fields of an environment record;
* the tasks of a worker pool or error group are taken in submission order, each
  running to its end, except in `syncOracleRowsByRowID`, whose tasks share a variable
  and are interleaved step by step as a schedule chooses;
* logging (`zap`, `fmt.Printf`) is not modelled.
-/

set_option autoImplicit false

namespace TransferDB

/-! ## Go strings -/

/-- A Go `string` holding valid UTF-8 text, given by its code points. -/
abbrev GoString := List Char

/-- The text of a literal as a `GoString`. -/
def str (s : String) : GoString := s.toList

/-- The UTF-8 bytes of one code point. -/
def utf8Rune (c : Char) : List Nat :=
  let n := c.toNat
  if n < 128 then [n]
  else if n < 2048 then [192 + n / 64, 128 + n % 64]
  else if n < 65536 then [224 + n / 4096, 128 + n / 64 % 64, 128 + n % 64]
  else [240 + n / 262144, 128 + n / 4096 % 64, 128 + n / 64 % 64, 128 + n % 64]

/-- The bytes of a Go string: what `s[i]` and `len(s)` range over. -/
def goBytes : GoString → List Nat
  | [] => []
  | c :: cs => utf8Rune c ++ goBytes cs

/-- Go's comparison of two strings: lexicographic on the bytes, a proper prefix
being smaller. -/
def bytesCompare : List Nat → List Nat → Ordering
  | [], [] => Ordering.eq
  | [], _ :: _ => Ordering.lt
  | _ :: _, [] => Ordering.gt
  | a :: as, b :: bs =>
    if a < b then Ordering.lt
    else if b < a then Ordering.gt
    else bytesCompare as bs

/-- Go's `strings.Join(elems, sep)`. -/
def Join (elems : List GoString) (sep : GoString) : GoString :=
  sep.intercalate elems

/-! ## `utils.VersionOrdinal` -/

/-- The loop state of `VersionOrdinal`: the output bytes `vo` and the index `j` of
the length byte of the current digit run (`none` is the source's `j == -1`). -/
structure VOState where
  vo : List Nat
  j : Option Nat
deriving DecidableEq, Repr

/-- The source's `maxByte = 1<<8 - 1`. -/
def maxByte : Nat := 2 ^ 8 - 1

/-- One iteration of the loop of `VersionOrdinal` on the byte `b`. The sum
`vo[j]+1` is a `byte`, hence taken modulo `2 ^ 8`; `none` is a panic. -/
def VersionOrdinal.step (s : VOState) (b : Nat) : Option VOState :=
  if 48 > b ∨ b > 57 then
    some { vo := s.vo ++ [b], j := none }
  else
    let vo := match s.j with
      | none => s.vo ++ [0]
      | some _ => s.vo
    let j := match s.j with
      | none => (s.vo ++ [0]).length - 1
      | some j => j
    match vo[j]? with
    | none => none
    | some c =>
      let grow : Option VOState :=
        if (c + 1) % 2 ^ 8 > maxByte then none
        else some { vo := (vo ++ [b]).set j ((c + 1) % 2 ^ 8), j := some j }
      if c = 1 then
        match vo[j + 1]? with
        | none => none
        | some d =>
          if d = 48 then some { vo := vo.set (j + 1) b, j := some j }
          else grow
      else grow

/-- The loop of `VersionOrdinal` over the remaining bytes. -/
def VersionOrdinal.loop : List Nat → VOState → Option VOState
  | [], s => some s
  | b :: bs, s =>
    match VersionOrdinal.step s b with
    | none => none
    | some s' => VersionOrdinal.loop bs s'

/-- The function `utils.VersionOrdinal` on the bytes of `version`; `none` is a panic. -/
def VersionOrdinal (version : List Nat) : Option (List Nat) :=
  match VersionOrdinal.loop version { vo := [], j := none } with
  | none => none
  | some s => some s.vo

/-- The invariant of the loop of `VersionOrdinal`: while a digit run is open, its
length byte and at least one digit are in the output. -/
def VOState.Inv (s : VOState) : Prop :=
  ∀ j, s.j = some j → j + 1 < s.vo.length

/-- The comparison `VersionOrdinal(a) ? VersionOrdinal(b)` of two version strings,
as the callers write it; `none` when one of the two calls panics. -/
def versionCompare (a b : GoString) : Option Ordering :=
  match VersionOrdinal (goBytes a), VersionOrdinal (goBytes b) with
  | some x, some y => some (bytesCompare x y)
  | _, _ => none

/-! ## `DDL.GenDDLStructure` (module/reverse/o2m/ddl.go) -/

/-- The reverse artifact of one table (`type DDL struct`). -/
structure DDL where
  SourceSchemaName : GoString
  SourceTableName : GoString
  SourceTableType : GoString
  SourceTableDDL : GoString
  TargetSchemaName : GoString
  TargetTableName : GoString
  TargetDBType : GoString
  TargetDBVersion : GoString
  TablePrefix : GoString
  TableColumns : List GoString
  TableKeys : List GoString
  TableSuffix : GoString
  TableComment : GoString
  TableCheckKeys : List GoString
  TableForeignKeys : List GoString
  TableCompatibleDDL : List GoString
  TablePartitions : List GoString
  TablePartitionKeys : GoString
  TablePartitionType : GoString
deriving DecidableEq, Repr

/-- The local `structDDL` of `GenDDLStructure`: prefix, columns and, when there are
any, keys. -/
def DDL.structDDL (d : DDL) : GoString :=
  if d.TableKeys.length > 0 then
    d.TablePrefix ++ str " (\n" ++ Join d.TableColumns (str ",\n") ++ str ",\n"
      ++ Join d.TableKeys (str ",\n") ++ str "\n)"
  else
    d.TablePrefix ++ str " (\n" ++ Join d.TableColumns (str ",\n") ++ str "\n)"

/-- The local `partDDL` of `GenDDLStructure`: only `LIST` produces a clause. -/
def DDL.partDDL (d : DDL) : GoString :=
  if d.TablePartitions.length > 0 then
    if d.TablePartitionType = str "LIST" then
      str "PARTITION BY LIST COLUMNS(" ++ d.TablePartitionKeys ++ str ") ("
        ++ Join d.TablePartitions (str ", ") ++ str ")"
    else []
  else []

/-- The local `tableDDL` of `GenDDLStructure` as it stands when it is appended to
the reversible stream: the CREATE TABLE statement. `strings.EqualFold(c, "")` holds
exactly for the empty string. -/
def DDL.tableDDL (d : DDL) : GoString :=
  if d.TableComment = [] then
    if d.partDDL = [] then
      d.structDDL ++ str " " ++ d.TableSuffix ++ str ";"
    else
      d.structDDL ++ str " " ++ d.TableSuffix ++ str " " ++ d.partDDL ++ str ";"
  else
    if d.partDDL = [] then
      d.structDDL ++ str " " ++ d.TableSuffix ++ str " " ++ d.TableComment ++ str ";"
    else
      d.structDDL ++ str " " ++ d.TableSuffix ++ str " " ++ d.TableComment ++ str " "
        ++ d.partDDL ++ str ";"

/-- The statement built for one foreign key or check key `k`:
``fmt.Sprintf("ALTER TABLE `%s`.`%s` ADD %s;", schema, table, k)``. -/
def DDL.alterSQL (d : DDL) (k : GoString) : GoString :=
  str "ALTER TABLE `" ++ d.TargetSchemaName ++ str "`.`" ++ d.TargetTableName
    ++ str "` ADD " ++ k ++ str ";"

/-- The local `foreignKeyDDL` of `GenDDLStructure`. -/
def DDL.foreignKeyDDL (d : DDL) : List GoString :=
  d.TableForeignKeys.map d.alterSQL

/-- The local `checkKeyDDL` of `GenDDLStructure`. -/
def DDL.checkKeyDDL (d : DDL) : List GoString :=
  d.TableCheckKeys.map d.alterSQL

/-- The method `DDL.GenDDLStructure`: the reversible stream and the compatibility stream.
The constants `common.DatabaseTypeTiDB` and `common.MySQLCheckConsVersion` are
declared in package `common`, outside the files embedded here, and are parameters.
`none` is a panic of `VersionOrdinal`. -/
def DDL.GenDDLStructure (DatabaseTypeTiDB MySQLCheckConsVersion : GoString) (d : DDL) :
    Option (List GoString × List GoString) :=
  let reverseDDLS : List GoString := [d.tableDDL ++ str "\n"]
  if d.TargetDBType ≠ DatabaseTypeTiDB then
    let reverseDDLS := reverseDDLS ++ d.foreignKeyDDL
    match versionCompare d.TargetDBVersion MySQLCheckConsVersion with
    | none => none
    | some o =>
      if o = Ordering.gt then
        some (reverseDDLS ++ d.checkKeyDDL, d.TableCompatibleDDL)
      else
        some (reverseDDLS, d.checkKeyDDL ++ d.TableCompatibleDDL)
  else
    some (reverseDDLS, d.foreignKeyDDL ++ d.checkKeyDDL ++ d.TableCompatibleDDL)

/-- A table with one foreign key and one check constraint, reversed for a MySQL
target of version 8.0.15. -/
def sampleDDL : DDL where
  SourceSchemaName := str "MARVIN"
  SourceTableName := str "ORDERS"
  SourceTableType := str "HEAP"
  SourceTableDDL := []
  TargetSchemaName := str "SHOP"
  TargetTableName := str "ORDERS"
  TargetDBType := str "MYSQL"
  TargetDBVersion := str "8.0.15"
  TablePrefix := str "CREATE TABLE `SHOP`.`ORDERS`"
  TableColumns := [str "`ID` INT", str "`QTY` INT"]
  TableKeys := [str "PRIMARY KEY (`ID`)"]
  TableSuffix := str "ENGINE=InnoDB"
  TableComment := []
  TableCheckKeys := [str "CONSTRAINT `CK1` CHECK (`QTY` > 0)"]
  TableForeignKeys := [str "CONSTRAINT `FK1` FOREIGN KEY (`ID`) REFERENCES `SHOP`.`ITEM` (`ID`)"]
  TableCompatibleDDL := []
  TablePartitions := []
  TablePartitionKeys := []
  TablePartitionType := []

/-- The table of `sampleDDL` reversed for a target of the given type and version. -/
def sampleDDLFor (dbType dbVersion : String) : DDL :=
  { sampleDDL with TargetDBType := str dbType, TargetDBVersion := str dbVersion }

/-! ## Go library functions on strings -/

/-- Go's `strings.ToUpper` on valid UTF-8 text: every code point is mapped by
`unicode.ToUpper`, which is the parameter `upper`. -/
def ToUpper (upper : Char → Char) (s : GoString) : GoString :=
  s.map upper

/-- The scan of Go's `strings.Split(s, sep)` for a non-empty `sep`: the piece that
is open at the current position and the pieces after it. `skip` counts the
characters of a matched separator that are still to be passed over. -/
def Split.go (sep : GoString) : Nat → GoString → GoString × List GoString
  | _, [] => ([], [])
  | skip + 1, _ :: cs => Split.go sep skip cs
  | 0, c :: cs =>
    if sep.isPrefixOf (c :: cs) then
      ([], (Split.go sep (sep.length - 1) cs).1 :: (Split.go sep (sep.length - 1) cs).2)
    else
      (c :: (Split.go sep 0 cs).1, (Split.go sep 0 cs).2)

/-- Go's `strings.Split(s, sep)` for a non-empty `sep`: the pieces of `s` between
the occurrences of `sep`, found from left to right without overlap. -/
def Split (s sep : GoString) : List GoString :=
  (Split.go sep 0 s).1 :: (Split.go sep 0 s).2

/-- A blank: a space or a tab. -/
def isBlank (c : Char) : Bool :=
  c = ' ' || c = '\t'

/-- The scan of `tokens`: `cur` is the token that is open, most recent character
first. -/
def tokens.go : GoString → GoString → List GoString
  | cur, [] => if cur = [] then [] else [cur.reverse]
  | cur, c :: cs =>
    if isBlank c then
      if cur = [] then tokens.go [] cs else cur.reverse :: tokens.go [] cs
    else tokens.go (c :: cur) cs

/-- The whitespace-separated tokens of a text: its maximal runs of non-blank
characters (Go's `strings.Fields` for the blanks space and tab). -/
def tokens (s : GoString) : List GoString :=
  tokens.go [] s

/-- The first two whitespace-separated tokens of `sql`, upper-cased. -/
def firstTwoTokens (upper : Char → Char) (sql : GoString) : List GoString :=
  ((tokens sql).take 2).map (ToUpper upper)

/-- A Go `map[string]int` as its list of entries, earlier entries shadowing later
ones. -/
abbrev GoIntMap := List (GoString × Int)

/-- The map read `m[k]`: the zero value when `k` is absent. -/
def GoIntMap.get (m : GoIntMap) (k : GoString) : Int :=
  match m.lookup k with
  | some v => v
  | none => 0

/-! ## `filterOracleRedoGreaterOrEqualRecordByTable` (pkg/taskflow/extractor.go) -/

/-- Modelled from the spec: `service.LogminerContent`, declared outside the embedded
files, is the row `{scn, segment_owner, table_name, operation, sql_redo}`. -/
structure LogminerContent where
  SCN : Int
  SegOwner : GoString
  TableName : GoString
  Operation : GoString
  SQLRedo : GoString
deriving DecidableEq, Repr

/-- Modelled from the spec: `utils.DDLOperation`, the operation name of a DDL row. -/
def DDLOperation : GoString := str "DDL"

/-- Modelled from the spec: `utils.DropTableOperation`, the prefix `DROP TABLE`. -/
def DropTableOperation : GoString := str "DROP TABLE"

/-- Modelled from the spec: `utils.TruncateTableOperation`, the prefix
`TRUNCATE TABLE`. -/
def TruncateTableOperation : GoString := str "TRUNCATE TABLE"

/-- Modelled from the spec: `utils.StringsBuilder`, declared outside the embedded
files, joins the two tokens into the prefix that is compared; it concatenates its
arguments. -/
def StringsBuilder (parts : List GoString) : GoString :=
  parts.flatten

/-- How a task or a call ends: normally, with a returned error, or with a panic. -/
inductive Status where
  | ok
  | error (msg : GoString)
  | panic
deriving DecidableEq, Repr

/-- The DDL branch of the task of one row, the same under both reset flags: the
rows handed to the scheduler by `s.AddData`, in order; `none` is the panic of an
index out of range. The assignment to `rows.SQLRedo` in the first `if` is seen by
the second. -/
def forwardDDL (upper : Char → Char) (rows : LogminerContent) :
    Option (List LogminerContent) :=
  let splitDDL := Split rows.SQLRedo (str " ")
  match splitDDL[0]?, splitDDL[1]? with
  | some s0, some s1 =>
    let ddl := StringsBuilder [s0, str " ", s1]
    if ToUpper upper ddl = DropTableOperation then
      match (Split (ToUpper upper rows.SQLRedo) (str "AS"))[0]? with
      | none => none
      | some cut =>
        let rows1 := { rows with SQLRedo := cut }
        if ToUpper upper ddl = TruncateTableOperation then some [rows1, rows1]
        else some [rows1]
    else
      if ToUpper upper ddl = TruncateTableOperation then some [rows]
      else some []
  | _, _ => none

/-- The body of the task submitted for one row: the rows it hands to the scheduler
and how it ends. -/
def filterTask (upper : Char → Char) (tfMap : GoIntMap) (isFirstR : Int)
    (rows : LogminerContent) : List LogminerContent × Status :=
  if isFirstR = 0 then
    if rows.SCN ≥ tfMap.get (ToUpper upper rows.TableName) then
      if rows.Operation = DDLOperation then
        match forwardDDL upper rows with
        | none => ([], Status.panic)
        | some out => (out, Status.ok)
      else ([rows], Status.ok)
    else ([], Status.ok)
  else if isFirstR = 1 then
    if rows.SCN > tfMap.get (ToUpper upper rows.TableName) then
      if rows.Operation = DDLOperation then
        match forwardDDL upper rows with
        | none => ([], Status.panic)
        | some out => (out, Status.ok)
      else ([rows], Status.ok)
    else ([], Status.ok)
  else
    ([], Status.error
      (str "filterOracleRedoGreaterOrEqualRecordByTable meet error, isFirstRun value error"))

/-- The result of `filterOracleRedoGreaterOrEqualRecordByTable`: the keys with which
`lcMap` is created, the rows handed to the scheduler (`s.AddData`) in order, and how
the call ends. The scheduler that files the rows under their table is declared
outside the embedded files. -/
structure FilterResult where
  keys : List GoString
  forwarded : List LogminerContent
  status : Status
deriving DecidableEq, Repr

/-- The loop over `rowsResult`: `wp.DoWait` runs the task of each row to its end
before the next is submitted; after a task that fails no further task runs. -/
def filterLoop (upper : Char → Char) (tfMap : GoIntMap) (currentResetFlag : Int) :
    List LogminerContent → List LogminerContent × Status
  | [] => ([], Status.ok)
  | rs :: rest =>
    match filterTask upper tfMap currentResetFlag rs with
    | (out, Status.ok) =>
      (out ++ (filterLoop upper tfMap currentResetFlag rest).1,
        (filterLoop upper tfMap currentResetFlag rest).2)
    | (out, st) => (out, st)

set_option linter.unusedVariables false in
/-- The function `filterOracleRedoGreaterOrEqualRecordByTable`; `workerThreads` sizes the pool
and the scheduler and has no influence on which rows are forwarded. -/
def filterOracleRedoGreaterOrEqualRecordByTable (upper : Char → Char)
    (rowsResult : List LogminerContent) (transferTableList : List GoString)
    (transferTableMetaMap : GoIntMap) (workerThreads currentResetFlag : Int) :
    FilterResult :=
  { keys := transferTableList.map (ToUpper upper)
    forwarded := (filterLoop upper transferTableMetaMap currentResetFlag rowsResult).1
    status := (filterLoop upper transferTableMetaMap currentResetFlag rowsResult).2 }

/-- Upper-casing of the ASCII letters, the restriction of `unicode.ToUpper` to
ASCII text. -/
def asciiUpper (c : Char) : Char :=
  if 97 ≤ c.toNat ∧ c.toNat ≤ 122 then Char.ofNat (c.toNat - 32) else c

/-- A DML row of table `T1` at the given SCN. -/
def dmlRow (scn : Int) : LogminerContent :=
  { SCN := scn, SegOwner := str "MARVIN", TableName := str "t1", Operation := str "INSERT",
    SQLRedo := str "insert into \"MARVIN\".\"T1\"(\"ID\") values ('1')" }

/-- A DDL row of the given table with the given redo SQL, at SCN 1000. -/
def ddlRow (table sql : String) : LogminerContent :=
  { SCN := 1000, SegOwner := str "MARVIN", TableName := str table, Operation := str "DDL",
    SQLRedo := str sql }

/-- A batch of LogMiner rows: DML rows, a DROP TABLE in recycle-bin form, a TRUNCATE
TABLE and a CREATE TABLE. -/
def sampleRedo : List LogminerContent :=
  [dmlRow 1000,
   ddlRow "MARVIN8" "drop table marvin8 AS \"BIN$vVWfliIh6WfgU0EEEKzOvg==$0\"",
   ddlRow "T1" "truncate table t1",
   ddlRow "T1" "create table t1 (id int)",
   dmlRow 1001]

/-! ## Dotted-numeric versions -/

/-- The bytes of the decimal numeral of `n` (ASCII digits, as printed by
`strconv.Itoa`). -/
def decimal (n : Nat) : List Nat :=
  (Nat.toDigits 10 n).map Char.toNat

/-- The bytes of the components `xs` written in decimal and joined by `'.'`. -/
def dotted : List Nat → List Nat
  | [] => []
  | [x] => decimal x
  | x :: y :: rest => decimal x ++ 46 :: dotted (y :: rest)

/-- The decimal digits of `n`, most significant first, through Mathlib's `Nat.digits`;
used to reason about `decimal`. -/
def beDigits (n : Nat) : List Nat :=
  if n = 0 then [0] else (Nat.digits 10 n).reverse

/-- The ordinal expected for the components `xs`: each numeral preceded by its
length, the dots kept. -/
def ordinalOf : List Nat → List Nat
  | [] => []
  | [x] => (decimal x).length :: decimal x
  | x :: y :: rest => (decimal x).length :: (decimal x ++ 46 :: ordinalOf (y :: rest))

/-! ## Calls to the outside world -/

/-- The kinds of action that a job performs on the outside world. -/
inductive EffectKind where
  | oracleRead
  | targetRead
  | metaRead
  | workDir
  | fileCreate
  | fileWrite
  | targetWrite
  | errorLogWrite
  | fileClose
  | tableRead
  | tableTranslate
  | tableCompare
deriving DecidableEq, Repr

/-- One action on the outside world: its kind, the call or object concerned and,
for a write, the text that is written. -/
structure Effect where
  kind : EffectKind
  what : GoString
  text : GoString := []
deriving DecidableEq, Repr

/-- The actions that change something outside the process: creating or writing an
output file, writing to the target database, adding a row to the error log. -/
def Effect.isSideEffect (e : Effect) : Bool :=
  e.kind = EffectKind.fileCreate || e.kind = EffectKind.fileWrite
    || e.kind = EffectKind.targetWrite || e.kind = EffectKind.errorLogWrite

/-- How a Go function ends: it returns a value with a nil error, it returns a
non-nil error, or it panics. -/
inductive Outcome (α : Type) where
  | ok (a : α)
  | error (msg : GoString)
  | panic
deriving DecidableEq, Repr

/-- A run of a Go function: the actions performed, in order, and how it ended. -/
structure Run (α : Type) where
  trace : List Effect
  result : Outcome α

/-- Sequencing: when the first part fails, the rest is not run. -/
def Run.bind {α β : Type} (x : Run α) (f : α → Run β) : Run β :=
  match x.result with
  | Outcome.ok a => { trace := x.trace ++ (f a).trace, result := (f a).result }
  | Outcome.error e => { trace := x.trace, result := Outcome.error e }
  | Outcome.panic => { trace := x.trace, result := Outcome.panic }

instance : Monad Run where
  pure a := { trace := [], result := Outcome.ok a }
  bind := Run.bind

/-- The statement `return fmt.Errorf(...)` or `return err`. -/
def Run.fail {α : Type} (msg : GoString) : Run α :=
  { trace := [], result := Outcome.error msg }

/-- A panic. -/
def Run.crash {α : Type} : Run α :=
  { trace := [], result := Outcome.panic }

/-- A call `v, err := f(...)` followed by `if err != nil { return err }`. -/
def Run.call {α : Type} (kind : EffectKind) (what : GoString) (answer : Except GoString α) :
    Run α :=
  { trace := [{ kind := kind, what := what }]
    result := match answer with
      | Except.ok a => Outcome.ok a
      | Except.error e => Outcome.error e }

/-- A call whose results, the error included, are inspected by the caller. -/
def Run.ask {α : Type} (kind : EffectKind) (what : GoString) (answer : α) : Run α :=
  { trace := [{ kind := kind, what := what }], result := Outcome.ok answer }

/-- A call `err := f(...)` whose error is inspected by the caller: the actions of
the call, and its error as a value. -/
def Run.errorOf {α : Type} (x : Run α) : Run (Option GoString) :=
  match x.result with
  | Outcome.ok _ => Run.mk x.trace (Outcome.ok none)
  | Outcome.error e => Run.mk x.trace (Outcome.ok (some e))
  | Outcome.panic => Run.mk x.trace Outcome.panic

/-- The tasks of an `errgroup.Group` followed by `g.Wait()`: every task runs, also
after another one has failed, and the first error is returned. The tasks are taken
in the order in which they are submitted. -/
def Run.group : List (Run Unit) → Run Unit
  | [] => pure ()
  | t :: ts =>
    match t.result with
    | Outcome.panic => { trace := t.trace, result := Outcome.panic }
    | Outcome.ok _ => { trace := t.trace ++ (Run.group ts).trace, result := (Run.group ts).result }
    | Outcome.error e =>
      { trace := t.trace ++ (Run.group ts).trace
        result := match (Run.group ts).result with
          | Outcome.panic => Outcome.panic
          | _ => Outcome.error e }

/-- The text of `%v` for an error value. -/
def errText : Option GoString → GoString
  | none => str "<nil>"
  | some e => e

/-- The text of `%v` for a slice of strings. -/
def sliceText (xs : List GoString) : GoString :=
  str "[" ++ Join xs (str " ") ++ str "]"

/-- A Go `map[string]string` as its list of entries. -/
abbrev GoStrMap := List (GoString × GoString)

/-- The read `v, ok := m[k]`. -/
def GoStrMap.find (m : GoStrMap) (k : GoString) : Option GoString :=
  m.lookup k

/-- The read `m[k]`: the empty string when `k` is absent. -/
def GoStrMap.get (m : GoStrMap) (k : GoString) : GoString :=
  match m.lookup k with
  | some v => v
  | none => []

/-- Go's `strings.EqualFold`: equality of the texts code point by code point under
simple case folding; `fold` maps a code point to the representative of its folding
class. -/
def EqualFold (fold : Char → Char) (s t : GoString) : Bool :=
  s.map fold = t.map fold

/-- Go's `strings.Contains(s, substr)`. -/
def Contains : GoString → GoString → Bool
  | [], substr => substr.isPrefixOf []
  | c :: cs, substr => substr.isPrefixOf (c :: cs) || Contains cs substr

/-- Whether `ordinal(a) >= ordinal(b)`, as in
`VersionOrdinal(a) >= VersionOrdinal(b)`; `none` is a panic. -/
def versionAtLeast (a b : GoString) : Option Bool :=
  match versionCompare a b with
  | none => none
  | some o => some (o ≠ Ordering.lt)

/-! ## The reverse job (module/reverse/o2m) -/

/-- The task of one table (`type Table struct`), without its handles to the
databases. -/
structure Table where
  SourceSchemaName : GoString
  TargetSchemaName : GoString
  SourceTableName : GoString
  TargetDBType : GoString
  TargetDBVersion : GoString
  TargetTableName : GoString
  TargetTableOption : GoString
  OracleCollation : Bool
  SourceSchemaCollation : GoString
  SourceTableCollation : GoString
  SourceDBNLSSort : GoString
  SourceDBNLSComp : GoString
  SourceTableType : GoString
  TableColumnDatatypeRule : GoStrMap
  TableColumnDefaultValRule : GoStrMap
  Overwrite : Bool
deriving DecidableEq, Repr

/-- The read `m[k]` of a map of maps: the nil map when `k` is absent. -/
def ruleMapGet (m : List (GoString × GoStrMap)) (k : GoString) : GoStrMap :=
  match m.lookup k with
  | some v => v
  | none => []

/-- What the reverse job is run with: the library functions (`unicode.ToUpper`,
`unicode.ToLower`, case folding, the rendering of a report table), the
configuration, the constants of package `common`, and the answers of the
collaborators that are declared outside the embedded files (catalog readers,
metadata store, writer, `IChanger`, `IReader`, `IReverse`). `Rule` is what
`IReader` produces. -/
structure ReverseEnv (Rule : Type) where
  upper : Char → Char
  lower : Char → Char
  fold : Char → Char
  Render : List GoString → List (List GoString) → GoString
  OracleSchemaName : GoString
  MySQLSchemaName : GoString
  MySQLDBType : GoString
  MySQLTableOption : GoString
  MySQLOverwrite : Bool
  DirectWrite : Bool
  ReverseO2MMode : GoString
  DatabaseTypeTiDB : GoString
  MySQLCheckConsVersion : GoString
  MySQLVersionDelimiter : GoString
  MySQLCharacterSet : GoString
  OracleTableColumnCollationDBVersion : GoString
  OracleCollationMap : GoStrMap
  OracleDBCharacterSetMap : GoStrMap
  filterCFGTable : Except GoString (List GoString)
  CountsErrorLogBySchema : Int × Option GoString
  CountsErrorLogBySchemaAtEnd : Int × Option GoString
  GetOracleDBCharacterNLSCompCollation : Except GoString GoString
  GetOracleDBCharacterNLSSortCollation : Except GoString GoString
  GetOracleDBVersion : Except GoString GoString
  filterOraclePartitionTable : Except GoString (List GoString)
  filterOracleTemporaryTable : Except GoString (List GoString)
  filterOracleClusteredTable : Except GoString (List GoString)
  filterOracleMaterializedView : Except GoString (List GoString)
  IChanger : Except GoString (GoStrMap × List (GoString × GoStrMap) × List (GoString × GoStrMap))
  GetOracleDBCharacterSet : Except GoString GoString
  GetOracleSchemaCollation : Except GoString GoString
  GetOracleSchemaTableCollation : Except GoString GoStrMap
  GetOracleSchemaTableType : Except GoString GoStrMap
  GetMySQLDBVersion : Except GoString GoString
  Getwd : Except GoString GoString
  NewWriter : Option GoString
  RWriteFile : GoString → Option GoString
  CWriteFile : GoString → Option GoString
  RWriteDB : GoString → Option GoString
  Close : Option GoString
  IReader : Table → Except GoString Rule
  IReverse : Rule → Except GoString DDL
  CreateErrorLog : Table → GoString → Option GoString

/-- A write to a sink: the call, then `if err != nil { return err }`. -/
def sinkWrite (kind : EffectKind) (what : GoString) (err : Option GoString) : Run Unit :=
  { trace := [{ kind := kind, what := what }]
    result := match err with
      | none => Outcome.ok ()
      | some e => Outcome.error e }

/-- A write of `text` to a sink: the call, then `if err != nil { return err }`. -/
def sinkWriteText (kind : EffectKind) (what text : GoString) (err : Option GoString) :
    Run Unit :=
  { trace := [{ kind := kind, what := what, text := text }]
    result := match err with
      | none => Outcome.ok ()
      | some e => Outcome.error e }

/-- The comment block that `WriteFile` and `WriteDB` put before the compatibility
statements of a table. -/
def DDL.compHeader {Rule : Type} (env : ReverseEnv Rule) (d : DDL) : GoString :=
  str "/*\n" ++ str " oracle table index or consrtaint maybe mysql has compatibility, skip\n"
    ++ env.Render [str "#", str "ORACLE", str "MYSQL", str "SUGGEST"]
        [[str "TABLE", d.SourceSchemaName ++ str "." ++ d.SourceTableName,
          d.TargetSchemaName ++ str "." ++ d.TargetTableName,
          str "Create Index Or Constraints"]]
    ++ str "\n" ++ str "*/\n"

/-- The method `DDL.WriteFile`: the reversible stream goes to the reverse file, the
compatibility stream, when it is not empty, to the compatibility file. -/
def DDL.WriteFile {Rule : Type} (env : ReverseEnv Rule) (d : DDL) : Run Unit :=
  match d.GenDDLStructure env.DatabaseTypeTiDB env.MySQLCheckConsVersion with
  | none => Run.crash
  | some (revDDLS, compDDLS) =>
    let sqlRev := str "/*\n" ++ str " oracle table reverse sql \n"
      ++ env.Render [str "#", str "ORACLE TABLE TYPE", str "ORACLE", str "MYSQL", str "SUGGEST"]
          [[str "TABLE", d.SourceTableType, d.SourceSchemaName ++ str "." ++ d.SourceTableName,
            d.TargetSchemaName ++ str "." ++ d.TargetTableName, str "Create Table"]]
      ++ str "\n" ++ str "ORIGIN DDL:" ++ d.SourceTableDDL ++ str "\n" ++ str "*/\n"
      ++ Join revDDLS (str "\n")
    let sqlComp := if compDDLS.length > 0 then d.compHeader env ++ Join compDDLS (str "\n") else []
    do
      if sqlRev ≠ [] then
        sinkWriteText EffectKind.fileWrite (str "reverse") sqlRev (env.RWriteFile sqlRev)
      else pure ()
      if sqlComp ≠ [] then
        sinkWriteText EffectKind.fileWrite (str "compatibility") sqlComp (env.CWriteFile sqlComp)
      else pure ()

/-- The method `DDL.WriteDB`: the reversible stream is applied to the target database, the
compatibility stream still goes to the compatibility file. -/
def DDL.WriteDB {Rule : Type} (env : ReverseEnv Rule) (d : DDL) : Run Unit :=
  match d.GenDDLStructure env.DatabaseTypeTiDB env.MySQLCheckConsVersion with
  | none => Run.crash
  | some (revDDLS, compDDLS) =>
    let sqlRev := Join revDDLS (str "\n")
    let sqlComp := if compDDLS.length > 0 then d.compHeader env ++ Join compDDLS (str "\n") else []
    do
      if sqlRev ≠ [] then
        sinkWriteText EffectKind.targetWrite (str "target") sqlRev (env.RWriteDB sqlRev)
      else pure ()
      if sqlComp ≠ [] then
        sinkWriteText EffectKind.fileWrite (str "compatibility") sqlComp (env.CWriteFile sqlComp)
      else pure ()

/-- The method `DDL.Write`: the sink is chosen by the configured `DirectWrite`. -/
def DDL.Write {Rule : Type} (env : ReverseEnv Rule) (d : DDL) : Run Unit :=
  if env.DirectWrite then d.WriteDB env else d.WriteFile env

/-- Modelled from the spec: `IWriter`, declared outside the embedded files, emits
the two streams of a `DDL` through the writer, that is through `DDL.Write`. -/
def IWriter {Rule : Type} (env : ReverseEnv Rule) (d : DDL) : Run Unit :=
  d.Write env

/-- Modelled from the spec: `common.FilterDifferenceStringItems`, declared outside
the embedded files, excludes the materialized views from the tables to reverse: the
items of the first list that are not in the second. -/
def FilterDifferenceStringItems (items excluded : List GoString) : List GoString :=
  items.filter (fun t => !excluded.contains t)

set_option linter.unusedVariables false in
/-- The function `GenReverseTableTask`: the tasks are listed in the order of `exporters` (the
source collects them from concurrent producers); `oracleDBVersion` is only logged. -/
def GenReverseTableTask {Rule : Type} (env : ReverseEnv Rule) (tableNameRule : GoStrMap)
    (tableColumnRule tableDefaultRule : List (GoString × GoStrMap)) (oracleDBVersion : GoString)
    (oracleCollation : Bool) (exporters : List GoString) (nlsSort nlsComp : GoString) :
    Run (List Table) := do
  let characterSet ←
    Run.call EffectKind.oracleRead (str "GetOracleDBCharacterSet") env.GetOracleDBCharacterSet
  match (Split characterSet (str "."))[1]? with
  | none => Run.crash
  | some name =>
    if (env.OracleDBCharacterSetMap.find name).isNone then
      Run.fail (str "oracle db character set [" ++ characterSet ++ str "] isn't support")
    else do
      let schemaCollation ←
        if oracleCollation then
          Run.call EffectKind.oracleRead (str "GetOracleSchemaCollation")
            env.GetOracleSchemaCollation
        else pure []
      let tblCollation ←
        if oracleCollation then
          Run.call EffectKind.oracleRead (str "GetOracleSchemaTableCollation")
            env.GetOracleSchemaTableCollation
        else pure []
      let tablesMap ←
        Run.call EffectKind.oracleRead (str "GetOracleSchemaTableType")
          env.GetOracleSchemaTableType
      let mysqlVersion ←
        Run.call EffectKind.targetRead (str "GetMySQLDBVersion") env.GetMySQLDBVersion
      let version : Option GoString :=
        if EqualFold env.fold env.MySQLDBType env.DatabaseTypeTiDB then some mysqlVersion
        else if Contains mysqlVersion env.MySQLVersionDelimiter then
          (Split mysqlVersion env.MySQLVersionDelimiter)[0]?
        else some mysqlVersion
      match version with
      | none => Run.crash
      | some dbVersion =>
        pure (exporters.map fun t =>
          { SourceSchemaName := ToUpper env.upper env.OracleSchemaName
            TargetSchemaName := ToUpper env.upper env.MySQLSchemaName
            SourceTableName := ToUpper env.upper t
            TargetDBType := ToUpper env.upper env.MySQLDBType
            TargetDBVersion := dbVersion
            TargetTableName :=
              match tableNameRule.find (ToUpper env.upper t) with
              | some val => val
              | none => ToUpper env.upper t
            TargetTableOption := ToUpper env.upper env.MySQLTableOption
            OracleCollation := oracleCollation
            SourceSchemaCollation := if oracleCollation then schemaCollation else []
            SourceTableCollation :=
              if oracleCollation then tblCollation.get (ToUpper env.upper t) else []
            SourceDBNLSSort := nlsSort
            SourceDBNLSComp := nlsComp
            SourceTableType := tablesMap.get t
            TableColumnDatatypeRule := ruleMapGet tableColumnRule (ToUpper env.upper t)
            TableColumnDefaultValRule := ruleMapGet tableDefaultRule (ToUpper env.upper t)
            Overwrite := env.MySQLOverwrite })

/-- The function `GenCreateSchema`: the CREATE DATABASE statement of the target
schema, with the collation mapped from the schema collation or from NLS_COMP. -/
def GenCreateSchema {Rule : Type} (env : ReverseEnv Rule)
    (sourceSchema targetSchema nlsComp : GoString) (directWrite : Bool) : Run Unit := do
  let oraDBVersion ←
    Run.call EffectKind.oracleRead (str "GetOracleDBVersion") env.GetOracleDBVersion
  match versionAtLeast oraDBVersion env.OracleTableColumnCollationDBVersion with
  | none => Run.crash
  | some oraCollation =>
    let schemaCollation ←
      if oraCollation then
        Run.call EffectKind.oracleRead (str "GetOracleSchemaCollation")
          env.GetOracleSchemaCollation
      else pure []
    let head := str "/*\n" ++ str " oracle schema reverse mysql database\n"
      ++ env.Render [str "#", str "ORACLE", str "MYSQL", str "SUGGEST"]
          [[str "Schema", sourceSchema, targetSchema, str "Create Schema"]]
      ++ str "\n" ++ str "*/\n"
    let create (collation : GoString) : GoString :=
      str "CREATE DATABASE IF NOT EXISTS " ++ ToUpper env.upper targetSchema
        ++ str " DEFAULT CHARACTER SET " ++ env.MySQLCharacterSet.map env.lower
        ++ str " COLLATE " ++ collation ++ str ";\n\n"
    let body : Except GoString GoString :=
      if oraCollation then
        match env.OracleCollationMap.find (ToUpper env.upper schemaCollation) with
        | none =>
          Except.error (str "oracle schema collation [" ++ schemaCollation ++ str "] isn't support")
        | some collation => Except.ok (head ++ create collation)
      else
        match env.OracleCollationMap.find (ToUpper env.upper nlsComp) with
        | none =>
          Except.error (str "oracle db nls_comp collation [" ++ nlsComp ++ str "] isn't support")
        | some collation => Except.ok (head ++ create collation)
    match body with
    | Except.error e => Run.fail e
    | Except.ok sqlRev =>
      if directWrite then
        sinkWriteText EffectKind.targetWrite (str "target") sqlRev (env.RWriteDB sqlRev)
      else
        sinkWriteText EffectKind.fileWrite (str "reverse") sqlRev (env.RWriteFile sqlRev)

/-- The rows of the report of `GenCompatibilityTable`. -/
def compatibilityRows (sourceSchema : GoString)
    (partitionTables temporaryTables clusteredTables : List GoString) : List (List GoString) :=
  partitionTables.map (fun part =>
      [sourceSchema, part, str "Partition", str "Manual Process Table"])
    ++ temporaryTables.map (fun temp =>
      [sourceSchema, temp, str "Temporary", str "Manual Process Table"])
    ++ clusteredTables.map (fun cd =>
      [sourceSchema, cd, str "Clustered", str "Manual Process Table"])

/-- The function `GenCompatibilityTable`: the report of the tables that need manual
processing, written to the compatibility sink. -/
def GenCompatibilityTable {Rule : Type} (env : ReverseEnv Rule) (sourceSchema : GoString)
    (partitionTables temporaryTables clusteredTables materializedViews : List GoString) :
    Run Unit :=
  if partitionTables.length > 0 ∨ temporaryTables.length > 0 ∨ clusteredTables.length > 0
      ∨ materializedViews.length > 0 then do
    let sqlComp := str "/*\n"
      ++ str " oracle table maybe mysql has compatibility, will convert to normal table, please manual process\n"
      ++ env.Render [str "SCHEMA", str "TABLE NAME", str "ORACLE TABLE TYPE", str "SUGGEST"]
          (compatibilityRows sourceSchema partitionTables temporaryTables clusteredTables)
      ++ str "\n" ++ str "*/\n"
    sinkWriteText EffectKind.fileWrite (str "compatibility") sqlComp (env.CWriteFile sqlComp)
    if materializedViews.length > 0 then
      let mviewComp := str "/*\n"
        ++ str " oracle materialized view maybe mysql has compatibility, will skip convert to reverse, please manual process\n"
        ++ env.Render [str "SCHEMA", str "MVIEW NAME", str "ORACLE TABLE TYPE", str "SUGGEST"]
            (materializedViews.map fun cd =>
              [sourceSchema, cd, str "Materialized View", str "Manual Process Table"])
        ++ str "\n" ++ str "*/\n"
      sinkWriteText EffectKind.fileWrite (str "compatibility") mviewComp
        (env.CWriteFile mviewComp)
    else pure ()
  else pure ()

/-- The error branch of a table task of `NewReverse`: the failure is recorded in the
error log; the task fails only when that recording fails. -/
def recordFailure {Rule : Type} (env : ReverseEnv Rule) (t : Table) (stage : GoString)
    (cause : GoString) : Run Unit := do
  let err ← Run.ask EffectKind.errorLogWrite t.SourceTableName (env.CreateErrorLog t cause)
  match err with
  | some e =>
    Run.fail (stage
      ++ str " table task failed, detail see [error_log_detail], please rerunning, error: " ++ e)
  | none => pure ()

/-- The task that `NewReverse` submits for one table: read, translate, write. -/
def reverseTask {Rule : Type} (env : ReverseEnv Rule) (t : Table) : Run Unit := do
  let read ← Run.ask EffectKind.tableRead t.SourceTableName (env.IReader t)
  match read with
  | Except.error e => recordFailure env t (str "reader") e
  | Except.ok rule =>
    let translated ← Run.ask EffectKind.tableTranslate t.SourceTableName (env.IReverse rule)
    match translated with
    | Except.error e => recordFailure env t (str "reverse") e
    | Except.ok ddl =>
      let written ← (IWriter env ddl).errorOf
      match written with
      | some e => recordFailure env t (str "writer") e
      | none => pure ()

/-- The part of `NewReverse` from the reading of the Oracle version to the
compatibility report: the preparation of the output, giving the list of table tasks. -/
def NewReverse.prepare {Rule : Type} (env : ReverseEnv Rule) (exporters : List GoString)
    (nlsSort nlsComp : GoString) : Run (List Table) := do
  let oracleDBVersion ←
    Run.call EffectKind.oracleRead (str "GetOracleDBVersion") env.GetOracleDBVersion
  match versionAtLeast oracleDBVersion env.OracleTableColumnCollationDBVersion with
  | none => Run.crash
  | some oracleCollation =>
    let partitionTables ←
      Run.call EffectKind.oracleRead (str "filterOraclePartitionTable")
        (env.filterOraclePartitionTable.mapError
          (fun e => str "error on filter r.Oracle partition table: " ++ e))
    let temporaryTables ←
      Run.call EffectKind.oracleRead (str "filterOracleTemporaryTable")
        (env.filterOracleTemporaryTable.mapError
          (fun e => str "error on filter r.Oracle temporary table: " ++ e))
    let clusteredTables ←
      Run.call EffectKind.oracleRead (str "filterOracleClusteredTable")
        (env.filterOracleClusteredTable.mapError
          (fun e => str "error on filter r.Oracle clustered table: " ++ e))
    let materializedView ←
      Run.call EffectKind.oracleRead (str "filterOracleMaterializedView")
        (env.filterOracleMaterializedView.mapError
          (fun e => str "error on filter r.Oracle materialized view: " ++ e))
    let exporterTables :=
      if materializedView.length ≠ 0 then FilterDifferenceStringItems exporters materializedView
      else exporters
    let rules ← Run.call EffectKind.metaRead (str "IChanger") env.IChanger
    let tables ← GenReverseTableTask env rules.1 rules.2.1 rules.2.2 oracleDBVersion
      oracleCollation exporterTables nlsSort nlsComp
    let pwdDir ← Run.call EffectKind.workDir (str "Getwd") env.Getwd
    sinkWrite EffectKind.fileCreate
      (pwdDir ++ str "/reverse_" ++ env.OracleSchemaName ++ str ".sql") env.NewWriter
    GenCreateSchema env (ToUpper env.upper env.OracleSchemaName)
      (ToUpper env.upper env.MySQLSchemaName) nlsComp env.DirectWrite
    GenCompatibilityTable env (ToUpper env.upper env.OracleSchemaName) partitionTables
      temporaryTables clusteredTables materializedView
    pure tables

/-- The part of `NewReverse` from the table loop on: the tasks of the tables run in
the group, then the writer is closed and the error log is counted. -/
def NewReverse.convert {Rule : Type} (env : ReverseEnv Rule) (tables : List Table) :
    Run Unit := do
  Run.group (tables.map (reverseTask env))
  sinkWrite EffectKind.fileClose (str "Close") env.Close
  let counted ←
    Run.ask EffectKind.metaRead (str "CountsErrorLogBySchema") env.CountsErrorLogBySchemaAtEnd
  match counted.2 with
  | some e => Run.fail e
  | none => pure ()

/-- The part of `NewReverse` after the NLS values have been read and accepted. -/
def NewReverse.translate {Rule : Type} (env : ReverseEnv Rule) (exporters : List GoString)
    (nlsSort nlsComp : GoString) : Run Unit := do
  let tables ← NewReverse.prepare env exporters nlsSort nlsComp
  NewReverse.convert env tables

/-- The method `Reverse.NewReverse`. The call of `GenCreateSchema` passes the configured
`DirectWrite` for the parameter `directWrite` of its declaration. -/
def NewReverse {Rule : Type} (env : ReverseEnv Rule) : Run Unit := do
  let exporters ← Run.call EffectKind.oracleRead (str "filterCFGTable") env.filterCFGTable
  if exporters.length = 0 then pure ()
  else do
    let counted ←
      Run.ask EffectKind.metaRead (str "CountsErrorLogBySchema") env.CountsErrorLogBySchema
    if counted.1 > 0 ∨ counted.2 ≠ none then
      Run.fail (str "reverse schema [" ++ env.OracleSchemaName ++ str "] table mode ["
        ++ env.ReverseO2MMode ++ str "] task failed: " ++ errText counted.2
        ++ str ", table [error_log_detail] exist failed error, please clear and rerunning")
    else do
      let nlsComp ←
        Run.call EffectKind.oracleRead (str "GetOracleDBCharacterNLSCompCollation")
          env.GetOracleDBCharacterNLSCompCollation
      let nlsSort ←
        Run.call EffectKind.oracleRead (str "GetOracleDBCharacterNLSSortCollation")
          env.GetOracleDBCharacterNLSSortCollation
      if (env.OracleCollationMap.find (ToUpper env.upper nlsComp)).isNone then
        Run.fail (str "r.Oracle db nls comp [" ++ nlsComp ++ str "] , mysql db isn't support")
      else if (env.OracleCollationMap.find (ToUpper env.upper nlsSort)).isNone then
        Run.fail (str "r.Oracle db nls sort [" ++ nlsSort ++ str "] , mysql db isn't support")
      else if !EqualFold env.fold nlsSort nlsComp then
        Run.fail (str "r.Oracle db nls_sort [" ++ nlsSort ++ str "] and nls_comp [" ++ nlsComp
          ++ str "] isn't different, need be equal; because mysql db isn't support")
      else NewReverse.translate env exporters nlsSort nlsComp

/-! ## The check job (module/check/o2m) -/

/-- Modelled from the spec: `common.IsSubsetString`, declared outside the embedded
files, tells whether every configured table exists on the target and which ones are
missing. -/
def IsSubsetString (first second : List GoString) : Bool × List GoString :=
  ((second.filter (fun t => !first.contains t)).isEmpty,
    second.filter (fun t => !first.contains t))

/-- What the check job is run with: library functions, configuration, constants of
package `common`, and the answers of the collaborators declared outside the embedded
files (catalog readers, the table-error store, the check writer and the checker of
one table). -/
structure CheckEnv where
  upper : Char → Char
  OracleSchemaName : GoString
  MySQLSchemaName : GoString
  CheckO2MMode : GoString
  OracleTableColumnCollationDBVersion : GoString
  OracleCollationMap : GoStrMap
  OracleDBCharacterSetMap : GoStrMap
  filterCFGTable : Except GoString (List GoString)
  GetMySQLTable : Except GoString (List GoString)
  CountsBySchema : Int × Option GoString
  CountsBySchemaAtEnd : Int × Option GoString
  GetOracleDBCharacterSet : Except GoString GoString
  GetOracleDBCharacterNLSSortCollation : Except GoString GoString
  GetOracleDBCharacterNLSCompCollation : Except GoString GoString
  GetOracleDBVersion : Except GoString GoString
  GetOracleSchemaCollation : Except GoString GoString
  GetOracleSchemaTableCollation : Except GoString GoStrMap
  Getwd : Except GoString GoString
  NewWriter : Option GoString
  GenOracleTable : GoString → Option GoString
  GenMySQLTable : GoString → Option GoString
  Writer : GoString → Option GoString
  Close : Option GoString

/-- The task that `NewCheck` submits for one table: both structures are read and
their comparison is written to the check file. -/
def checkTask (env : CheckEnv) (t : GoString) : Run Unit := do
  sinkWrite EffectKind.tableCompare t (env.GenOracleTable t)
  sinkWrite EffectKind.tableCompare t (env.GenMySQLTable t)
  sinkWrite EffectKind.fileWrite (str "check") (env.Writer t)

/-- The part of `NewCheck` after the collation values have been read and accepted.
Modelled from the spec for `GenCheckTaskTable`, declared outside the embedded files:
one task for each configured table. -/
def NewCheck.compare (env : CheckEnv) (exporters : List GoString) : Run Unit := do
  let oracleDBVersion ←
    Run.call EffectKind.oracleRead (str "GetOracleDBVersion") env.GetOracleDBVersion
  match versionAtLeast oracleDBVersion env.OracleTableColumnCollationDBVersion with
  | none => Run.crash
  | some oracleDBCollation =>
    if oracleDBCollation then do
      let _ ←
        Run.call EffectKind.oracleRead (str "GetOracleSchemaCollation")
          env.GetOracleSchemaCollation
      let _ ←
        Run.call EffectKind.oracleRead (str "GetOracleSchemaTableCollation")
          env.GetOracleSchemaTableCollation
      pure ()
    else pure ()
    let pwdDir ← Run.call EffectKind.workDir (str "Getwd") env.Getwd
    sinkWrite EffectKind.fileCreate
      (pwdDir ++ str "/check_" ++ env.OracleSchemaName ++ str ".sql") env.NewWriter
    Run.group (exporters.map (checkTask env))
    sinkWrite EffectKind.fileClose (str "Close") env.Close
    let counted ← Run.ask EffectKind.metaRead (str "CountsBySchema") env.CountsBySchemaAtEnd
    match counted.2 with
    | some e => Run.fail e
    | none => pure ()

/-- The method `O2M.NewCheck`. -/
def NewCheck (env : CheckEnv) : Run Unit := do
  let exporters ← Run.call EffectKind.oracleRead (str "filterCFGTable") env.filterCFGTable
  let mysqlTables ← Run.call EffectKind.targetRead (str "GetMySQLTable") env.GetMySQLTable
  if !(IsSubsetString mysqlTables exporters).1 then
    Run.fail (str "oracle tables " ++ sliceText (IsSubsetString mysqlTables exporters).2
      ++ str " isn't exist in the mysqldb schema [" ++ env.MySQLSchemaName
      ++ str "], please create")
  else do
    let counted ← Run.ask EffectKind.metaRead (str "CountsBySchema") env.CountsBySchema
    if counted.1 > 0 ∨ counted.2 ≠ none then
      Run.fail (str "check schema [" ++ ToUpper env.upper env.OracleSchemaName ++ str "] mode ["
        ++ env.CheckO2MMode ++ str "] table task failed: " ++ errText counted.2
        ++ str ", table [table_error_detail] exist failed error, please clear and rerunning")
    else do
      let oracleDBCharacterSet ←
        Run.call EffectKind.oracleRead (str "GetOracleDBCharacterSet")
          env.GetOracleDBCharacterSet
      match (Split oracleDBCharacterSet (str "."))[1]? with
      | none => Run.crash
      | some name =>
        if (env.OracleDBCharacterSetMap.find name).isNone then
          Run.fail (str "oracle db character set [" ++ oracleDBCharacterSet
            ++ str "] isn't support")
        else do
          let nlsSort ←
            Run.call EffectKind.oracleRead (str "GetOracleDBCharacterNLSSortCollation")
              env.GetOracleDBCharacterNLSSortCollation
          let nlsComp ←
            Run.call EffectKind.oracleRead (str "GetOracleDBCharacterNLSCompCollation")
              env.GetOracleDBCharacterNLSCompCollation
          if (env.OracleCollationMap.find (ToUpper env.upper nlsSort)).isNone then
            Run.fail (str "oracle db nls sort [" ++ nlsSort ++ str "] isn't support")
          else if (env.OracleCollationMap.find (ToUpper env.upper nlsComp)).isNone then
            Run.fail (str "oracle db nls comp [" ++ nlsComp ++ str "] isn't support")
          else if ToUpper env.upper nlsSort ≠ ToUpper env.upper nlsComp then
            Run.fail (str "oracle db nls_sort [" ++ nlsSort ++ str "] and nls_comp [" ++ nlsComp
              ++ str "] isn't different, need be equal; because mysql db isn't support")
          else NewCheck.compare env exporters

/-- A reverse run against an Oracle 19c schema `MARVIN` with the single table
`ORDERS`, a MySQL 8.0.26 target, every collaborator answering without error, and no
earlier failure recorded. -/
def sampleReverseEnv : ReverseEnv DDL where
  upper := asciiUpper
  lower := fun c => c
  fold := asciiUpper
  Render := fun header rows => Join (header :: rows).flatten (str "|")
  OracleSchemaName := str "marvin"
  MySQLSchemaName := str "shop"
  MySQLDBType := str "mysql"
  MySQLTableOption := []
  MySQLOverwrite := false
  DirectWrite := false
  ReverseO2MMode := str "ReverseO2M"
  DatabaseTypeTiDB := str "TIDB"
  MySQLCheckConsVersion := str "8.0.15"
  MySQLVersionDelimiter := str "-"
  MySQLCharacterSet := str "utf8mb4"
  OracleTableColumnCollationDBVersion := str "12.2"
  OracleCollationMap := [(str "BINARY", str "utf8mb4_bin")]
  OracleDBCharacterSetMap := [(str "AL32UTF8", str "utf8mb4")]
  filterCFGTable := Except.ok [str "ORDERS"]
  CountsErrorLogBySchema := (0, none)
  CountsErrorLogBySchemaAtEnd := (0, none)
  GetOracleDBCharacterNLSCompCollation := Except.ok (str "BINARY")
  GetOracleDBCharacterNLSSortCollation := Except.ok (str "BINARY")
  GetOracleDBVersion := Except.ok (str "19.0.0.0.0")
  filterOraclePartitionTable := Except.ok []
  filterOracleTemporaryTable := Except.ok []
  filterOracleClusteredTable := Except.ok []
  filterOracleMaterializedView := Except.ok []
  IChanger := Except.ok ([], [], [])
  GetOracleDBCharacterSet := Except.ok (str "AMERICAN_AMERICA.AL32UTF8")
  GetOracleSchemaCollation := Except.ok (str "BINARY")
  GetOracleSchemaTableCollation := Except.ok []
  GetOracleSchemaTableType := Except.ok [(str "ORDERS", str "HEAP")]
  GetMySQLDBVersion := Except.ok (str "8.0.26-log")
  Getwd := Except.ok (str "/work")
  NewWriter := none
  RWriteFile := fun _ => none
  CWriteFile := fun _ => none
  RWriteDB := fun _ => none
  Close := none
  IReader := fun t => Except.ok { sampleDDL with TargetDBVersion := t.TargetDBVersion }
  IReverse := fun d => Except.ok d
  CreateErrorLog := fun _ _ => none

/-- The sample reverse run with three failed rows recorded for the schema in reverse
mode. -/
def gatedReverseEnv : ReverseEnv DDL :=
  { sampleReverseEnv with CountsErrorLogBySchema := (3, none) }

/-- A check run against the schema `MARVIN` with the single table `ORDERS`, every
collaborator answering without error, and no earlier failure recorded. -/
def sampleCheckEnv : CheckEnv where
  upper := asciiUpper
  OracleSchemaName := str "marvin"
  MySQLSchemaName := str "shop"
  CheckO2MMode := str "CheckO2M"
  OracleTableColumnCollationDBVersion := str "12.2"
  OracleCollationMap := [(str "BINARY", str "utf8mb4_bin")]
  OracleDBCharacterSetMap := [(str "AL32UTF8", str "utf8mb4")]
  filterCFGTable := Except.ok [str "ORDERS"]
  GetMySQLTable := Except.ok [str "ORDERS", str "ITEM"]
  CountsBySchema := (0, none)
  CountsBySchemaAtEnd := (0, none)
  GetOracleDBCharacterSet := Except.ok (str "AMERICAN_AMERICA.AL32UTF8")
  GetOracleDBCharacterNLSSortCollation := Except.ok (str "BINARY")
  GetOracleDBCharacterNLSCompCollation := Except.ok (str "BINARY")
  GetOracleDBVersion := Except.ok (str "19.0.0.0.0")
  GetOracleSchemaCollation := Except.ok (str "BINARY")
  GetOracleSchemaTableCollation := Except.ok []
  Getwd := Except.ok (str "/work")
  NewWriter := none
  GenOracleTable := fun _ => none
  GenMySQLTable := fun _ => none
  Writer := fun _ => none
  Close := none

/-- The sample check run with two failed rows recorded for the schema in check
mode. -/
def gatedCheckEnv : CheckEnv :=
  { sampleCheckEnv with CountsBySchema := (2, none) }

/-! ## The CREATE TABLE statement as the specification assembles it -/

/-- The partition clause of the specification: a table of partition type `LIST` with
partition definitions has the clause
`PARTITION BY LIST COLUMNS(<keys>) (<definitions joined by ", ">)`, any other table
has none. -/
def DDL.partitionClause (d : DDL) : Option GoString :=
  if d.TablePartitionType = str "LIST" ∧ d.TablePartitions ≠ [] then
    some (str "PARTITION BY LIST COLUMNS(" ++ d.TablePartitionKeys ++ str ") ("
      ++ Join d.TablePartitions (str ", ") ++ str ")")
  else none

/-- The CREATE TABLE element of the specification: prefix, the column lines, the key
lines when there are any, the closing parenthesis, the suffix, the comment when
there is one, the partition clause when there is one, the terminator and a newline. -/
def DDL.createTableText (d : DDL) : GoString :=
  d.TablePrefix ++ str " (\n" ++ Join d.TableColumns (str ",\n")
    ++ (if d.TableKeys = [] then [] else str ",\n" ++ Join d.TableKeys (str ",\n"))
    ++ str "\n)" ++ str " " ++ d.TableSuffix
    ++ (if d.TableComment = [] then [] else str " " ++ d.TableComment)
    ++ (match d.partitionClause with
        | none => []
        | some clause => str " " ++ clause)
    ++ str ";" ++ str "\n"

/-- A table partitioned by `LIST` on the key `REGION`, with two partitions. -/
def listPartitionedDDL : DDL :=
  { sampleDDL with
      TablePartitions := [str "PARTITION P_N VALUES IN ('N')", str "PARTITION P_S VALUES IN ('S')"]
      TablePartitionKeys := str "REGION"
      TablePartitionType := str "LIST" }

/-- The table of `listPartitionedDDL` with the partition type `RANGE`. -/
def rangePartitionedDDL : DDL :=
  { listPartitionedDDL with TablePartitionType := str "RANGE" }

/-- The sample reverse run against an Oracle database that reports `NLS_SORT` as
`binary` and `NLS_COMP` as `BINARY`. -/
def mixedCaseReverseEnv : ReverseEnv DDL :=
  { sampleReverseEnv with GetOracleDBCharacterNLSSortCollation := Except.ok (str "binary") }

/-- The sample reverse run against an Oracle database that reports `NLS_SORT` as
`BINARY_CI` and `NLS_COMP` as `BINARY`, both supported collations. -/
def mismatchReverseEnv : ReverseEnv DDL :=
  { sampleReverseEnv with
      OracleCollationMap := [(str "BINARY", str "utf8mb4_bin"),
        (str "BINARY_CI", str "utf8mb4_general_ci")]
      GetOracleDBCharacterNLSSortCollation := Except.ok (str "BINARY_CI") }

/-- The sample check run against an Oracle database that reports `NLS_SORT` as
`binary` and `NLS_COMP` as `BINARY`. -/
def mixedCaseCheckEnv : CheckEnv :=
  { sampleCheckEnv with GetOracleDBCharacterNLSSortCollation := Except.ok (str "binary") }

/-- The sample check run against an Oracle database that reports `NLS_SORT` as
`BINARY_CI` and `NLS_COMP` as `BINARY`, both supported collations. -/
def mismatchCheckEnv : CheckEnv :=
  { sampleCheckEnv with
      OracleCollationMap := [(str "BINARY", str "utf8mb4_bin"),
        (str "BINARY_CI", str "utf8mb4_general_ci")]
      GetOracleDBCharacterNLSSortCollation := Except.ok (str "BINARY_CI") }

/-- The actions of `NewReverse` up to and including the reading of the two NLS
values. -/
def reverseNLSReads : List Effect :=
  [{ kind := EffectKind.oracleRead, what := str "filterCFGTable" },
   { kind := EffectKind.metaRead, what := str "CountsErrorLogBySchema" },
   { kind := EffectKind.oracleRead, what := str "GetOracleDBCharacterNLSCompCollation" },
   { kind := EffectKind.oracleRead, what := str "GetOracleDBCharacterNLSSortCollation" }]

/-- The actions of `NewCheck` up to and including the reading of the two NLS
values. -/
def checkNLSReads : List Effect :=
  [{ kind := EffectKind.oracleRead, what := str "filterCFGTable" },
   { kind := EffectKind.targetRead, what := str "GetMySQLTable" },
   { kind := EffectKind.metaRead, what := str "CountsBySchema" },
   { kind := EffectKind.oracleRead, what := str "GetOracleDBCharacterSet" },
   { kind := EffectKind.oracleRead, what := str "GetOracleDBCharacterNLSSortCollation" },
   { kind := EffectKind.oracleRead, what := str "GetOracleDBCharacterNLSCompCollation" }]

/-- The sample reverse run against an Oracle database that reports its character set
without the language and territory, as `AL32UTF8`. -/
def dotlessCharsetReverseEnv : ReverseEnv DDL :=
  { sampleReverseEnv with GetOracleDBCharacterSet := Except.ok (str "AL32UTF8") }

/-- The sample check run against an Oracle database that reports its character set
without the language and territory, as `AL32UTF8`. -/
def dotlessCharsetCheckEnv : CheckEnv :=
  { sampleCheckEnv with GetOracleDBCharacterSet := Except.ok (str "AL32UTF8") }

/-- The sample check run against an Oracle database whose character set `WE8DEC` is
not in the allow-list. -/
def unsupportedCharsetCheckEnv : CheckEnv :=
  { sampleCheckEnv with GetOracleDBCharacterSet := Except.ok (str "AMERICAN_AMERICA.WE8DEC") }

/-- The sample check run with the configured tables `ORDERS` and `PAYMENTS`, of which
`PAYMENTS` does not exist in the MySQL schema, and with failed rows recorded. -/
def missingTableCheckEnv : CheckEnv :=
  { sampleCheckEnv with
      filterCFGTable := Except.ok [str "ORDERS", str "PAYMENTS"]
      CountsBySchema := (2, none) }

/-! ## service: general queries -/

/-- The sentinel `IsNull` of package `service`. -/
def IsNull : GoString := str "NULLABLE"

/-- What a database answers to one query text: the error of `db.Query`, the answer of
`rows.Columns`, the error of `rows.ColumnTypes`, for every row that `rows.Next`
delivers the answer of `rows.Scan` (an error, or the raw value of each column, `none`
being the nil slice of a `NULL`), and the answer of `rows.Err` after the last row. -/
structure RowsAnswer where
  Query : Option GoString
  Columns : Except GoString (List GoString)
  ColumnTypes : Option GoString
  Scan : List (Except GoString (List (Option GoString)))
  Err : Option GoString

/-- A `*sql.DB`: the answer to each query text. -/
abbrev SQLDB := GoString → RowsAnswer

/-- The assignment `m[k] = v`, the newest entry first. -/
def GoStrMap.set (m : GoStrMap) (k v : GoString) : GoStrMap :=
  (k, v) :: m

/-- The value `Query` stores for one scanned raw value. -/
def Query.field : Option GoString → GoString
  | none => IsNull
  | some v => v

/-- The loop `for k, v := range values` of `Query` over the scanned values, one per
column, assigning `row[cols[k]]`. -/
def Query.row : List GoString → List (Option GoString) → GoStrMap → GoStrMap
  | key :: cols, v :: values, row => Query.row cols values (row.set key (Query.field v))
  | _, _, row => row

/-- The loop `for rows.Next()` of `Query`: the rows collected and the error returned. -/
def Query.next (cols : List GoString) :
    List (Except GoString (List (Option GoString))) → List GoStrMap
      → List GoStrMap × Option GoString
  | [], res => (res, none)
  | Except.error err :: _, res =>
      (res, some (str "[" ++ err ++ str "] error on general query rows.Scan failed"))
  | Except.ok values :: rest, res => Query.next cols rest (res ++ [Query.row cols values []])

/-- The function `Query` of `service/engine.go`: the columns, the rows and the error. -/
def Query (db : SQLDB) (querySQL : GoString) :
    List GoString × List GoStrMap × Option GoString :=
  match (db querySQL).Query with
  | some err =>
      ([], [], some (str "[" ++ err ++ str "] error on general query SQL [" ++ querySQL
        ++ str "] failed"))
  | none =>
      match (db querySQL).Columns with
      | Except.error err =>
          ([], [], some (str "[" ++ err ++ str "] error on general query rows.Columns failed"))
      | Except.ok cols =>
          let (res, err) := Query.next cols (db querySQL).Scan []
          (cols, res, err)

/-- The entry `GetOracleTableRows` appends for one scanned raw value. -/
def GetOracleTableRows.entry : Option GoString → GoString
  | none => str "NULL"
  | some raw => if raw = [] then str "NULL" else raw

/-- The loop `for rows.Next()` of `GetOracleTableRows`, each row scanned into one raw
value per column: the entries collected and the error of a failed scan. -/
def GetOracleTableRows.next :
    List (Except GoString (List (Option GoString))) → List GoString
      → List GoString × Option GoString
  | [], rowsResult => (rowsResult, none)
  | Except.error err :: _, rowsResult => (rowsResult, some err)
  | Except.ok rawResult :: rest, rowsResult =>
      GetOracleTableRows.next rest (rowsResult ++ rawResult.map GetOracleTableRows.entry)

/-- The method `Engine.GetOracleTableRows` of `service/engine.go` on the Oracle
database `db`: the columns, the flat list of entries and the error. -/
def GetOracleTableRows (db : SQLDB) (querySQL : GoString) :
    List GoString × List GoString × Option GoString :=
  match (db querySQL).Query with
  | some err => ([], [], some err)
  | none =>
      match (db querySQL).Columns with
      | Except.error err => ([], [], some err)
      | Except.ok cols =>
          match (db querySQL).ColumnTypes with
          | some err => (cols, [], some err)
          | none =>
              match GetOracleTableRows.next (db querySQL).Scan [] with
              | (rowsResult, some err) => (cols, rowsResult, some err)
              | (rowsResult, none) =>
                  match (db querySQL).Err with
                  | some err => (cols, rowsResult, some err)
                  | none => (cols, rowsResult, none)

/-- A database whose every query answers the rows `rows` of the columns `cols`. -/
def rowsDB (cols : List GoString) (rows : List (List (Option GoString))) : SQLDB :=
  fun _ =>
    { Query := none
      Columns := Except.ok cols
      ColumnTypes := none
      Scan := rows.map Except.ok
      Err := none }

/-! ## `utils.IsEqualStruct` -/

/-- A Go slice value: `none` is the nil slice. -/
abbrev GoSlice (α : Type) := Option (List α)

/-- The elements of a slice, in order; the nil slice has none. -/
def GoSlice.elems {α : Type} : GoSlice α → List α
  | none => []
  | some xs => xs

/-- The first loop of `IsEqualStruct`: every element of `structB` becomes a key of
`dict`, the map as the list of its keys; `none` is the panic of hashing a key that is
not hashable. -/
def IsEqualStruct.dict {α : Type} (hashable : α → Bool) : List α → List α → Option (List α)
  | [], dict => some dict
  | x :: rest, dict => if hashable x then IsEqualStruct.dict hashable rest (x :: dict) else none

/-- The second loop of `IsEqualStruct`: every element of `structA` is looked up in
`dict` and appended to `diffs` when it is absent; `none` is the panic of hashing a key
that is not hashable, which a lookup raises as an assignment does. -/
def IsEqualStruct.diffs {α : Type} [DecidableEq α] (hashable : α → Bool) (dict : List α) :
    List α → List α → Option (List α)
  | [], diffs => some diffs
  | x :: rest, diffs =>
    if hashable x then
      IsEqualStruct.diffs hashable dict rest (if x ∈ dict then diffs else diffs ++ [x])
    else none

/-- The function `IsEqualStruct` of `utils/util.go` on two slices of one element
type: the differences and the verdict, or `none` for a panic. Both `reflect` values
are valid and of kind `Slice`; `aVal.IsNil()` holds for the nil slice. The elements
are the keys of a `map[interface{}]bool`: `hashable` tells which of them Go can hash
(not a slice, a map or a function, nor a value that holds one), and hashable keys are
compared by `==`, taken as the equality of the element type. The call of the logger
is left out. -/
def IsEqualStruct {α : Type} [DecidableEq α] (hashable : α → Bool)
    (structA structB : GoSlice α) : Option (List α × Bool) :=
  match structA with
  | none => some ([], true)
  | some a =>
    match IsEqualStruct.dict hashable structB.elems [] with
    | none => none
    | some dict =>
      match IsEqualStruct.diffs hashable dict a [] with
      | none => none
      | some diffs => if diffs.length = 0 then some (diffs, true) else some (diffs, false)

/-! ## `utils.SplitIntSlice`, `utils.SplitMultipleStringSlice` -/

/-- The run-time panics of the two split functions. -/
inductive SplitFailure where
  | divideByZero
  | sliceBounds
deriving DecidableEq, Repr

/-- The slice expression `arr[lo:hi]`; `none` is the panic of bounds out of range.
The upper bound is checked against the length of `arr`. -/
def sliceRange {α : Type} (arr : List α) (lo hi : Int) : Option (List α) :=
  if 0 ≤ lo ∧ lo ≤ hi ∧ hi ≤ arr.length then
    some ((arr.drop lo.toNat).take (hi - lo).toNat)
  else none

/-- The slice expression `arr[lo:]`; `none` is the panic of bounds out of range. -/
def sliceFrom {α : Type} (arr : List α) (lo : Int) : Option (List α) :=
  if 0 ≤ lo ∧ lo ≤ arr.length then some (arr.drop lo.toNat) else none

/-- The loop `for i := int64(1); i <= bound; i++` of the split functions over the
remaining values of `i`, with the current `end` and `segmens`. The `int64` values
stay between `0` and `len(arr) + 1`, so that no operation wraps. -/
def splitLoop {α : Type} (arr : List α) (quantity bound : Int) :
    List Int → Int → List (List α) → Except SplitFailure (List (List α))
  | [], _, segmens => Except.ok segmens
  | i :: rest, «end», segmens =>
    let qu := i * quantity
    let segment := if i ≠ bound then sliceRange arr (i - 1 + «end») qu
      else sliceFrom arr (i - 1 + «end»)
    match segment with
    | none => Except.error SplitFailure.sliceBounds
    | some s => splitLoop arr quantity bound rest (qu - i) (segmens ++ [s])

/-- The values `1, 2, .., bound` that the loop variable `i` takes. -/
def loopValues (bound : Int) : List Int :=
  (List.range' 1 bound.toNat).map Int.ofNat

/-- The common body of `SplitIntSlice` and `SplitMultipleStringSlice`, which differ
in the element type only; `/` on `int64` truncates and panics on a zero divisor. -/
def splitSlice {α : Type} (arr : List α) (num : Int) : Except SplitFailure (List (List α)) :=
  if num = 0 then Except.ok [arr]
  else
    let max : Int := arr.length
    if max < num then
      if max = 0 then Except.error SplitFailure.divideByZero
      else splitLoop arr (max.tdiv max) max (loopValues max) 0 []
    else
      splitLoop arr (max.tdiv num) num (loopValues num) 0 []

/-- The function `SplitIntSlice` of `utils/util.go`. -/
def SplitIntSlice (arr : List Int) (num : Int) : Except SplitFailure (List (List Int)) :=
  splitSlice arr num

/-- The function `SplitMultipleStringSlice` of `utils/util.go`. -/
def SplitMultipleStringSlice (arr : List GoString) (num : Int) :
    Except SplitFailure (List (List GoString)) :=
  splitSlice arr num

/-! ## `syncOracleRowsByRowID` (pkg/taskflow/extractor.go) -/

/-- Modelled from the spec: `service.FullSyncMeta`, declared outside the embedded
files, is the record of one ROWID chunk `{source_schema, source_table, rowid_sql,
source_sql, global_scn, worker_id}`. -/
structure FullSyncMeta where
  SourceSchemaName : GoString
  SourceTableName : GoString
  RowidSQL : GoString
  SourceSQL : GoString
  GlobalSCN : Int
  WorkerID : Int
deriving DecidableEq, Repr

/-- The calls that `syncOracleRowsByRowID` makes, those of a chunk with its record. -/
inductive SyncCall where
  | GetFullSyncMetaRowIDRecord
  | extractorTableFullRecord (chunk : FullSyncMeta)
  | ModifyWaitAndFullSyncTableMetaRecord (chunk : FullSyncMeta)
  | applierTableFullRecord (chunk : FullSyncMeta)
  | ClearFullSyncTableMetaRecord (chunk : FullSyncMeta)
  | ModifyWaitSyncTableMetaRecord
deriving DecidableEq, Repr

/-- What `syncOracleRowsByRowID` is run with: the configured names and pool size and
the answers of the collaborators that are declared outside the embedded files, each
as a function of the texts it is called with. -/
structure SyncEnv where
  SourceSchemaName : GoString
  TargetSchemaName : GoString
  MetaSchema : GoString
  SQLThreads : Nat
  GetFullSyncMetaRowIDRecord : GoString → GoString → Except GoString (List FullSyncMeta)
  GetOracleTableRowsData : GoString → List GoString × List GoString × Option GoString
  ModifyWaitAndFullSyncTableMetaRecord :
    GoString → GoString → GoString → GoString → GoString → Option GoString
  applierTableFullRecord :
    GoString → GoString → GoString → List GoString → List GoString → Option GoString
  ClearFullSyncTableMetaRecord : GoString → GoString → GoString → GoString → Option GoString
  ModifyWaitSyncTableMetaRecord : GoString → GoString → GoString → GoString → Option GoString
  IsDone : Bool

/-- The function `extractorTableFullRecord`: the columns and rows that
`GetOracleTableRowsData` returns and its error, wrapped. -/
def extractorTableFullRecord (env : SyncEnv)
    (sourceSchemaName sourceTableName oracleQuery : GoString) :
    List GoString × List GoString × Option GoString :=
  match env.GetOracleTableRowsData oracleQuery with
  | (cols, rowsResult, some err) =>
    (cols, rowsResult,
      some (str "get oracle schema [" ++ sourceSchemaName ++ str "] table ["
        ++ sourceTableName ++ str "] record by sql [" ++ oracleQuery ++ str "] falied: " ++ err))
  | (cols, rowsResult, none) => (cols, rowsResult, none)

/-- Where the task of a chunk stands: before a call, or before the test of `err`
that follows the call, or at its end with what it returned. -/
inductive SyncPC where
  | extract
  | afterExtract
  | modify
  | afterModify
  | apply
  | afterApply
  | clear
  | afterClear
  | done (st : Status)
deriving DecidableEq, Repr

/-- The task closure of one chunk while it runs: the chunk, where the task stands,
and its own variables `columnFields` and `rowsResult`. -/
structure SyncTask where
  chunk : FullSyncMeta
  pc : SyncPC
  columnFields : List GoString
  rowsResult : List GoString
deriving DecidableEq, Repr

/-- One step of the task closure of a chunk on the variable `err` of the enclosing
function, which the closure assigns and tests (it declares no `err` of its own): the
new value of `err`, the task after the step, and the call made. A call together with
the assignment of its results is one step; the test `err != nil` that follows,
together with the `return` or the branch it selects, is the next one. -/
def SyncTask.step (env : SyncEnv) (sourceTableName syncMode : GoString)
    (err : Option GoString) (task : SyncTask) :
    Option GoString × SyncTask × List SyncCall :=
  let querySQL := StringsBuilder [task.chunk.SourceSQL, task.chunk.RowidSQL]
  match task.pc with
  | SyncPC.extract =>
    match extractorTableFullRecord env env.SourceSchemaName sourceTableName querySQL with
    | (cols, rows, e) =>
      (e, { task with pc := SyncPC.afterExtract, columnFields := cols, rowsResult := rows },
        [SyncCall.extractorTableFullRecord task.chunk])
  | SyncPC.afterExtract =>
    match err with
    | some e => (err, { task with pc := SyncPC.done (Status.error e) }, [])
    | none =>
      if task.rowsResult.length = 0 then (err, { task with pc := SyncPC.modify }, [])
      else (err, { task with pc := SyncPC.apply }, [])
  | SyncPC.modify =>
    (env.ModifyWaitAndFullSyncTableMetaRecord env.MetaSchema env.SourceSchemaName
        sourceTableName task.chunk.RowidSQL syncMode,
      { task with pc := SyncPC.afterModify },
      [SyncCall.ModifyWaitAndFullSyncTableMetaRecord task.chunk])
  | SyncPC.afterModify =>
    match err with
    | some e => (err, { task with pc := SyncPC.done (Status.error e) }, [])
    | none => (err, { task with pc := SyncPC.done Status.ok }, [])
  | SyncPC.apply =>
    (env.applierTableFullRecord env.TargetSchemaName task.chunk.SourceTableName querySQL
        task.columnFields task.rowsResult,
      { task with pc := SyncPC.afterApply },
      [SyncCall.applierTableFullRecord task.chunk])
  | SyncPC.afterApply =>
    match err with
    | some e => (err, { task with pc := SyncPC.done (Status.error e) }, [])
    | none => (err, { task with pc := SyncPC.clear }, [])
  | SyncPC.clear =>
    (env.ClearFullSyncTableMetaRecord env.MetaSchema env.SourceSchemaName
        task.chunk.SourceTableName task.chunk.RowidSQL,
      { task with pc := SyncPC.afterClear },
      [SyncCall.ClearFullSyncTableMetaRecord task.chunk])
  | SyncPC.afterClear =>
    match err with
    | some e => (err, { task with pc := SyncPC.done (Status.error e) }, [])
    | none => (err, { task with pc := SyncPC.done Status.ok }, [])
  | SyncPC.done st => (err, { task with pc := SyncPC.done st }, [])

/-- The state of the pool of `syncOracleRowsByRowID`: the variable `err` of the
function, shared by all task closures; the tasks in the order of their submission;
the calls made so far; and the first error that a task has returned, which closes
the pool. -/
structure SyncState where
  err : Option GoString
  tasks : List SyncTask
  calls : List SyncCall
  failed : Option GoString
deriving DecidableEq, Repr

/-- Whether the task has been taken by a worker and has not returned yet. -/
def SyncTask.running (task : SyncTask) : Bool :=
  match task.pc with
  | SyncPC.extract => false
  | SyncPC.done _ => false
  | _ => true

/-- Whether the task at index `i`, not yet taken, may be taken by a worker: the pool
is not closed by an error, the tasks submitted before it have all been taken, and
fewer than `SQLThreads` tasks are running. -/
def SyncState.mayStart (env : SyncEnv) (st : SyncState) (i : Nat) : Bool :=
  st.failed.isNone && (st.tasks.take i).all (fun task => task.pc ≠ SyncPC.extract)
    && decide ((st.tasks.filter SyncTask.running).length < env.SQLThreads)

/-- One step of the pool: the worker that holds the task at index `i` (or takes it,
when it may) performs the next step of that task. A choice that names no task, a
finished task or a task that may not be taken changes nothing. -/
def SyncState.step (env : SyncEnv) (sourceTableName syncMode : GoString) (st : SyncState)
    (i : Nat) : SyncState :=
  match st.tasks[i]? with
  | none => st
  | some task =>
    if task.pc = SyncPC.extract ∧ st.mayStart env i = false then st
    else
      match task.step env sourceTableName syncMode st.err with
      | (err, task1, called) =>
        { err := err
          tasks := st.tasks.set i task1
          calls := st.calls ++ called
          failed :=
            match st.failed, task.pc, task1.pc with
            | none, SyncPC.done _, _ => none
            | none, _, SyncPC.done (Status.error e) => some e
            | failed, _, _ => failed }

/-- The choices that let every task that may still run do so to its end, one task
after the other in the order of submission: a task takes at most six steps. -/
def SyncState.drain (n : Nat) : List Nat :=
  (List.range n).flatMap (fun i => List.replicate 6 i)

/-- The loop over `fullSyncMetas` followed by `wp.Wait()`: the tasks of the chunks
run on the workers of the pool, interleaved as `schedule` chooses step by step, and
after its last choice every task that may still run does so to its end. -/
def syncPool (env : SyncEnv) (sourceTableName syncMode : GoString)
    (fullSyncMetas : List FullSyncMeta) (schedule : List Nat) : SyncState :=
  (schedule ++ SyncState.drain fullSyncMetas.length).foldl
    (SyncState.step env sourceTableName syncMode)
    { err := none
      tasks := fullSyncMetas.map (fun chunk =>
        { chunk := chunk, pc := SyncPC.extract, columnFields := [], rowsResult := [] })
      calls := []
      failed := none }

/-- The function `syncOracleRowsByRowID` under the interleaving `schedule` of its
workers: the calls it makes, in order, and how it ends. `Status.panic` stands for the
end of the process by `zap.L().Fatal` when the pool is not done. -/
def syncOracleRowsByRowID (env : SyncEnv) (sourceTableName syncMode : GoString)
    (schedule : List Nat) : List SyncCall × Status :=
  match env.GetFullSyncMetaRowIDRecord env.SourceSchemaName sourceTableName with
  | Except.error err => ([SyncCall.GetFullSyncMetaRowIDRecord], Status.error err)
  | Except.ok fullSyncMetas =>
    let pool := syncPool env sourceTableName syncMode fullSyncMetas schedule
    match pool.failed with
    | some err => (SyncCall.GetFullSyncMetaRowIDRecord :: pool.calls, Status.error err)
    | none =>
      if !env.IsDone then (SyncCall.GetFullSyncMetaRowIDRecord :: pool.calls, Status.panic)
      else
        match env.ModifyWaitSyncTableMetaRecord env.MetaSchema env.SourceSchemaName
            sourceTableName syncMode with
        | some err =>
          (SyncCall.GetFullSyncMetaRowIDRecord :: pool.calls
            ++ [SyncCall.ModifyWaitSyncTableMetaRecord], Status.error err)
        | none =>
          (SyncCall.GetFullSyncMetaRowIDRecord :: pool.calls
            ++ [SyncCall.ModifyWaitSyncTableMetaRecord], Status.ok)

/-- The chunk of table `T1` with the given ROWID predicate. -/
def sampleChunk (rowid : String) : FullSyncMeta :=
  { SourceSchemaName := str "MARVIN", SourceTableName := str "T1", RowidSQL := str rowid
    SourceSQL := str "SELECT ID FROM MARVIN.T1 WHERE ", GlobalSCN := 1000, WorkerID := 0 }

/-- A full load of table `T1` in two chunks on two workers: both chunks hold one
row, the apply of the first fails, the apply of the second succeeds. -/
def sampleSyncEnv : SyncEnv where
  SourceSchemaName := str "MARVIN"
  TargetSchemaName := str "SHOP"
  MetaSchema := str "META"
  SQLThreads := 2
  GetFullSyncMetaRowIDRecord := fun _ _ =>
    Except.ok [sampleChunk "ROWID < 'B'", sampleChunk "ROWID < 'C'"]
  GetOracleTableRowsData := fun _ => ([str "ID"], [str "(1)"], none)
  ModifyWaitAndFullSyncTableMetaRecord := fun _ _ _ _ _ => none
  applierTableFullRecord := fun _ _ querySQL _ _ =>
    if querySQL = str "SELECT ID FROM MARVIN.T1 WHERE ROWID < 'B'" then some (str "deadlock")
    else none
  ClearFullSyncTableMetaRecord := fun _ _ _ _ => none
  ModifyWaitSyncTableMetaRecord := fun _ _ _ _ => none
  IsDone := true

/-! ## Sample runs of the table loop of the reverse job -/

/-- The table `ITEM` to which the foreign key of `sampleDDL` refers. -/
def itemDDL : DDL :=
  { sampleDDL with
      SourceTableName := str "ITEM"
      TargetTableName := str "ITEM"
      TablePrefix := str "CREATE TABLE `SHOP`.`ITEM`"
      TableColumns := [str "`ID` INT"]
      TableCheckKeys := []
      TableForeignKeys := [] }

/-- The sample reverse run with the two tables `ORDERS` and `ITEM`, in this order;
`ORDERS` has a foreign key that refers to `ITEM`. -/
def foreignKeyReverseEnv : ReverseEnv DDL :=
  { sampleReverseEnv with
      filterCFGTable := Except.ok [str "ORDERS", str "ITEM"]
      GetOracleSchemaTableType :=
        Except.ok [(str "ORDERS", str "HEAP"), (str "ITEM", str "HEAP")]
      IReader := fun t =>
        if t.SourceTableName = str "ITEM" then
          Except.ok { itemDDL with TargetDBVersion := t.TargetDBVersion }
        else Except.ok { sampleDDL with TargetDBVersion := t.TargetDBVersion } }

/-- The run of the two tables in which every write of a CREATE TABLE statement to
the reverse file fails. -/
def writerFailureReverseEnv : ReverseEnv DDL :=
  { foreignKeyReverseEnv with
      RWriteFile := fun text =>
        if Contains text (str "CREATE TABLE") then some (str "disk full") else none }

/-- The run of the two tables in which the writes fail and the error log cannot be
written either. -/
def writerAndLogFailureReverseEnv : ReverseEnv DDL :=
  { writerFailureReverseEnv with CreateErrorLog := fun _ _ => some (str "meta down") }

/-- The run of the two tables in which the reading of `ORDERS` fails. -/
def readerFailureReverseEnv : ReverseEnv DDL :=
  { foreignKeyReverseEnv with
      IReader := fun t =>
        if t.SourceTableName = str "ITEM" then
          Except.ok { itemDDL with TargetDBVersion := t.TargetDBVersion }
        else Except.error (str "ORA-00942") }

/-- The run of the two tables in which the reading of `ORDERS` fails and the error
log cannot be written. -/
def readerAndLogFailureReverseEnv : ReverseEnv DDL :=
  { readerFailureReverseEnv with CreateErrorLog := fun _ _ => some (str "meta down") }

/-- The run of the two tables in which the reading of `ORDERS` fails, its error-log
row is recorded, and the closing of the writer fails. -/
def readerAndCloseFailureReverseEnv : ReverseEnv DDL :=
  { readerFailureReverseEnv with Close := some (str "close failed") }

/-- The task that the sample runs list for the given table. -/
def sampleTask (table : String) : Table :=
  { SourceSchemaName := str "MARVIN"
    TargetSchemaName := str "SHOP"
    SourceTableName := str table
    TargetDBType := str "MYSQL"
    TargetDBVersion := str "8.0.26"
    TargetTableName := str table
    TargetTableOption := []
    OracleCollation := true
    SourceSchemaCollation := str "BINARY"
    SourceTableCollation := []
    SourceDBNLSSort := str "BINARY"
    SourceDBNLSComp := str "BINARY"
    SourceTableType := str "HEAP"
    TableColumnDatatypeRule := []
    TableColumnDefaultValRule := []
    Overwrite := false }

/-! # Properties -/

/-! ## Facts about `VersionOrdinal` -/


theorem VersionOrdinal.step_inv (s : VOState) (hs : s.Inv) (b : Nat) :
    ∃ s', VersionOrdinal.step s b = some s' ∧ s'.Inv := by
  unfold VersionOrdinal.step
  by_cases hb : 48 > b ∨ b > 57
  · rw [if_pos hb]
    exact ⟨_, rfl, fun j hj => by simp at hj⟩
  · rw [if_neg hb]
    have hmod : ∀ c : Nat, ¬ ((c + 1) % 2 ^ 8 > maxByte) := by
      intro c
      have := Nat.mod_lt (c + 1) (show 2 ^ 8 > 0 by norm_num)
      simp only [maxByte]
      omega
    cases hj : s.j with
    | none =>
      have h0 : (s.vo ++ [0])[(s.vo ++ [0]).length - 1]? = some 0 := by simp
      simp only [h0, hmod, if_false, Nat.zero_ne_one]
      refine ⟨_, rfl, fun j hj => ?_⟩
      simp only [Option.some.injEq] at hj
      subst hj
      simp
    | some j =>
      have hlt := hs j hj
      have hc : s.vo[j]? = some (s.vo[j]) := List.getElem?_eq_getElem (by omega)
      have hd : s.vo[j + 1]? = some (s.vo[j + 1]) := List.getElem?_eq_getElem hlt
      simp only [hc, hd, hmod, if_false]
      by_cases h1 : s.vo[j] = 1
      · rw [if_pos h1]
        by_cases h48 : s.vo[j + 1] = 48
        · rw [if_pos h48]
          refine ⟨_, rfl, fun i hi => ?_⟩
          simp only [Option.some.injEq] at hi
          subst hi
          simpa using hlt
        · rw [if_neg h48]
          refine ⟨_, rfl, fun i hi => ?_⟩
          simp only [Option.some.injEq] at hi
          subst hi
          simp
          omega
      · rw [if_neg h1]
        refine ⟨_, rfl, fun i hi => ?_⟩
        simp only [Option.some.injEq] at hi
        subst hi
        simp
        omega

theorem VersionOrdinal.loop_inv (bs : List Nat) (s : VOState) (hs : s.Inv) :
    ∃ s', VersionOrdinal.loop bs s = some s' ∧ s'.Inv := by
  induction bs generalizing s with
  | nil => exact ⟨s, rfl, hs⟩
  | cons b bs ih =>
    obtain ⟨s', hstep, hs'⟩ := VersionOrdinal.step_inv s hs b
    simp only [VersionOrdinal.loop, hstep]
    exact ih s' hs'

/-- The function `VersionOrdinal` returns an encoding for every input: no index is out of
range and the explicit panic is never reached. -/
theorem VersionOrdinal_returns (version : List Nat) :
    ∃ vo, VersionOrdinal version = some vo := by
  obtain ⟨s', hloop, _⟩ :=
    VersionOrdinal.loop_inv version { vo := [], j := none } (fun j hj => by simp at hj)
  exact ⟨s'.vo, by simp [VersionOrdinal, hloop]⟩

theorem versionCompare_returns (a b : GoString) :
    ∃ o, versionCompare a b = some o := by
  obtain ⟨x, hx⟩ := VersionOrdinal_returns (goBytes a)
  obtain ⟨y, hy⟩ := VersionOrdinal_returns (goBytes b)
  exact ⟨bytesCompare x y, by simp [versionCompare, hx, hy]⟩

/-! ## Routing of foreign keys and check constraints -/

theorem alterSQL_ne_tableDDL (d : DDL) (k : GoString) :
    d.alterSQL k ≠ d.tableDDL ++ str "\n" := by
  intro h
  have hsplit : (str "ALTER TABLE `" ++ d.TargetSchemaName ++ str "`.`" ++ d.TargetTableName
      ++ str "` ADD " ++ k) ++ [';'] = d.tableDDL ++ ['\n'] := h
  have := (List.append_inj' hsplit rfl).2
  simp at this

/-- C1: for a DDL whose `TargetDBType` is the TiDB constant, `GenDDLStructure`
returns; its reversible stream is the CREATE TABLE statement alone, its
compatibility stream is the foreign-key ALTERs, then the check ALTERs, then the
`TableCompatibleDDL` entries; every foreign-key and check ALTER is in the
compatibility stream and none is in the reversible stream. -/
theorem GenDDLStructure_tidb (DatabaseTypeTiDB MySQLCheckConsVersion : GoString) (d : DDL)
    (htidb : d.TargetDBType = DatabaseTypeTiDB) :
    ∃ rev comp, d.GenDDLStructure DatabaseTypeTiDB MySQLCheckConsVersion = some (rev, comp)
      ∧ rev = [d.tableDDL ++ str "\n"]
      ∧ comp = d.TableForeignKeys.map d.alterSQL ++ d.TableCheckKeys.map d.alterSQL
          ++ d.TableCompatibleDDL
      ∧ (∀ k ∈ d.TableForeignKeys, d.alterSQL k ∈ comp ∧ d.alterSQL k ∉ rev)
      ∧ (∀ k ∈ d.TableCheckKeys, d.alterSQL k ∈ comp ∧ d.alterSQL k ∉ rev) := by
  refine ⟨_, _, ?_, rfl, rfl, ?_, ?_⟩
  · simp [DDL.GenDDLStructure, htidb, DDL.foreignKeyDDL, DDL.checkKeyDDL]
  · intro k hk
    refine ⟨?_, ?_⟩
    · exact List.mem_append_left _ (List.mem_append_left _ (List.mem_map_of_mem _ hk))
    · simpa using alterSQL_ne_tableDDL d k
  · intro k hk
    refine ⟨?_, ?_⟩
    · exact List.mem_append_left _ (List.mem_append_right _ (List.mem_map_of_mem _ hk))
    · simpa using alterSQL_ne_tableDDL d k

/-- C1 at the sample table reversed for TiDB: the reversible stream is the CREATE
TABLE statement, both ALTERs are in the compatibility stream. -/
theorem GenDDLStructure_tidb_sample :
    (sampleDDLFor "TIDB" "6.5.0").TargetDBType = str "TIDB"
    ∧ ∃ rev comp, (sampleDDLFor "TIDB" "6.5.0").GenDDLStructure (str "TIDB") (str "8.0.15")
          = some (rev, comp)
      ∧ rev = [(sampleDDLFor "TIDB" "6.5.0").tableDDL ++ str "\n"]
      ∧ comp = (sampleDDLFor "TIDB" "6.5.0").TableForeignKeys.map
            (sampleDDLFor "TIDB" "6.5.0").alterSQL
          ++ (sampleDDLFor "TIDB" "6.5.0").TableCheckKeys.map
            (sampleDDLFor "TIDB" "6.5.0").alterSQL
          ++ (sampleDDLFor "TIDB" "6.5.0").TableCompatibleDDL
      ∧ (∀ k ∈ (sampleDDLFor "TIDB" "6.5.0").TableForeignKeys,
          (sampleDDLFor "TIDB" "6.5.0").alterSQL k ∈ comp
            ∧ (sampleDDLFor "TIDB" "6.5.0").alterSQL k ∉ rev)
      ∧ (∀ k ∈ (sampleDDLFor "TIDB" "6.5.0").TableCheckKeys,
          (sampleDDLFor "TIDB" "6.5.0").alterSQL k ∈ comp
            ∧ (sampleDDLFor "TIDB" "6.5.0").alterSQL k ∉ rev) :=
  ⟨rfl, GenDDLStructure_tidb (str "TIDB") (str "8.0.15") (sampleDDLFor "TIDB" "6.5.0") rfl⟩

/-- C2 as stated fails when the target version equals the check-constraint version:
for a MySQL target of version 8.0.15 and `MySQLCheckConsVersion = "8.0.15"` the two
ordinals are equal, yet the check ALTER is in the compatibility stream and not in
the reversible stream. -/
theorem GenDDLStructure_check_at_equal_version :
    sampleDDL.TargetDBType ≠ str "TIDB"
    ∧ versionCompare sampleDDL.TargetDBVersion (str "8.0.15") = some Ordering.eq
    ∧ sampleDDL.GenDDLStructure (str "TIDB") (str "8.0.15")
        = some ([sampleDDL.tableDDL ++ str "\n",
                 sampleDDL.alterSQL (str "CONSTRAINT `FK1` FOREIGN KEY (`ID`) REFERENCES `SHOP`.`ITEM` (`ID`)")],
                [sampleDDL.alterSQL (str "CONSTRAINT `CK1` CHECK (`QTY` > 0)")])
    ∧ sampleDDL.alterSQL (str "CONSTRAINT `CK1` CHECK (`QTY` > 0)")
        ∉ [sampleDDL.tableDDL ++ str "\n",
           sampleDDL.alterSQL (str "CONSTRAINT `FK1` FOREIGN KEY (`ID`) REFERENCES `SHOP`.`ITEM` (`ID`)")] := by
  refine ⟨by decide, by decide, by decide, by decide⟩

/-- C3: for a DDL whose target is not TiDB and whose `TargetDBVersion` is below
`MySQLCheckConsVersion` (compared through `VersionOrdinal`), `GenDDLStructure`
returns; the reversible stream is the CREATE TABLE statement followed by the
foreign-key ALTERs and nothing else, and the compatibility stream is the check
ALTERs followed by `TableCompatibleDDL`. -/
theorem GenDDLStructure_mysql_below (DatabaseTypeTiDB MySQLCheckConsVersion : GoString)
    (d : DDL) (hdb : d.TargetDBType ≠ DatabaseTypeTiDB)
    (hver : versionCompare d.TargetDBVersion MySQLCheckConsVersion = some Ordering.lt) :
    ∃ rev comp, d.GenDDLStructure DatabaseTypeTiDB MySQLCheckConsVersion = some (rev, comp)
      ∧ rev = [d.tableDDL ++ str "\n"] ++ d.TableForeignKeys.map d.alterSQL
      ∧ comp = d.TableCheckKeys.map d.alterSQL ++ d.TableCompatibleDDL
      ∧ (∀ k ∈ d.TableForeignKeys, d.alterSQL k ∈ rev)
      ∧ (∀ k ∈ d.TableCheckKeys, d.alterSQL k ∈ comp) := by
  refine ⟨_, _, ?_, rfl, rfl, ?_, ?_⟩
  · simp [DDL.GenDDLStructure, hdb, hver, DDL.foreignKeyDDL, DDL.checkKeyDDL]
  · intro k hk
    exact List.mem_append_right _ (List.mem_map_of_mem _ hk)
  · intro k hk
    exact List.mem_append_left _ (List.mem_map_of_mem _ hk)

/-- C3 at the sample table reversed for MySQL 5.7.44. -/
theorem GenDDLStructure_mysql_below_sample :
    (sampleDDLFor "MYSQL" "5.7.44").TargetDBType ≠ str "TIDB"
    ∧ versionCompare (sampleDDLFor "MYSQL" "5.7.44").TargetDBVersion (str "8.0.15")
        = some Ordering.lt
    ∧ ∃ rev comp, (sampleDDLFor "MYSQL" "5.7.44").GenDDLStructure (str "TIDB") (str "8.0.15")
          = some (rev, comp)
      ∧ rev = [(sampleDDLFor "MYSQL" "5.7.44").tableDDL ++ str "\n"]
          ++ (sampleDDLFor "MYSQL" "5.7.44").TableForeignKeys.map
            (sampleDDLFor "MYSQL" "5.7.44").alterSQL
      ∧ comp = (sampleDDLFor "MYSQL" "5.7.44").TableCheckKeys.map
            (sampleDDLFor "MYSQL" "5.7.44").alterSQL
          ++ (sampleDDLFor "MYSQL" "5.7.44").TableCompatibleDDL
      ∧ (∀ k ∈ (sampleDDLFor "MYSQL" "5.7.44").TableForeignKeys,
          (sampleDDLFor "MYSQL" "5.7.44").alterSQL k ∈ rev)
      ∧ (∀ k ∈ (sampleDDLFor "MYSQL" "5.7.44").TableCheckKeys,
          (sampleDDLFor "MYSQL" "5.7.44").alterSQL k ∈ comp) :=
  ⟨by decide, by decide,
    GenDDLStructure_mysql_below (str "TIDB") (str "8.0.15") (sampleDDLFor "MYSQL" "5.7.44")
      (by decide) (by decide)⟩

/-! ## `VersionOrdinal` orders dotted versions -/



theorem digitChar_toNat (d : Nat) (h : d < 10) : (Nat.digitChar d).toNat = d + 48 := by
  interval_cases d <;> rfl

theorem toDigitsCore_eq (fuel n : Nat) (ds : List Char) (h : n < fuel) (hn : 0 < n) :
    Nat.toDigitsCore 10 fuel n ds = ((Nat.digits 10 n).reverse.map Nat.digitChar) ++ ds := by
  induction fuel generalizing n ds with
  | zero => omega
  | succ fuel ih =>
    rw [Nat.toDigitsCore]
    by_cases h0 : n / 10 = 0
    · have hlt : n < 10 := by omega
      simp only [h0, if_true]
      rw [Nat.digits_of_lt 10 n (by omega) hlt, Nat.mod_eq_of_lt hlt]
      rfl
    · simp only [h0, if_false]
      rw [ih (n / 10) _ (by omega) (by omega), Nat.digits_def' (by norm_num) hn]
      simp

theorem decimal_eq (n : Nat) : decimal n = (beDigits n).map (· + 48) := by
  unfold decimal beDigits Nat.toDigits
  by_cases h0 : n = 0
  · subst h0
    rfl
  · rw [if_neg h0, toDigitsCore_eq _ _ _ (by omega) (by omega)]
    simp only [List.append_nil, List.map_map]
    apply List.map_congr_left
    intro d hd
    have : d < 10 := Nat.digits_lt_base (by norm_num) (List.mem_reverse.mp hd)
    simpa using digitChar_toNat d this

theorem beDigits_lt (n d : Nat) (hd : d ∈ beDigits n) : d < 10 := by
  unfold beDigits at hd
  split at hd
  · simp at hd; omega
  · exact Nat.digits_lt_base (by norm_num) (List.mem_reverse.mp hd)

theorem ofDigits_beDigits (n : Nat) : Nat.ofDigits 10 (beDigits n).reverse = n := by
  unfold beDigits
  split
  · subst_vars; simp
  · simp [Nat.ofDigits_digits]

theorem beDigits_length_mono {m n : Nat} (h : m ≤ n) :
    (beDigits m).length ≤ (beDigits n).length := by
  unfold beDigits
  by_cases hm : m = 0
  · subst hm
    by_cases hn : n = 0
    · simp [hn]
    · simp only [if_true, if_neg hn, List.length_singleton, List.length_reverse]
      have := Nat.digits_len 10 n (by norm_num) hn
      omega
  · have hn : n ≠ 0 := by omega
    simp only [if_neg hm, if_neg hn, List.length_reverse]
    exact Nat.le_digits_len_le 10 m n h

theorem bytesCompare_append_left (l r r' : List Nat) :
    bytesCompare (l ++ r) (l ++ r') = bytesCompare r r' := by
  induction l with
  | nil => rfl
  | cons a l ih => simp [bytesCompare, ih]

theorem bytesCompare_swap (a b : List Nat) :
    bytesCompare b a = (bytesCompare a b).swap := by
  induction a generalizing b with
  | nil => cases b <;> rfl
  | cons x a ih =>
    cases b with
    | nil => rfl
    | cons y b =>
      simp only [bytesCompare]
      by_cases h1 : x < y
      · have h2 : ¬ y < x := by omega
        simp [h1, h2, Ordering.swap]
      · by_cases h2 : y < x
        · simp [h1, h2, Ordering.swap]
        · simp [h1, h2, ih]

/-- Numerals of equal length compare as their values. -/
theorem bytesCompare_digits_lt (p q : List Nat) (r r' : List Nat)
    (hlen : p.length = q.length) (hp : ∀ d ∈ p, d < 10) (hq : ∀ d ∈ q, d < 10)
    (hlt : Nat.ofDigits 10 p.reverse < Nat.ofDigits 10 q.reverse) :
    bytesCompare (p.map (· + 48) ++ r) (q.map (· + 48) ++ r') = Ordering.lt := by
  induction p generalizing q with
  | nil =>
    cases q with
    | nil => simp at hlt
    | cons b q => simp at hlen
  | cons a p ih =>
    cases q with
    | nil => simp at hlen
    | cons b q =>
      simp only [List.length_cons, Nat.add_right_cancel_iff] at hlen
      simp only [List.reverse_cons, Nat.ofDigits_append, List.length_reverse,
        Nat.ofDigits_singleton] at hlt
      have hpb : Nat.ofDigits 10 p.reverse < 10 ^ p.length := by
        have := Nat.ofDigits_lt_base_pow_length (b := 10) (l := p.reverse) (by norm_num)
          (fun x hx => hp x (List.mem_cons_of_mem _ (List.mem_reverse.mp hx)))
        simpa using this
      have hqb : Nat.ofDigits 10 q.reverse < 10 ^ q.length := by
        have := Nat.ofDigits_lt_base_pow_length (b := 10) (l := q.reverse) (by norm_num)
          (fun x hx => hq x (List.mem_cons_of_mem _ (List.mem_reverse.mp hx)))
        simpa using this
      rw [hlen] at hlt hpb
      simp only [List.map_cons, List.cons_append, bytesCompare]
      by_cases h1 : a < b
      · simp [h1]
      · by_cases h2 : b < a
        · exfalso
          have : 10 ^ q.length * (b + 1) ≤ 10 ^ q.length * a :=
            Nat.mul_le_mul_left _ h2
          have h3 : 10 ^ q.length * (b + 1) = 10 ^ q.length * b + 10 ^ q.length := by ring
          omega
        · have hab : a = b := by omega
          subst hab
          have h1' : ¬ a + 48 < a + 48 := by omega
          simp only [h1', if_false]
          apply ih q hlen (fun d hd => hp d (List.mem_cons_of_mem _ hd))
            (fun d hd => hq d (List.mem_cons_of_mem _ hd))
          omega

theorem bytesCompare_numeral_lt (x y : Nat) (r r' : List Nat) (h : x < y) :
    bytesCompare ((decimal x).length :: (decimal x ++ r))
      ((decimal y).length :: (decimal y ++ r')) = Ordering.lt := by
  have hmono := beDigits_length_mono (Nat.le_of_lt h)
  have hlx : (decimal x).length = (beDigits x).length := by simp [decimal_eq]
  have hly : (decimal y).length = (beDigits y).length := by simp [decimal_eq]
  simp only [bytesCompare]
  by_cases h1 : (decimal x).length < (decimal y).length
  · simp [h1]
  · have heq : (beDigits x).length = (beDigits y).length := by omega
    have h2 : ¬ (decimal y).length < (decimal x).length := by omega
    simp only [h1, h2, if_false]
    rw [decimal_eq, decimal_eq]
    exact bytesCompare_digits_lt _ _ _ _ heq (beDigits_lt x) (beDigits_lt y)
      (by rw [ofDigits_beDigits, ofDigits_beDigits]; exact h)

theorem bytesCompare_numeral (x y : Nat) (r r' : List Nat) :
    bytesCompare ((decimal x).length :: (decimal x ++ r))
      ((decimal y).length :: (decimal y ++ r'))
      = if x < y then Ordering.lt else if y < x then Ordering.gt else bytesCompare r r' := by
  by_cases h1 : x < y
  · rw [if_pos h1]
    exact bytesCompare_numeral_lt x y r r' h1
  · rw [if_neg h1]
    by_cases h2 : y < x
    · rw [if_pos h2, bytesCompare_swap, bytesCompare_numeral_lt y x r' r h2]
      rfl
    · rw [if_neg h2]
      have hxy : x = y := by omega
      subst hxy
      simp only [bytesCompare, Nat.lt_irrefl, if_false]
      exact bytesCompare_append_left _ _ _

theorem ordinalOf_ne_nil (x : Nat) (xs : List Nat) : ordinalOf (x :: xs) ≠ [] := by
  cases xs <;> simp [ordinalOf]

/-- The ordinals of two versions compare as the tuples of their components. -/
theorem bytesCompare_ordinalOf (xs ys : List Nat) :
    bytesCompare (ordinalOf xs) (ordinalOf ys) = bytesCompare xs ys := by
  induction xs generalizing ys with
  | nil =>
    cases ys with
    | nil => rfl
    | cons y ys =>
      cases h : ordinalOf (y :: ys) with
      | nil => exact absurd h (ordinalOf_ne_nil y ys)
      | cons b bs => rfl
  | cons x xs ih =>
    cases ys with
    | nil =>
      cases h : ordinalOf (x :: xs) with
      | nil => exact absurd h (ordinalOf_ne_nil x xs)
      | cons b bs => rfl
    | cons y ys =>
      cases xs with
      | nil =>
        cases ys with
        | nil =>
          have := bytesCompare_numeral x y [] []
          simpa [ordinalOf, bytesCompare] using this
        | cons y' ys' =>
          have := bytesCompare_numeral x y [] (46 :: ordinalOf (y' :: ys'))
          simpa [ordinalOf, bytesCompare] using this
      | cons x' xs' =>
        cases ys with
        | nil =>
          have := bytesCompare_numeral x y (46 :: ordinalOf (x' :: xs')) []
          simpa [ordinalOf, bytesCompare] using this
        | cons y' ys' =>
          have := bytesCompare_numeral x y (46 :: ordinalOf (x' :: xs'))
            (46 :: ordinalOf (y' :: ys'))
          rw [show ordinalOf (x :: x' :: xs')
              = (decimal x).length :: (decimal x ++ 46 :: ordinalOf (x' :: xs')) from rfl,
            show ordinalOf (y :: y' :: ys')
              = (decimal y).length :: (decimal y ++ 46 :: ordinalOf (y' :: ys')) from rfl,
            this]
          have ih' := ih (y' :: ys')
          conv_rhs => rw [bytesCompare]
          conv_lhs => rw [bytesCompare]
          simp only [Nat.lt_irrefl, if_false, ih']

theorem bytesCompare_lt_iff (a b : List Nat) :
    bytesCompare a b = Ordering.lt ↔ List.Lex (· < ·) a b := by
  induction a generalizing b with
  | nil =>
    cases b with
    | nil => simp [bytesCompare]
    | cons y b => simp [bytesCompare, List.Lex.nil]
  | cons x a ih =>
    cases b with
    | nil => simp [bytesCompare]
    | cons y b =>
      simp only [bytesCompare]
      by_cases h1 : x < y
      · simp [h1, List.Lex.rel h1]
      · by_cases h2 : y < x
        · simp only [h1, h2, if_false, if_true]
          constructor
          · intro h; cases h
          · intro h
            cases h with
            | cons h => omega
            | rel h => omega
        · have hxy : x = y := by omega
          subst hxy
          simp only [h1, if_false, ih]
          constructor
          · intro h; exact List.Lex.cons h
          · intro h
            cases h with
            | cons h => exact h
            | rel h => omega

theorem bytesCompare_eq_iff (a b : List Nat) :
    bytesCompare a b = Ordering.eq ↔ a = b := by
  induction a generalizing b with
  | nil =>
    cases b with
    | nil => simp [bytesCompare]
    | cons y b => simp [bytesCompare]
  | cons x a ih =>
    cases b with
    | nil => simp [bytesCompare]
    | cons y b =>
      simp only [bytesCompare]
      by_cases h1 : x < y
      · simp [h1]; omega
      · by_cases h2 : y < x
        · simp [h1, h2]; omega
        · have hxy : x = y := by omega
          subst hxy
          simp [h1, ih]

theorem bytesCompare_gt_iff (a b : List Nat) :
    bytesCompare a b = Ordering.gt ↔ List.Lex (· < ·) b a := by
  rw [← bytesCompare_lt_iff, bytesCompare_swap a b]
  cases bytesCompare a b <;> simp [Ordering.swap]

theorem VersionOrdinal.loop_append (a b : List Nat) (s : VOState) :
    VersionOrdinal.loop (a ++ b) s
      = match VersionOrdinal.loop a s with
        | none => none
        | some s' => VersionOrdinal.loop b s' := by
  induction a generalizing s with
  | nil => rfl
  | cons x a ih =>
    simp only [List.cons_append, VersionOrdinal.loop]
    cases VersionOrdinal.step s x with
    | none => rfl
    | some s' => exact ih s'

theorem set_length_append (vo : List Nat) (c x : Nat) (rest : List Nat) :
    (vo ++ c :: rest).set vo.length x = vo ++ x :: rest := by
  induction vo with
  | nil => rfl
  | cons a vo ih => simp [List.set, ih]

/-- A digit that extends an open run whose first digit is not a lone `0` is
appended and counted. -/
theorem VersionOrdinal.step_grow (vo ds : List Nat) (e : Nat) (he : 48 ≤ e ∧ e ≤ 57)
    (hds : ds ≠ []) (h48 : ds ≠ [48]) (hlen : ds.length + 1 ≤ 255) :
    VersionOrdinal.step { vo := vo ++ ds.length :: ds, j := some vo.length } e
      = some { vo := vo ++ (ds.length + 1) :: (ds ++ [e]), j := some vo.length } := by
  unfold VersionOrdinal.step
  have hb : ¬ (48 > e ∨ e > 57) := by omega
  rw [if_neg hb]
  have hc : (vo ++ ds.length :: ds)[vo.length]? = some ds.length := by
    rw [List.getElem?_append_right (Nat.le_refl _)]
    simp
  have hmod : (ds.length + 1) % 2 ^ 8 = ds.length + 1 := Nat.mod_eq_of_lt (by omega)
  have hmax : ¬ (ds.length + 1 > maxByte) := by simp only [maxByte]; omega
  have hset : (vo ++ ds.length :: ds ++ [e]).set vo.length (ds.length + 1)
      = vo ++ (ds.length + 1) :: (ds ++ [e]) := by
    rw [List.append_assoc, List.cons_append, set_length_append]
  simp only [hc, hmod, hmax, if_false, hset]
  by_cases h1 : ds.length = 1
  · rw [if_pos h1]
    obtain ⟨d, rfl⟩ : ∃ d, ds = [d] := List.length_eq_one.mp h1
    have hd : (vo ++ [d].length :: [d])[vo.length + 1]? = some d := by
      rw [List.getElem?_append_right (by omega)]
      simp
    have hd48 : d ≠ 48 := fun h => h48 (by rw [h])
    simp only [hd, hd48, if_false]
  · rw [if_neg h1]

theorem VersionOrdinal.loop_grow (vo es ds : List Nat) (hes : ∀ e ∈ es, 48 ≤ e ∧ e ≤ 57)
    (hds : ds ≠ []) (h48 : es ≠ [] → ds ≠ [48]) (hlen : ds.length + es.length ≤ 255) :
    VersionOrdinal.loop es { vo := vo ++ ds.length :: ds, j := some vo.length }
      = some { vo := vo ++ (ds.length + es.length) :: (ds ++ es), j := some vo.length } := by
  induction es generalizing ds with
  | nil => simp [VersionOrdinal.loop]
  | cons e es ih =>
    simp only [List.length_cons] at hlen
    rw [VersionOrdinal.loop, VersionOrdinal.step_grow vo ds e (hes e (List.mem_cons_self _ _)) hds
      (h48 (by simp)) (by omega)]
    have := ih (ds ++ [e]) (fun x hx => hes x (List.mem_cons_of_mem _ hx)) (by simp)
      (fun _ h => by
        have := congrArg List.length h
        simp at this
        cases ds with
        | nil => exact hds rfl
        | cons _ _ => simp at this)
      (by simp; omega)
    simp only [List.length_append, List.length_singleton, List.append_assoc,
      List.singleton_append] at this
    simp only [List.length_cons]
    rw [this, show ds.length + 1 + es.length = ds.length + (es.length + 1) by omega]

/-- The first digit of a run opens it with the count 1. -/
theorem VersionOrdinal.step_open (vo : List Nat) (e : Nat) (he : 48 ≤ e ∧ e ≤ 57) :
    VersionOrdinal.step { vo := vo, j := none } e
      = some { vo := vo ++ [1, e], j := some vo.length } := by
  unfold VersionOrdinal.step
  have hb : ¬ (48 > e ∨ e > 57) := by omega
  rw [if_neg hb]
  have h0 : (vo ++ [0])[(vo ++ [0]).length - 1]? = some 0 := by simp
  have hset : (vo ++ [0] ++ [e]).set ((vo ++ [0]).length - 1) ((0 + 1) % 2 ^ 8)
      = vo ++ [1, e] := by
    have : (vo ++ [0]).length - 1 = vo.length := by simp
    rw [this, List.append_assoc]
    exact set_length_append vo 0 1 [e]
  simp only [h0, hset]
  simp [maxByte]

theorem VersionOrdinal.step_other (s : VOState) (b : Nat) (hb : 48 > b ∨ b > 57) :
    VersionOrdinal.step s b = some { vo := s.vo ++ [b], j := none } := by
  unfold VersionOrdinal.step
  rw [if_pos hb]

theorem beDigits_cases (n : Nat) :
    ∃ d rest, beDigits n = d :: rest ∧ (rest ≠ [] → d ≠ 0) := by
  unfold beDigits
  by_cases h0 : n = 0
  · exact ⟨0, [], by simp [h0], fun h => absurd rfl h⟩
  · rw [if_neg h0]
    have hne : Nat.digits 10 n ≠ [] := by
      simpa [Nat.digits_eq_nil_iff_eq_zero] using h0
    have hlast := Nat.getLast_digit_ne_zero 10 h0
    rcases hrev : (Nat.digits 10 n).reverse with _ | ⟨d, rest⟩
    · simp at hrev; exact absurd hrev hne
    · refine ⟨d, rest, rfl, fun _ => ?_⟩
      have hd : (Nat.digits 10 n).getLast hne = d := by
        have h1 : Nat.digits 10 n = (d :: rest).reverse := by
          rw [← hrev, List.reverse_reverse]
        simp [h1]
      rw [← hd]
      exact hlast

/-- The run of digits of one numeral is encoded as its length followed by the
digits. -/
theorem VersionOrdinal.loop_decimal (vo : List Nat) (n : Nat)
    (hn : (decimal n).length ≤ 255) :
    VersionOrdinal.loop (decimal n) { vo := vo, j := none }
      = some { vo := vo ++ (decimal n).length :: decimal n, j := some vo.length } := by
  obtain ⟨d, rest, hbe, hlead⟩ := beDigits_cases n
  have hdig : ∀ x ∈ beDigits n, x < 10 := beDigits_lt n
  rw [decimal_eq] at hn ⊢
  rw [hbe] at hn hdig ⊢
  simp only [List.map_cons, List.length_cons, List.length_map] at hn ⊢
  have hd : d < 10 := hdig d (List.mem_cons_self _ _)
  rw [VersionOrdinal.loop, VersionOrdinal.step_open vo (d + 48) (by omega)]
  have := VersionOrdinal.loop_grow vo (rest.map (· + 48)) [d + 48]
    (fun e he => by
      obtain ⟨x, hx, rfl⟩ := List.mem_map.mp he
      have := hdig x (List.mem_cons_of_mem _ hx)
      omega)
    (by simp)
    (fun hne h => by
      have hr : rest ≠ [] := fun h' => hne (by simp [h'])
      have := hlead hr
      simp at h
      omega)
    (by simp; omega)
  simp only [List.length_singleton, List.length_map, List.singleton_append] at this
  simp only [List.append_assoc, List.singleton_append] at this ⊢
  rw [show vo ++ [1, d + 48] = vo ++ 1 :: [d + 48] from rfl, this,
    show 1 + rest.length = rest.length + 1 by omega]

/-- The loop of `VersionOrdinal` maps a dotted version to its expected ordinal. -/
theorem VersionOrdinal.loop_dotted (x : Nat) (xs : List Nat) (vo : List Nat)
    (h : ∀ n ∈ x :: xs, (decimal n).length ≤ 255) :
    ∃ j, VersionOrdinal.loop (dotted (x :: xs)) { vo := vo, j := none }
      = some { vo := vo ++ ordinalOf (x :: xs), j := j } := by
  induction xs generalizing x vo with
  | nil =>
    exact ⟨_, by simpa [dotted, ordinalOf] using
      VersionOrdinal.loop_decimal vo x (h x (List.mem_cons_self _ _))⟩
  | cons y ys ih =>
    obtain ⟨j, hj⟩ := ih y (vo ++ (decimal x).length :: decimal x ++ [46])
      (fun n hn => h n (List.mem_cons_of_mem _ hn))
    refine ⟨j, ?_⟩
    rw [show dotted (x :: y :: ys) = decimal x ++ 46 :: dotted (y :: ys) from rfl,
      VersionOrdinal.loop_append, VersionOrdinal.loop_decimal vo x (h x (List.mem_cons_self _ _))]
    simp only [VersionOrdinal.loop]
    rw [VersionOrdinal.step_other _ 46 (by omega)]
    simp only [hj]
    simp [ordinalOf]

/-- The function `VersionOrdinal` maps a dotted version whose numerals have at most 255 digits
to its expected ordinal. -/
theorem VersionOrdinal_dotted (xs : List Nat) (h : ∀ n ∈ xs, (decimal n).length ≤ 255) :
    VersionOrdinal (dotted xs) = some (ordinalOf xs) := by
  cases xs with
  | nil => rfl
  | cons x xs =>
    obtain ⟨j, hj⟩ := VersionOrdinal.loop_dotted x xs [] h
    simp [VersionOrdinal, hj]

/-- C4: for versions `xs`, `ys` given as lists of numbers whose decimal numerals
have at most 255 digits, `VersionOrdinal` returns an encoding of each dotted
string, and the byte-wise comparison of the two encodings is less, equal or greater
exactly when `xs` is lexicographically less than, equal to or greater than `ys`,
components compared as numbers and a proper prefix being smaller. -/
theorem VersionOrdinal_orders_versions (xs ys : List Nat)
    (hx : ∀ n ∈ xs, (decimal n).length ≤ 255) (hy : ∀ n ∈ ys, (decimal n).length ≤ 255) :
    ∃ a b, VersionOrdinal (dotted xs) = some a ∧ VersionOrdinal (dotted ys) = some b
      ∧ (bytesCompare a b = Ordering.lt ↔ List.Lex (· < ·) xs ys)
      ∧ (bytesCompare a b = Ordering.eq ↔ xs = ys)
      ∧ (bytesCompare a b = Ordering.gt ↔ List.Lex (· < ·) ys xs) := by
  refine ⟨ordinalOf xs, ordinalOf ys, VersionOrdinal_dotted xs hx, VersionOrdinal_dotted ys hy,
    ?_, ?_, ?_⟩
  · rw [bytesCompare_ordinalOf, bytesCompare_lt_iff]
  · rw [bytesCompare_ordinalOf, bytesCompare_eq_iff]
  · rw [bytesCompare_ordinalOf, bytesCompare_gt_iff]

/-- C4 at the versions 12.2.0.1 and 19.0.0: the dotted strings are the texts
`"12.2.0.1"` and `"19.0.0"`, and the first ordinal is the smaller one. -/
theorem VersionOrdinal_orders_versions_sample :
    dotted [12, 2, 0, 1] = goBytes (str "12.2.0.1")
    ∧ dotted [19, 0, 0] = goBytes (str "19.0.0")
    ∧ versionCompare (str "12.2.0.1") (str "19.0.0") = some Ordering.lt
    ∧ (∀ n ∈ [12, 2, 0, 1], (decimal n).length ≤ 255)
    ∧ (∀ n ∈ [19, 0, 0], (decimal n).length ≤ 255)
    ∧ ∃ a b, VersionOrdinal (dotted [12, 2, 0, 1]) = some a
      ∧ VersionOrdinal (dotted [19, 0, 0]) = some b
      ∧ (bytesCompare a b = Ordering.lt ↔ List.Lex (· < ·) [12, 2, 0, 1] [19, 0, 0])
      ∧ (bytesCompare a b = Ordering.eq ↔ [12, 2, 0, 1] = [19, 0, 0])
      ∧ (bytesCompare a b = Ordering.gt ↔ List.Lex (· < ·) [19, 0, 0] [12, 2, 0, 1]) :=
  ⟨by decide, by decide, by decide, by decide, by decide,
    VersionOrdinal_orders_versions [12, 2, 0, 1] [19, 0, 0] (by decide) (by decide)⟩


/-! ## The LogMiner filter -/

theorem filterTask_dml (upper : Char → Char) (tfMap : GoIntMap) (x : LogminerContent)
    (hx : x.Operation ≠ DDLOperation) :
    filterTask upper tfMap 0 x
        = (if x.SCN ≥ tfMap.get (ToUpper upper x.TableName) then [x] else [], Status.ok)
    ∧ filterTask upper tfMap 1 x
        = (if x.SCN > tfMap.get (ToUpper upper x.TableName) then [x] else [], Status.ok) := by
  constructor
  · simp only [filterTask, if_true, if_neg hx]
    split <;> rfl
  · simp only [filterTask, if_neg hx, if_true, show ¬ ((1 : Int) = 0) by decide, if_false]
    split <;> rfl

theorem filterLoop_dml (upper : Char → Char) (tfMap : GoIntMap) (rows : List LogminerContent)
    (hdml : ∀ r ∈ rows, r.Operation ≠ DDLOperation) :
    filterLoop upper tfMap 0 rows
        = (rows.filter (fun r => r.SCN ≥ tfMap.get (ToUpper upper r.TableName)), Status.ok)
    ∧ filterLoop upper tfMap 1 rows
        = (rows.filter (fun r => r.SCN > tfMap.get (ToUpper upper r.TableName)), Status.ok) := by
  induction rows with
  | nil => exact ⟨rfl, rfl⟩
  | cons x rows ih =>
    obtain ⟨ih0, ih1⟩ := ih (fun r hr => hdml r (List.mem_cons_of_mem _ hr))
    obtain ⟨h0, h1⟩ := filterTask_dml upper tfMap x (hdml x (List.mem_cons_self _ _))
    constructor
    · simp only [filterLoop, h0, ih0, List.filter_cons]
      by_cases hc : x.SCN ≥ tfMap.get (ToUpper upper x.TableName)
      · simp [hc]
      · simp [hc]
    · simp only [filterLoop, h1, ih1, List.filter_cons]
      by_cases hc : x.SCN > tfMap.get (ToUpper upper x.TableName)
      · simp [hc]
      · simp [hc]

theorem filter_filter_table (upper : Char → Char) (tfMap : GoIntMap) (T : GoString)
    (rows : List LogminerContent) (cmp : Int → Int → Bool) :
    (rows.filter (fun r => cmp r.SCN (tfMap.get (ToUpper upper r.TableName)))).filter
        (fun r => ToUpper upper r.TableName = T)
      = rows.filter (fun r => ToUpper upper r.TableName = T ∧ cmp r.SCN (tfMap.get T) = true) := by
  rw [List.filter_filter]
  apply List.filter_congr
  intro r _
  by_cases h : ToUpper upper r.TableName = T
  · simp [h]
  · simp [h]

/-- C5: for every list of DML rows and every watermark map the call returns
normally, and the rows handed on whose upper-cased table name is `T` are, in input
order, the input rows of `T` whose SCN is `≥` the watermark of `T` under reset flag
0, and those whose SCN is `>` that watermark under reset flag 1. -/
theorem filter_dml_by_table (upper : Char → Char) (rowsResult : List LogminerContent)
    (transferTableList : List GoString) (transferTableMetaMap : GoIntMap)
    (workerThreads : Int) (T : GoString)
    (hdml : ∀ r ∈ rowsResult, r.Operation ≠ DDLOperation) :
    (filterOracleRedoGreaterOrEqualRecordByTable upper rowsResult transferTableList
        transferTableMetaMap workerThreads 0).status = Status.ok
    ∧ (filterOracleRedoGreaterOrEqualRecordByTable upper rowsResult transferTableList
        transferTableMetaMap workerThreads 0).forwarded.filter
          (fun r => ToUpper upper r.TableName = T)
        = rowsResult.filter
          (fun r => ToUpper upper r.TableName = T ∧ r.SCN ≥ transferTableMetaMap.get T)
    ∧ (filterOracleRedoGreaterOrEqualRecordByTable upper rowsResult transferTableList
        transferTableMetaMap workerThreads 1).status = Status.ok
    ∧ (filterOracleRedoGreaterOrEqualRecordByTable upper rowsResult transferTableList
        transferTableMetaMap workerThreads 1).forwarded.filter
          (fun r => ToUpper upper r.TableName = T)
        = rowsResult.filter
          (fun r => ToUpper upper r.TableName = T ∧ r.SCN > transferTableMetaMap.get T) := by
  obtain ⟨h0, h1⟩ := filterLoop_dml upper transferTableMetaMap rowsResult hdml
  simp only [filterOracleRedoGreaterOrEqualRecordByTable, h0, h1, true_and]
  constructor
  · have := filter_filter_table upper transferTableMetaMap T rowsResult (fun a b => decide (a ≥ b))
    simpa using this
  · have := filter_filter_table upper transferTableMetaMap T rowsResult (fun a b => decide (a > b))
    simpa using this

theorem Split.go_space (s : GoString) :
    ((Split.go [' '] 0 s).2 = [] ∧ s = (Split.go [' '] 0 s).1)
    ∨ ∃ s', s = (Split.go [' '] 0 s).1 ++ ' ' :: s'
        ∧ (Split.go [' '] 0 s).2 = (Split.go [' '] 0 s').1 :: (Split.go [' '] 0 s').2 := by
  induction s with
  | nil => exact Or.inl ⟨rfl, rfl⟩
  | cons c cs ih =>
    by_cases hc : c = ' '
    · subst hc
      exact Or.inr ⟨cs, by simp [Split.go], by simp [Split.go]⟩
    · have hpre : List.isPrefixOf [' '] (c :: cs) = false := by
        simp [List.isPrefixOf, Ne.symm hc]
      have hgo : Split.go [' '] 0 (c :: cs)
          = (c :: (Split.go [' '] 0 cs).1, (Split.go [' '] 0 cs).2) := by
        rw [Split.go]
        simp [hpre]
      rw [hgo]
      rcases ih with ⟨h2, h1⟩ | ⟨s', h1, h2⟩
      · exact Or.inl ⟨h2, by rw [← h1]⟩
      · exact Or.inr ⟨s', by rw [List.cons_append, ← h1], h2⟩

/-- The first two pieces of a text split at single spaces, and what follows them. -/
theorem Split_space_two (s p0 p1 : GoString)
    (h0 : (Split s (str " "))[0]? = some p0) (h1 : (Split s (str " "))[1]? = some p1) :
    ∃ tail, s = p0 ++ ' ' :: (p1 ++ tail) ∧ (tail = [] ∨ ∃ u, tail = ' ' :: u) := by
  have hs : str " " = [' '] := rfl
  rw [hs] at h0 h1
  simp only [Split, List.getElem?_cons_zero, Option.some.injEq] at h0
  simp only [Split, List.getElem?_cons_succ] at h1
  rcases Split.go_space s with ⟨h2, _⟩ | ⟨s', hs1, hs2⟩
  · rw [h2] at h1
    simp at h1
  · rw [hs2] at h1
    simp only [List.getElem?_cons_zero, Option.some.injEq] at h1
    rw [h0] at hs1
    rcases Split.go_space s' with ⟨_, h3⟩ | ⟨s'', hs3, _⟩
    · refine ⟨[], ?_, Or.inl rfl⟩
      rw [h1] at h3
      rw [hs1, h3, List.append_nil]
    · refine ⟨' ' :: s'', ?_, Or.inr ⟨s'', rfl⟩⟩
      rw [h1] at hs3
      rw [hs1, hs3]

theorem tokens.go_append (w cur rest : GoString) (hw : ∀ c ∈ w, isBlank c = false) :
    tokens.go cur (w ++ rest) = tokens.go (w.reverse ++ cur) rest := by
  induction w generalizing cur with
  | nil => rfl
  | cons c w ih =>
    have hc : isBlank c = false := hw c (List.mem_cons_self _ _)
    have hstep : tokens.go cur (c :: (w ++ rest)) = tokens.go (c :: cur) (w ++ rest) := by
      rw [tokens.go]
      simp [hc]
    rw [List.cons_append, hstep, ih (c :: cur) (fun x hx => hw x (List.mem_cons_of_mem _ hx))]
    simp

theorem tokens_word (w rest : GoString) (hne : w ≠ []) (hw : ∀ c ∈ w, isBlank c = false) :
    tokens w = [w] ∧ tokens (w ++ ' ' :: rest) = w :: tokens rest := by
  have hrev : w.reverse ≠ [] := by simpa using hne
  constructor
  · have := tokens.go_append w [] [] hw
    simp only [List.append_nil] at this
    rw [tokens, this]
    simp [tokens.go, hne]
  · have := tokens.go_append w [] (' ' :: rest) hw
    simp only [List.append_nil] at this
    rw [tokens, this]
    simp [tokens.go, isBlank, hne, tokens]

/-- The first two tokens of a text that starts with two blank-free words separated
by one space. -/
theorem tokens_two (p0 p1 tail : GoString) (h0 : p0 ≠ []) (h1 : p1 ≠ [])
    (hb0 : ∀ c ∈ p0, isBlank c = false) (hb1 : ∀ c ∈ p1, isBlank c = false)
    (htail : tail = [] ∨ ∃ u, tail = ' ' :: u) :
    (tokens (p0 ++ ' ' :: (p1 ++ tail))).take 2 = [p0, p1] := by
  rw [(tokens_word p0 _ h0 hb0).2]
  rcases htail with rfl | ⟨u, rfl⟩
  · rw [List.append_nil, (tokens_word p1 [] h1 hb1).1]
    rfl
  · rw [(tokens_word p1 u h1 hb1).2]
    rfl

theorem append_space_inj (X Y A B : GoString) (hA : ' ' ∉ A) (hB : ' ' ∉ B)
    (h : X ++ ' ' :: Y = A ++ ' ' :: B) : X = A ∧ Y = B := by
  induction A generalizing X with
  | nil =>
    cases X with
    | nil => exact ⟨rfl, by simpa using h⟩
    | cons x X =>
      simp only [List.cons_append, List.nil_append, List.cons.injEq] at h
      exact absurd (h.2 ▸ List.mem_append_right X (List.mem_cons_self _ _)) hB
  | cons a A ih =>
    cases X with
    | nil =>
      simp only [List.nil_append, List.cons_append, List.cons.injEq] at h
      exact absurd (h.1 ▸ List.mem_cons_self _ _) hA
    | cons x X =>
      simp only [List.cons_append, List.cons.injEq] at h
      obtain ⟨hX, hY⟩ := ih X (fun hm => hA (List.mem_cons_of_mem _ hm)) h.2
      exact ⟨by rw [h.1, hX], hY⟩

/-- When the first two pieces, joined by a space and upper-cased, are the words `A B`,
each piece upper-cases to its word. -/
theorem ToUpper_prefix (upper : Char → Char) (hblank : ∀ c, isBlank c = true → upper c = c)
    (p0 p1 A B : GoString) (hA : ' ' ∉ A) (hB : ' ' ∉ B)
    (h : ToUpper upper (StringsBuilder [p0, str " ", p1]) = A ++ ' ' :: B) :
    ToUpper upper p0 = A ∧ ToUpper upper p1 = B := by
  have hsp : upper ' ' = ' ' := hblank ' ' rfl
  have h' : p0.map upper ++ ' ' :: p1.map upper = A ++ ' ' :: B := by
    have : StringsBuilder [p0, str " ", p1] = p0 ++ ' ' :: p1 := by
      simp [StringsBuilder, str]
    rw [this] at h
    simpa [ToUpper, hsp] using h
  exact append_space_inj _ _ A B hA hB h'

theorem blank_free_of_upper (upper : Char → Char)
    (hblank : ∀ c, isBlank c = true → upper c = c) (p A : GoString)
    (hp : ToUpper upper p = A) (hA : ∀ c ∈ A, isBlank c = false) :
    ∀ c ∈ p, isBlank c = false := by
  intro c hc
  by_contra hb
  have hb' : isBlank c = true := by simpa using hb
  have hmem : upper c ∈ ToUpper upper p := List.mem_map_of_mem upper hc
  rw [hblank c hb', hp] at hmem
  exact hb (hA c hmem)

theorem ne_nil_of_upper (upper : Char → Char) (p A : GoString)
    (hp : ToUpper upper p = A) (hA : A ≠ []) : p ≠ [] := by
  intro h
  subst h
  exact hA hp.symm

theorem ToUpper_idem (upper : Char → Char) (hidem : ∀ c, upper (upper c) = upper c)
    (p : GoString) : ToUpper upper (ToUpper upper p) = ToUpper upper p := by
  simp [ToUpper, hidem]

/-- What is kept of an upper-cased `DROP TABLE ...` statement when it is cut at the
first `AS`. -/
theorem Split_AS_drop (tail : GoString) (htail : tail = [] ∨ ∃ u, tail = ' ' :: u) :
    ∃ tail', (tail' = [] ∨ ∃ u, tail' = ' ' :: u)
      ∧ (Split (str "DROP" ++ ' ' :: (str "TABLE" ++ tail)) (str "AS"))[0]?
        = some (str "DROP" ++ ' ' :: (str "TABLE" ++ tail')) := by
  rcases htail with rfl | ⟨u, rfl⟩
  · exact ⟨[], Or.inl rfl, by decide⟩
  · refine ⟨' ' :: (Split.go (str "AS") 0 u).1, Or.inr ⟨_, rfl⟩, ?_⟩
    simp [Split, Split.go, str, List.isPrefixOf]

theorem asciiUpper_blank (c : Char) (h : isBlank c = true) : asciiUpper c = c := by
  have hc : c = ' ' ∨ c = '\t' := by simpa [isBlank] using h
  rcases hc with rfl | rfl <;> rfl

theorem asciiUpper_idem (c : Char) : asciiUpper (asciiUpper c) = asciiUpper c := by
  by_cases h : 97 ≤ c.toNat ∧ c.toNat ≤ 122
  · have h1 : asciiUpper c = Char.ofNat (c.toNat - 32) := by simp [asciiUpper, h]
    rw [h1]
    obtain ⟨hlo, hhi⟩ := h
    generalize c.toNat = n at hlo hhi
    interval_cases n <;> rfl
  · have h1 : asciiUpper c = c := by simp [asciiUpper, h]
    rw [h1, h1]

/-- Every row that the DDL branch hands on is a DROP TABLE or a TRUNCATE TABLE. -/
theorem forwardDDL_mem (upper : Char → Char) (hblank : ∀ c, isBlank c = true → upper c = c)
    (hidem : ∀ c, upper (upper c) = upper c) (x : LogminerContent)
    (out : List LogminerContent) (h : forwardDDL upper x = some out)
    (r : LogminerContent) (hr : r ∈ out) :
    r.Operation = x.Operation
    ∧ (firstTwoTokens upper r.SQLRedo = [str "DROP", str "TABLE"]
      ∨ firstTwoTokens upper r.SQLRedo = [str "TRUNCATE", str "TABLE"]) := by
  unfold forwardDDL at h
  cases h0 : (Split x.SQLRedo (str " "))[0]? with
  | none => simp [h0] at h
  | some p0 =>
    cases h1 : (Split x.SQLRedo (str " "))[1]? with
    | none => simp [h0, h1] at h
    | some p1 =>
      obtain ⟨tail, hsql, htail⟩ := Split_space_two x.SQLRedo p0 p1 h0 h1
      simp only [h0, h1] at h
      by_cases hdrop : ToUpper upper (StringsBuilder [p0, str " ", p1]) = DropTableOperation
      · have htr : ¬ ToUpper upper (StringsBuilder [p0, str " ", p1]) = TruncateTableOperation := by
          rw [hdrop]
          decide
        obtain ⟨hu0, hu1⟩ := ToUpper_prefix upper hblank p0 p1 (str "DROP") (str "TABLE")
          (by decide) (by decide) hdrop
        have hup : ToUpper upper x.SQLRedo
            = str "DROP" ++ ' ' :: (str "TABLE" ++ ToUpper upper tail) := by
          rw [hsql, ← hu0, ← hu1]
          simp [ToUpper, hblank ' ' rfl]
        have htail' : ToUpper upper tail = [] ∨ ∃ u, ToUpper upper tail = ' ' :: u := by
          rcases htail with rfl | ⟨u, rfl⟩
          · exact Or.inl rfl
          · exact Or.inr ⟨ToUpper upper u, by simp [ToUpper, hblank ' ' rfl]⟩
        obtain ⟨t2, ht2, hcut⟩ := Split_AS_drop (ToUpper upper tail) htail'
        rw [← hup] at hcut
        have hne : ¬ DropTableOperation = TruncateTableOperation := by decide
        simp only [hdrop, if_true, hcut, hne, if_false, Option.some.injEq] at h
        subst h
        simp only [List.mem_singleton] at hr
        subst hr
        refine ⟨rfl, Or.inl ?_⟩
        simp only [firstTwoTokens]
        rw [tokens_two (str "DROP") (str "TABLE") t2 (by decide) (by decide) (by decide)
          (by decide) ht2]
        simp only [List.map_cons, List.map_nil]
        rw [← hu0, ← hu1, ToUpper_idem upper hidem, ToUpper_idem upper hidem]
      · simp only [hdrop, if_false] at h
        by_cases htr : ToUpper upper (StringsBuilder [p0, str " ", p1]) = TruncateTableOperation
        · simp only [htr, if_true, Option.some.injEq] at h
          subst h
          simp only [List.mem_singleton] at hr
          subst hr
          obtain ⟨hu0, hu1⟩ := ToUpper_prefix upper hblank p0 p1 (str "TRUNCATE") (str "TABLE")
            (by decide) (by decide) htr
          refine ⟨rfl, Or.inr ?_⟩
          simp only [firstTwoTokens]
          rw [hsql, tokens_two p0 p1 tail
            (ne_nil_of_upper upper p0 _ hu0 (by decide))
            (ne_nil_of_upper upper p1 _ hu1 (by decide))
            (blank_free_of_upper upper hblank p0 _ hu0 (by decide))
            (blank_free_of_upper upper hblank p1 _ hu1 (by decide)) htail]
          simp [hu0, hu1]
        · simp only [htr, if_false, Option.some.injEq] at h
          subst h
          simp at hr

theorem filterTask_mem (upper : Char → Char) (tfMap : GoIntMap) (flag : Int)
    (x r : LogminerContent) (hr : r ∈ (filterTask upper tfMap flag x).1) :
    (x.Operation ≠ DDLOperation ∧ r = x)
    ∨ (x.Operation = DDLOperation ∧ ∃ out, forwardDDL upper x = some out ∧ r ∈ out) := by
  unfold filterTask at hr
  by_cases hop : x.Operation = DDLOperation
  · refine Or.inr ⟨hop, ?_⟩
    cases hf : forwardDDL upper x with
    | none =>
      simp only [hop, if_true, hf] at hr
      split_ifs at hr <;> simp at hr
    | some out =>
      refine ⟨out, rfl, ?_⟩
      simp only [hop, if_true, hf] at hr
      split_ifs at hr <;> simp_all
  · refine Or.inl ⟨hop, ?_⟩
    simp only [hop, if_false] at hr
    split_ifs at hr <;> simp_all

theorem filterLoop_mem (upper : Char → Char) (tfMap : GoIntMap) (flag : Int)
    (rows : List LogminerContent) (r : LogminerContent)
    (hr : r ∈ (filterLoop upper tfMap flag rows).1) :
    ∃ x ∈ rows, r ∈ (filterTask upper tfMap flag x).1 := by
  induction rows with
  | nil => simp [filterLoop] at hr
  | cons x rows ih =>
    rw [filterLoop] at hr
    rcases hx : filterTask upper tfMap flag x with ⟨out, st⟩
    rw [hx] at hr
    cases st with
    | ok =>
      simp only [List.mem_append] at hr
      rcases hr with hr | hr
      · exact ⟨x, List.mem_cons_self _ _, by rw [hx]; exact hr⟩
      · obtain ⟨y, hy, hmem⟩ := ih hr
        exact ⟨y, List.mem_cons_of_mem _ hy, hmem⟩
    | error msg => exact ⟨x, List.mem_cons_self _ _, by rw [hx]; exact hr⟩
    | panic => exact ⟨x, List.mem_cons_self _ _, by rw [hx]; exact hr⟩

/-- C6: whatever the input and the reset flag, every row handed on whose operation
is DDL has a redo SQL whose first two whitespace-separated tokens, upper-cased, are
`DROP TABLE` or `TRUNCATE TABLE`. The upper-casing `upper` leaves blanks unchanged
and is idempotent, as `unicode.ToUpper` is. -/
theorem filter_forwards_only_drop_truncate (upper : Char → Char)
    (hblank : ∀ c, isBlank c = true → upper c = c) (hidem : ∀ c, upper (upper c) = upper c)
    (rowsResult : List LogminerContent) (transferTableList : List GoString)
    (transferTableMetaMap : GoIntMap) (workerThreads currentResetFlag : Int) :
    ∀ r ∈ (filterOracleRedoGreaterOrEqualRecordByTable upper rowsResult transferTableList
        transferTableMetaMap workerThreads currentResetFlag).forwarded,
      r.Operation = DDLOperation →
        firstTwoTokens upper r.SQLRedo = [str "DROP", str "TABLE"]
        ∨ firstTwoTokens upper r.SQLRedo = [str "TRUNCATE", str "TABLE"] := by
  intro r hr hop
  obtain ⟨x, _, hx⟩ := filterLoop_mem upper transferTableMetaMap currentResetFlag rowsResult r hr
  rcases filterTask_mem upper transferTableMetaMap currentResetFlag x r hx with
    ⟨hne, rfl⟩ | ⟨_, out, hout, hmem⟩
  · exact absurd hop hne
  · exact (forwardDDL_mem upper hblank hidem x out hout r hmem).2

/-- C5 at the scenario of the spec: with watermark 1000 and reset flag 0 the rows at
SCN 1000, 1001 and 1002 are all handed on; with watermark 1002 and reset flag 1, of
the rows at SCN 1002 and 1003 only the one at 1003 is. -/
theorem filter_dml_by_table_sample :
    (filterOracleRedoGreaterOrEqualRecordByTable asciiUpper
        [dmlRow 1000, dmlRow 1001, dmlRow 1002] [str "t1"] [(str "T1", 1000)] 4 0).forwarded
      = [dmlRow 1000, dmlRow 1001, dmlRow 1002]
    ∧ (filterOracleRedoGreaterOrEqualRecordByTable asciiUpper
        [dmlRow 1002, dmlRow 1003] [str "t1"] [(str "T1", 1002)] 4 1).forwarded
      = [dmlRow 1003]
    ∧ (∀ r ∈ [dmlRow 1000, dmlRow 1001, dmlRow 1002], r.Operation ≠ DDLOperation)
    ∧ (filterOracleRedoGreaterOrEqualRecordByTable asciiUpper
        [dmlRow 1000, dmlRow 1001, dmlRow 1002] [str "t1"] [(str "T1", 1000)] 4 0).status
      = Status.ok
    ∧ (filterOracleRedoGreaterOrEqualRecordByTable asciiUpper
        [dmlRow 1000, dmlRow 1001, dmlRow 1002] [str "t1"] [(str "T1", 1000)] 4 0).forwarded.filter
          (fun r => ToUpper asciiUpper r.TableName = str "T1")
        = [dmlRow 1000, dmlRow 1001, dmlRow 1002].filter
          (fun r => ToUpper asciiUpper r.TableName = str "T1"
            ∧ r.SCN ≥ GoIntMap.get [(str "T1", 1000)] (str "T1"))
    ∧ (filterOracleRedoGreaterOrEqualRecordByTable asciiUpper
        [dmlRow 1000, dmlRow 1001, dmlRow 1002] [str "t1"] [(str "T1", 1000)] 4 1).status
      = Status.ok
    ∧ (filterOracleRedoGreaterOrEqualRecordByTable asciiUpper
        [dmlRow 1000, dmlRow 1001, dmlRow 1002] [str "t1"] [(str "T1", 1000)] 4 1).forwarded.filter
          (fun r => ToUpper asciiUpper r.TableName = str "T1")
        = [dmlRow 1000, dmlRow 1001, dmlRow 1002].filter
          (fun r => ToUpper asciiUpper r.TableName = str "T1"
            ∧ r.SCN > GoIntMap.get [(str "T1", 1000)] (str "T1")) :=
  ⟨by decide, by decide, by decide,
    filter_dml_by_table asciiUpper [dmlRow 1000, dmlRow 1001, dmlRow 1002] [str "t1"]
      [(str "T1", 1000)] 4 (str "T1") (by decide)⟩

/-- C6 with the ASCII upper-casing, at a batch that mixes DML rows with a DROP TABLE
in recycle-bin form, a TRUNCATE TABLE and a CREATE TABLE: the CREATE TABLE is not
handed on. -/
theorem filter_forwards_only_drop_truncate_sample :
    (filterOracleRedoGreaterOrEqualRecordByTable asciiUpper sampleRedo [str "t1"]
        [(str "T1", 1000)] 4 0).forwarded
      = [dmlRow 1000, ddlRow "MARVIN8" "DROP TABLE MARVIN8 ",
          ddlRow "T1" "truncate table t1", dmlRow 1001]
    ∧ (∀ c, isBlank c = true → asciiUpper c = c)
    ∧ (∀ c, asciiUpper (asciiUpper c) = asciiUpper c)
    ∧ ∀ r ∈ (filterOracleRedoGreaterOrEqualRecordByTable asciiUpper sampleRedo [str "t1"]
          [(str "T1", 1000)] 4 0).forwarded,
        r.Operation = DDLOperation →
          firstTwoTokens asciiUpper r.SQLRedo = [str "DROP", str "TABLE"]
          ∨ firstTwoTokens asciiUpper r.SQLRedo = [str "TRUNCATE", str "TABLE"] :=
  ⟨by decide, asciiUpper_blank, asciiUpper_idem,
    filter_forwards_only_drop_truncate asciiUpper asciiUpper_blank asciiUpper_idem sampleRedo
      [str "t1"] [(str "T1", 1000)] 4 0⟩

/-- C7 fails on the code: a DDL row at the watermark whose redo SQL has the tokens
`drop table` separated by two spaces, and one whose tokens `truncate table` are
separated by a tab, pass the comparator of reset flag 0, the call returns normally,
and neither row is handed on, although the comment of the task says that the
`truncate table` and `drop table` statements are synchronised: the code splits the
text at single spaces only. -/
theorem filter_misses_blank_runs :
    (ddlRow "T1" "drop  table t1").Operation = DDLOperation
    ∧ (ddlRow "T1" "drop  table t1").SCN ≥ GoIntMap.get [(str "T1", 1000)] (str "T1")
    ∧ firstTwoTokens asciiUpper (ddlRow "T1" "drop  table t1").SQLRedo
        = [str "DROP", str "TABLE"]
    ∧ (ddlRow "T1" "truncate\ttable t1").Operation = DDLOperation
    ∧ (ddlRow "T1" "truncate\ttable t1").SCN ≥ GoIntMap.get [(str "T1", 1000)] (str "T1")
    ∧ firstTwoTokens asciiUpper (ddlRow "T1" "truncate\ttable t1").SQLRedo
        = [str "TRUNCATE", str "TABLE"]
    ∧ filterOracleRedoGreaterOrEqualRecordByTable asciiUpper
        [ddlRow "T1" "drop  table t1", ddlRow "T1" "truncate\ttable t1"] [str "t1"]
        [(str "T1", 1000)] 4 0
      = { keys := [str "T1"], forwarded := [], status := Status.ok } := by
  refine ⟨by decide, by decide, by decide, by decide, by decide, by decide, by decide⟩

theorem filterLoop_ok_mem (upper : Char → Char) (tfMap : GoIntMap) (flag : Int)
    (rows : List LogminerContent) (hok : (filterLoop upper tfMap flag rows).2 = Status.ok)
    (x : LogminerContent) (hx : x ∈ rows) :
    ∀ r ∈ (filterTask upper tfMap flag x).1, r ∈ (filterLoop upper tfMap flag rows).1 := by
  induction rows with
  | nil => simp at hx
  | cons y rows ih =>
    intro r hr
    cases hy : filterTask upper tfMap flag y with
    | mk out st =>
      cases st with
      | ok =>
        simp only [filterLoop, hy] at hok ⊢
        rcases List.mem_cons.mp hx with rfl | hx'
        · rw [hy] at hr
          exact List.mem_append_left _ hr
        · exact List.mem_append_right _ (ih hok hx' r hr)
      | error msg => simp [filterLoop, hy] at hok
      | panic => simp [filterLoop, hy] at hok

theorem filterTask_ddl (upper : Char → Char) (tfMap : GoIntMap) (flag : Int)
    (x : LogminerContent) (hop : x.Operation = DDLOperation)
    (hscn : (flag = 0 ∧ x.SCN ≥ tfMap.get (ToUpper upper x.TableName))
      ∨ (flag = 1 ∧ x.SCN > tfMap.get (ToUpper upper x.TableName)))
    (out : List LogminerContent) (hout : forwardDDL upper x = some out) :
    (filterTask upper tfMap flag x).1 = out := by
  unfold filterTask
  rcases hscn with ⟨rfl, h⟩ | ⟨rfl, h⟩
  · simp [h, hop, hout]
  · simp [h, hop, hout]

/-- What the filter hands on of the DDL rows: in a call that returns normally, every
DDL row whose SCN passes the comparator and whose redo SQL, split at single spaces as
`strings.Split(sql, " ")` does, has first two pieces that joined by a space and
upper-cased read `TRUNCATE TABLE` is handed on unchanged, and every such row whose
pieces read `DROP TABLE` is handed on with its SQL replaced by the part of the
upper-cased SQL before the first `AS`. -/
theorem filter_forwards_drop_truncate (upper : Char → Char)
    (rowsResult : List LogminerContent) (transferTableList : List GoString)
    (transferTableMetaMap : GoIntMap) (workerThreads currentResetFlag : Int)
    (x : LogminerContent) (p0 p1 : GoString)
    (hok : (filterOracleRedoGreaterOrEqualRecordByTable upper rowsResult transferTableList
        transferTableMetaMap workerThreads currentResetFlag).status = Status.ok)
    (hx : x ∈ rowsResult) (hop : x.Operation = DDLOperation)
    (hscn : (currentResetFlag = 0
        ∧ x.SCN ≥ transferTableMetaMap.get (ToUpper upper x.TableName))
      ∨ (currentResetFlag = 1
        ∧ x.SCN > transferTableMetaMap.get (ToUpper upper x.TableName)))
    (h0 : (Split x.SQLRedo (str " "))[0]? = some p0)
    (h1 : (Split x.SQLRedo (str " "))[1]? = some p1) :
    (ToUpper upper (p0 ++ str " " ++ p1) = str "TRUNCATE TABLE" →
      x ∈ (filterOracleRedoGreaterOrEqualRecordByTable upper rowsResult transferTableList
        transferTableMetaMap workerThreads currentResetFlag).forwarded)
    ∧ (ToUpper upper (p0 ++ str " " ++ p1) = str "DROP TABLE" →
      ∃ cut rest, Split (ToUpper upper x.SQLRedo) (str "AS") = cut :: rest
        ∧ { x with SQLRedo := cut }
          ∈ (filterOracleRedoGreaterOrEqualRecordByTable upper rowsResult transferTableList
            transferTableMetaMap workerThreads currentResetFlag).forwarded) := by
  have hsb : StringsBuilder [p0, str " ", p1] = p0 ++ str " " ++ p1 := by
    simp [StringsBuilder]
  have hne : ¬ DropTableOperation = TruncateTableOperation := by decide
  have hne' : ¬ TruncateTableOperation = DropTableOperation := by decide
  have hmem := filterLoop_ok_mem upper transferTableMetaMap currentResetFlag rowsResult hok x hx
  simp only [filterOracleRedoGreaterOrEqualRecordByTable]
  constructor
  · intro htr
    have htr' : ToUpper upper (StringsBuilder [p0, str " ", p1]) = TruncateTableOperation := by
      rw [hsb]; exact htr
    have hdrop : ¬ ToUpper upper (StringsBuilder [p0, str " ", p1]) = DropTableOperation := by
      rw [htr']; exact fun h => hne h.symm
    have hout : forwardDDL upper x = some [x] := by
      simp only [forwardDDL, h0, h1, htr', hne', if_true, if_false]
    apply hmem
    rw [filterTask_ddl upper _ _ x hop hscn [x] hout]
    simp
  · intro hdr
    have hdrop : ToUpper upper (StringsBuilder [p0, str " ", p1]) = DropTableOperation := by
      rw [hsb]; exact hdr
    refine ⟨(Split.go (str "AS") 0 (ToUpper upper x.SQLRedo)).1,
      (Split.go (str "AS") 0 (ToUpper upper x.SQLRedo)).2, rfl, ?_⟩
    have hcut : (Split (ToUpper upper x.SQLRedo) (str "AS"))[0]?
        = some (Split.go (str "AS") 0 (ToUpper upper x.SQLRedo)).1 := by
      simp [Split]
    have hout : forwardDDL upper x
        = some [{ x with SQLRedo := (Split.go (str "AS") 0 (ToUpper upper x.SQLRedo)).1 }] := by
      simp only [forwardDDL, h0, h1, hdrop, if_true, hne, if_false, hcut]
    apply hmem
    rw [filterTask_ddl upper _ _ x hop hscn _ hout]
    simp

/-- The sample batch and its DROP TABLE row in recycle-bin form: the row is handed on
with its SQL cut at the first `AS`. -/
theorem filter_forwards_drop_truncate_sample :
    (filterOracleRedoGreaterOrEqualRecordByTable asciiUpper sampleRedo [str "t1"]
        [(str "T1", 1000)] 4 0).status = Status.ok
    ∧ ddlRow "MARVIN8" "drop table marvin8 AS \"BIN$vVWfliIh6WfgU0EEEKzOvg==$0\"" ∈ sampleRedo
    ∧ (ddlRow "MARVIN8" "drop table marvin8 AS \"BIN$vVWfliIh6WfgU0EEEKzOvg==$0\"").Operation
        = DDLOperation
    ∧ ((0 : Int) = 0
        ∧ (ddlRow "MARVIN8" "drop table marvin8 AS \"BIN$vVWfliIh6WfgU0EEEKzOvg==$0\"").SCN
          ≥ GoIntMap.get [(str "T1", 1000)] (ToUpper asciiUpper (str "MARVIN8")))
    ∧ (Split (str "drop table marvin8 AS \"BIN$vVWfliIh6WfgU0EEEKzOvg==$0\"") (str " "))[0]?
        = some (str "drop")
    ∧ (Split (str "drop table marvin8 AS \"BIN$vVWfliIh6WfgU0EEEKzOvg==$0\"") (str " "))[1]?
        = some (str "table")
    ∧ ToUpper asciiUpper (str "drop" ++ str " " ++ str "table") = str "DROP TABLE"
    ∧ ∃ cut rest,
        Split (ToUpper asciiUpper
          (ddlRow "MARVIN8" "drop table marvin8 AS \"BIN$vVWfliIh6WfgU0EEEKzOvg==$0\"").SQLRedo)
          (str "AS") = cut :: rest
        ∧ { ddlRow "MARVIN8" "drop table marvin8 AS \"BIN$vVWfliIh6WfgU0EEEKzOvg==$0\"" with
              SQLRedo := cut }
          ∈ (filterOracleRedoGreaterOrEqualRecordByTable asciiUpper sampleRedo [str "t1"]
              [(str "T1", 1000)] 4 0).forwarded :=
  ⟨by decide, by decide, by decide, by decide, by decide, by decide, by decide,
    (filter_forwards_drop_truncate asciiUpper sampleRedo [str "t1"] [(str "T1", 1000)] 4 0
      (ddlRow "MARVIN8" "drop table marvin8 AS \"BIN$vVWfliIh6WfgU0EEEKzOvg==$0\"")
      (str "drop") (str "table") (by decide) (by decide) (by decide)
      (Or.inl ⟨rfl, by decide⟩) (by decide) (by decide)).2 (by decide)⟩

/-- C8 fails on the code: the recycle-bin DROP of table `basket` is handed on as
`DROP TABLE B`, cut inside the table name at the `AS` of `BASKET`, and not as
`DROP TABLE BASKET `; for the table `marvin8`, whose name has no `AS`, the alias
alone is removed. -/
theorem filter_drop_cuts_table_name :
    (filterOracleRedoGreaterOrEqualRecordByTable asciiUpper
        [ddlRow "BASKET" "drop table basket AS \"BIN$vVWfliIh6WfgU0EEEKzOvg==$0\""]
        [str "BASKET"] [(str "BASKET", 1000)] 4 0)
      = { keys := [str "BASKET"], forwarded := [ddlRow "BASKET" "DROP TABLE B"],
          status := Status.ok }
    ∧ ddlRow "BASKET" "DROP TABLE B" ≠ ddlRow "BASKET" "DROP TABLE BASKET "
    ∧ (filterOracleRedoGreaterOrEqualRecordByTable asciiUpper
        [ddlRow "MARVIN8" "drop table marvin8 AS \"BIN$vVWfliIh6WfgU0EEEKzOvg==$0\""]
        [str "MARVIN8"] [(str "MARVIN8", 1000)] 4 0).forwarded
      = [ddlRow "MARVIN8" "DROP TABLE MARVIN8 "] := by
  refine ⟨by decide, by decide, by decide⟩

/-! ## Error gating of the jobs -/

/-- C9 as stated fails for an empty table list: with three failed rows recorded for
the schema in reverse mode and no table to reverse, `NewReverse` returns nil, having
read only the table list. -/
theorem NewReverse_empty_list_skips_gate :
    ({ sampleReverseEnv with
        filterCFGTable := Except.ok [], CountsErrorLogBySchema := (3, none) }
      : ReverseEnv DDL).CountsErrorLogBySchema.1 > 0
    ∧ (NewReverse { sampleReverseEnv with
        filterCFGTable := Except.ok [], CountsErrorLogBySchema := (3, none) }).result
      = Outcome.ok ()
    ∧ (NewReverse { sampleReverseEnv with
        filterCFGTable := Except.ok [], CountsErrorLogBySchema := (3, none) }).trace
      = [{ kind := EffectKind.oracleRead, what := str "filterCFGTable" }] := by
  refine ⟨by decide, by decide, by decide⟩

/-- C9, amended: when the error-log count for the schema in reverse mode is greater
than 0, `NewReverse` performs no side effect (no output file is created, nothing is
written to a file, to the target or to the error log); it returns an error when the
table list is not empty or could not be read, and it returns nil, without consulting
the error log, when the table list is empty. -/
theorem NewReverse_error_gate {Rule : Type} (env : ReverseEnv Rule)
    (hcount : env.CountsErrorLogBySchema.1 > 0) :
    (∀ e ∈ (NewReverse env).trace, e.isSideEffect = false)
    ∧ (∀ exporters, env.filterCFGTable = Except.ok exporters → exporters ≠ [] →
        (∃ msg, (NewReverse env).result = Outcome.error msg)
        ∧ (NewReverse env).trace
          = [{ kind := EffectKind.oracleRead, what := str "filterCFGTable" },
             { kind := EffectKind.metaRead, what := str "CountsErrorLogBySchema" }])
    ∧ (env.filterCFGTable = Except.ok [] →
        (NewReverse env).result = Outcome.ok ()
        ∧ (NewReverse env).trace
          = [{ kind := EffectKind.oracleRead, what := str "filterCFGTable" }])
    ∧ (∀ err, env.filterCFGTable = Except.error err →
        (NewReverse env).result = Outcome.error err) := by
  cases hcfg : env.filterCFGTable with
  | error err =>
    refine ⟨?_, ?_, ?_, ?_⟩
    · simp [NewReverse, Bind.bind, Run.bind, Run.call, hcfg, Effect.isSideEffect]
    · intro exporters h; cases h
    · intro h; cases h
    · intro err' h
      cases h
      simp [NewReverse, Bind.bind, Run.bind, Run.call, hcfg]
  | ok exporters =>
    by_cases hnil : exporters = []
    · subst hnil
      refine ⟨?_, ?_, ?_, ?_⟩
      · simp [NewReverse, Bind.bind, Run.bind, Run.call, hcfg, Effect.isSideEffect, Pure.pure]
      · intro exporters h hne
        cases h
        exact absurd rfl hne
      · intro _
        simp [NewReverse, Bind.bind, Run.bind, Run.call, hcfg, Pure.pure]
      · intro err h; cases h
    · have hlen : ¬ exporters.length = 0 := by simpa using hnil
      have hrun : NewReverse env
          = { trace := [{ kind := EffectKind.oracleRead, what := str "filterCFGTable" },
                        { kind := EffectKind.metaRead, what := str "CountsErrorLogBySchema" }]
              result := Outcome.error
                (str "reverse schema [" ++ env.OracleSchemaName ++ str "] table mode ["
                  ++ env.ReverseO2MMode ++ str "] task failed: "
                  ++ errText env.CountsErrorLogBySchema.2
                  ++ str ", table [error_log_detail] exist failed error, please clear and rerunning") } := by
        simp [NewReverse, Bind.bind, Run.bind, Run.call, Run.ask, Run.fail, hcfg, hlen, hcount]
      refine ⟨?_, ?_, ?_, ?_⟩
      · rw [hrun]
        simp [Effect.isSideEffect]
      · intro exporters' _ _
        rw [hrun]
        exact ⟨⟨_, rfl⟩, rfl⟩
      · intro h
        cases h
        exact absurd rfl hnil
      · intro err h; cases h

/-- C9, amended, at the sample run with three failed rows recorded: the run stops
at the gate with an error, after two reads. -/
theorem NewReverse_error_gate_sample :
    gatedReverseEnv.CountsErrorLogBySchema.1 > 0
    ∧ (∀ e ∈ (NewReverse gatedReverseEnv).trace, e.isSideEffect = false)
    ∧ (∀ exporters, gatedReverseEnv.filterCFGTable = Except.ok exporters → exporters ≠ [] →
        (∃ msg, (NewReverse gatedReverseEnv).result = Outcome.error msg)
        ∧ (NewReverse gatedReverseEnv).trace
          = [{ kind := EffectKind.oracleRead, what := str "filterCFGTable" },
             { kind := EffectKind.metaRead, what := str "CountsErrorLogBySchema" }])
    ∧ (gatedReverseEnv.filterCFGTable = Except.ok [] →
        (NewReverse gatedReverseEnv).result = Outcome.ok ()
        ∧ (NewReverse gatedReverseEnv).trace
          = [{ kind := EffectKind.oracleRead, what := str "filterCFGTable" }])
    ∧ (∀ err, gatedReverseEnv.filterCFGTable = Except.error err →
        (NewReverse gatedReverseEnv).result = Outcome.error err) :=
  ⟨by decide, NewReverse_error_gate gatedReverseEnv (by decide)⟩

/-- C10: when the error-detail count for the schema in check mode is greater than 0,
or the count query fails, `NewCheck` returns an error, and nothing it has done by
then creates the check file, compares a table or has any other side effect. -/
theorem NewCheck_error_gate (env : CheckEnv)
    (hcount : env.CountsBySchema.1 > 0 ∨ env.CountsBySchema.2 ≠ none) :
    (∃ msg, (NewCheck env).result = Outcome.error msg)
    ∧ ∀ e ∈ (NewCheck env).trace,
        e.kind ≠ EffectKind.fileCreate ∧ e.kind ≠ EffectKind.tableCompare
          ∧ e.isSideEffect = false := by
  cases hcfg : env.filterCFGTable with
  | error err =>
    have hrun : NewCheck env
        = { trace := [{ kind := EffectKind.oracleRead, what := str "filterCFGTable" }]
            result := Outcome.error err } := by
      simp [NewCheck, Bind.bind, Run.bind, Run.call, hcfg]
    rw [hrun]
    exact ⟨⟨_, rfl⟩, by simp [Effect.isSideEffect]⟩
  | ok exporters =>
    cases hmy : env.GetMySQLTable with
    | error err =>
      have hrun : NewCheck env
          = { trace := [{ kind := EffectKind.oracleRead, what := str "filterCFGTable" },
                        { kind := EffectKind.targetRead, what := str "GetMySQLTable" }]
              result := Outcome.error err } := by
        simp [NewCheck, Bind.bind, Run.bind, Run.call, hcfg, hmy]
      rw [hrun]
      exact ⟨⟨_, rfl⟩, by simp [Effect.isSideEffect]⟩
    | ok mysqlTables =>
      by_cases hsub : (IsSubsetString mysqlTables exporters).1 = true
      · have hrun : NewCheck env
            = { trace := [{ kind := EffectKind.oracleRead, what := str "filterCFGTable" },
                          { kind := EffectKind.targetRead, what := str "GetMySQLTable" },
                          { kind := EffectKind.metaRead, what := str "CountsBySchema" }]
                result := Outcome.error
                  (str "check schema [" ++ ToUpper env.upper env.OracleSchemaName
                    ++ str "] mode [" ++ env.CheckO2MMode ++ str "] table task failed: "
                    ++ errText env.CountsBySchema.2
                    ++ str ", table [table_error_detail] exist failed error, please clear and rerunning") } := by
          simp [NewCheck, Bind.bind, Run.bind, Run.call, Run.ask, Run.fail, hcfg, hmy, hsub,
            hcount]
        rw [hrun]
        exact ⟨⟨_, rfl⟩, by simp [Effect.isSideEffect]⟩
      · have hrun : NewCheck env
            = { trace := [{ kind := EffectKind.oracleRead, what := str "filterCFGTable" },
                          { kind := EffectKind.targetRead, what := str "GetMySQLTable" }]
                result := Outcome.error
                  (str "oracle tables " ++ sliceText (IsSubsetString mysqlTables exporters).2
                    ++ str " isn't exist in the mysqldb schema [" ++ env.MySQLSchemaName
                    ++ str "], please create") } := by
          simp [NewCheck, Bind.bind, Run.bind, Run.call, Run.fail, hcfg, hmy, hsub]
        rw [hrun]
        exact ⟨⟨_, rfl⟩, by simp [Effect.isSideEffect]⟩

/-- C10 at the sample run with two failed rows recorded: `NewCheck` stops at the
gate, after three reads. -/
theorem NewCheck_error_gate_sample :
    (gatedCheckEnv.CountsBySchema.1 > 0 ∨ gatedCheckEnv.CountsBySchema.2 ≠ none)
    ∧ (NewCheck gatedCheckEnv).trace
      = [{ kind := EffectKind.oracleRead, what := str "filterCFGTable" },
         { kind := EffectKind.targetRead, what := str "GetMySQLTable" },
         { kind := EffectKind.metaRead, what := str "CountsBySchema" }]
    ∧ (∃ msg, (NewCheck gatedCheckEnv).result = Outcome.error msg)
    ∧ ∀ e ∈ (NewCheck gatedCheckEnv).trace,
        e.kind ≠ EffectKind.fileCreate ∧ e.kind ≠ EffectKind.tableCompare
          ∧ e.isSideEffect = false :=
  ⟨by decide, by decide, NewCheck_error_gate gatedCheckEnv (by decide)⟩

/-! ## The CREATE TABLE statement -/

theorem partDDL_eq_partitionClause (d : DDL) :
    d.partDDL = match d.partitionClause with
      | none => []
      | some clause => clause := by
  unfold DDL.partDDL DDL.partitionClause
  by_cases hp : d.TablePartitions = []
  · simp [hp]
  · have hlen : d.TablePartitions.length > 0 := List.length_pos.mpr hp
    by_cases ht : d.TablePartitionType = str "LIST"
    · simp [hp, hlen, ht]
    · simp [hlen, ht]

theorem partitionClause_ne_nil (d : DDL) (clause : GoString)
    (h : d.partitionClause = some clause) : clause ≠ [] := by
  unfold DDL.partitionClause at h
  split at h
  · simp only [Option.some.injEq] at h
    subst h
    simp [str]
  · cases h

theorem tableDDL_eq_createTableText (d : DDL) :
    d.tableDDL ++ str "\n" = d.createTableText := by
  have hpart := partDDL_eq_partitionClause d
  unfold DDL.tableDDL DDL.createTableText DDL.structDDL
  cases hc : d.partitionClause with
  | none =>
    rw [hc] at hpart
    simp only [hpart]
    by_cases hk : d.TableKeys = [] <;> by_cases hcm : d.TableComment = []
    all_goals simp [hk, hcm, List.length_pos]
  | some clause =>
    rw [hc] at hpart
    have hne : clause ≠ [] := partitionClause_ne_nil d clause hc
    simp only [hpart]
    by_cases hk : d.TableKeys = [] <;> by_cases hcm : d.TableComment = []
    all_goals simp [hk, hcm, hne, List.length_pos]

theorem GenDDLStructure_head (DatabaseTypeTiDB MySQLCheckConsVersion : GoString) (d : DDL) :
    ∃ rest comp, d.GenDDLStructure DatabaseTypeTiDB MySQLCheckConsVersion
        = some ((d.tableDDL ++ str "\n") :: rest, comp)
      ∧ rest ++ comp = d.foreignKeyDDL ++ d.checkKeyDDL ++ d.TableCompatibleDDL := by
  obtain ⟨o, ho⟩ := versionCompare_returns d.TargetDBVersion MySQLCheckConsVersion
  unfold DDL.GenDDLStructure
  by_cases hdb : d.TargetDBType = DatabaseTypeTiDB
  · exact ⟨[], d.foreignKeyDDL ++ d.checkKeyDDL ++ d.TableCompatibleDDL, by simp [hdb], by simp⟩
  · by_cases hgt : o = Ordering.gt
    · exact ⟨d.foreignKeyDDL ++ d.checkKeyDDL, d.TableCompatibleDDL, by simp [hdb, ho, hgt],
        by simp⟩
    · exact ⟨d.foreignKeyDDL, d.checkKeyDDL ++ d.TableCompatibleDDL, by simp [hdb, ho, hgt],
        by simp⟩

/-- C16: for every DDL `GenDDLStructure` returns, its reversible stream is not
empty, and the first element of that stream is the CREATE TABLE statement assembled
as the specification says: prefix, `" (\n"`, the column lines joined by `",\n"`,
the key lines (only when there are any) after `",\n"`, then `"\n)"`, a space and the
suffix, a space and the comment (only when there is one), a space and the partition
clause (only when there is one), `";"` and a newline. -/
theorem GenDDLStructure_create_table (DatabaseTypeTiDB MySQLCheckConsVersion : GoString)
    (d : DDL) :
    ∃ rev comp, d.GenDDLStructure DatabaseTypeTiDB MySQLCheckConsVersion = some (rev, comp)
      ∧ rev ≠ []
      ∧ rev.head? = some (d.TablePrefix ++ str " (\n" ++ Join d.TableColumns (str ",\n")
          ++ (if d.TableKeys = [] then [] else str ",\n" ++ Join d.TableKeys (str ",\n"))
          ++ str "\n)" ++ str " " ++ d.TableSuffix
          ++ (if d.TableComment = [] then [] else str " " ++ d.TableComment)
          ++ (match d.partitionClause with
              | none => []
              | some clause => str " " ++ clause)
          ++ str ";" ++ str "\n") := by
  obtain ⟨rest, comp, h, _⟩ := GenDDLStructure_head DatabaseTypeTiDB MySQLCheckConsVersion d
  refine ⟨_, comp, h, by simp, ?_⟩
  rw [List.head?_cons, tableDDL_eq_createTableText]
  rfl

/-- C17: for a DDL of partition type `LIST` with a non-empty partition list,
`GenDDLStructure` returns, the first element of its reversible stream is the CREATE
TABLE statement followed by a newline, and that statement ends with a space, the
clause `PARTITION BY LIST COLUMNS(<TablePartitionKeys>) (<definitions joined by
", ">)` and the terminating `;`. -/
theorem GenDDLStructure_list_partition (DatabaseTypeTiDB MySQLCheckConsVersion : GoString)
    (d : DDL) (hlist : d.TablePartitionType = str "LIST") (hne : d.TablePartitions ≠ []) :
    ∃ rev comp pre, d.GenDDLStructure DatabaseTypeTiDB MySQLCheckConsVersion = some (rev, comp)
      ∧ rev.head? = some (d.tableDDL ++ str "\n")
      ∧ d.tableDDL = pre ++ str " " ++ (str "PARTITION BY LIST COLUMNS(" ++ d.TablePartitionKeys
          ++ str ") (" ++ Join d.TablePartitions (str ", ") ++ str ")") ++ str ";" := by
  obtain ⟨rest, comp, h, _⟩ := GenDDLStructure_head DatabaseTypeTiDB MySQLCheckConsVersion d
  have hlen : d.TablePartitions.length > 0 := List.length_pos.mpr hne
  have hpart : d.partDDL = str "PARTITION BY LIST COLUMNS(" ++ d.TablePartitionKeys
      ++ str ") (" ++ Join d.TablePartitions (str ", ") ++ str ")" := by
    simp [DDL.partDDL, hlen, hlist]
  have hpne : d.partDDL ≠ [] := by
    rw [hpart]
    simp [str]
  by_cases hcm : d.TableComment = []
  · refine ⟨_, comp, d.structDDL ++ str " " ++ d.TableSuffix, h, rfl, ?_⟩
    rw [← hpart]
    simp [DDL.tableDDL, hcm, hpne]
  · refine ⟨_, comp, d.structDDL ++ str " " ++ d.TableSuffix ++ str " " ++ d.TableComment,
      h, rfl, ?_⟩
    rw [← hpart]
    simp [DDL.tableDDL, hcm, hpne]

/-- C17 at the table partitioned by `LIST` on `REGION` with the partitions `P_N` and
`P_S`: the clause is the one of the specification. -/
theorem GenDDLStructure_list_partition_sample :
    listPartitionedDDL.partDDL
      = str "PARTITION BY LIST COLUMNS(REGION) (PARTITION P_N VALUES IN ('N'), PARTITION P_S VALUES IN ('S'))"
    ∧ listPartitionedDDL.tableDDL
      = str "CREATE TABLE `SHOP`.`ORDERS` (\n`ID` INT,\n`QTY` INT,\nPRIMARY KEY (`ID`)\n) ENGINE=InnoDB PARTITION BY LIST COLUMNS(REGION) (PARTITION P_N VALUES IN ('N'), PARTITION P_S VALUES IN ('S'));"
    ∧ listPartitionedDDL.TablePartitionType = str "LIST"
    ∧ listPartitionedDDL.TablePartitions ≠ []
    ∧ ∃ rev comp pre, listPartitionedDDL.GenDDLStructure (str "TIDB") (str "8.0.15")
          = some (rev, comp)
      ∧ rev.head? = some (listPartitionedDDL.tableDDL ++ str "\n")
      ∧ listPartitionedDDL.tableDDL
        = pre ++ str " " ++ (str "PARTITION BY LIST COLUMNS(" ++ listPartitionedDDL.TablePartitionKeys
            ++ str ") (" ++ Join listPartitionedDDL.TablePartitions (str ", ") ++ str ")")
          ++ str ";" :=
  ⟨rfl, rfl, by decide, by decide,
    GenDDLStructure_list_partition (str "TIDB") (str "8.0.15") listPartitionedDDL
      (by decide) (by decide)⟩

/-- C18: for a DDL whose partition type is not `LIST`, the partition DDL is empty,
`GenDDLStructure` returns, and both of its streams are those of the same DDL with
its partition list emptied; the first element of the reversible stream is the
CREATE TABLE statement assembled without a partition clause. -/
theorem GenDDLStructure_other_partition (DatabaseTypeTiDB MySQLCheckConsVersion : GoString)
    (d : DDL) (hother : d.TablePartitionType ≠ str "LIST") :
    d.partDDL = []
    ∧ d.GenDDLStructure DatabaseTypeTiDB MySQLCheckConsVersion
      = ({ d with TablePartitions := [] } : DDL).GenDDLStructure DatabaseTypeTiDB
          MySQLCheckConsVersion
    ∧ ∃ rev comp, d.GenDDLStructure DatabaseTypeTiDB MySQLCheckConsVersion = some (rev, comp)
      ∧ rev.head? = some (d.TablePrefix ++ str " (\n" ++ Join d.TableColumns (str ",\n")
          ++ (if d.TableKeys = [] then [] else str ",\n" ++ Join d.TableKeys (str ",\n"))
          ++ str "\n)" ++ str " " ++ d.TableSuffix
          ++ (if d.TableComment = [] then [] else str " " ++ d.TableComment)
          ++ str ";" ++ str "\n") := by
  have hpart : d.partDDL = [] := by
    unfold DDL.partDDL
    split <;> simp [hother]
  have hpart' : ({ d with TablePartitions := [] } : DDL).partDDL = [] := by
    simp [DDL.partDDL]
  have hclause : d.partitionClause = none := by
    simp [DDL.partitionClause, hother]
  have htable : d.tableDDL = ({ d with TablePartitions := [] } : DDL).tableDDL := by
    simp only [DDL.tableDDL, hpart, hpart', DDL.structDDL]
  have hfk : ({ d with TablePartitions := [] } : DDL).foreignKeyDDL = d.foreignKeyDDL := rfl
  have hck : ({ d with TablePartitions := [] } : DDL).checkKeyDDL = d.checkKeyDDL := rfl
  refine ⟨hpart, ?_, ?_⟩
  · simp only [DDL.GenDDLStructure, hfk, hck, ← htable]
  · obtain ⟨rest, comp, h, _⟩ := GenDDLStructure_head DatabaseTypeTiDB MySQLCheckConsVersion d
    refine ⟨_, comp, h, ?_⟩
    rw [List.head?_cons, tableDDL_eq_createTableText]
    simp [DDL.createTableText, hclause]

/-- C18 at the table partitioned by `RANGE`: its streams are those of the table
without partitions. -/
theorem GenDDLStructure_other_partition_sample :
    rangePartitionedDDL.TablePartitionType ≠ str "LIST"
    ∧ rangePartitionedDDL.TablePartitions ≠ []
    ∧ rangePartitionedDDL.partDDL = []
    ∧ rangePartitionedDDL.GenDDLStructure (str "TIDB") (str "8.0.15")
      = ({ rangePartitionedDDL with TablePartitions := [] } : DDL).GenDDLStructure (str "TIDB")
          (str "8.0.15")
    ∧ ∃ rev comp, rangePartitionedDDL.GenDDLStructure (str "TIDB") (str "8.0.15")
          = some (rev, comp)
      ∧ rev.head? = some (rangePartitionedDDL.TablePrefix ++ str " (\n"
          ++ Join rangePartitionedDDL.TableColumns (str ",\n")
          ++ (if rangePartitionedDDL.TableKeys = [] then []
              else str ",\n" ++ Join rangePartitionedDDL.TableKeys (str ",\n"))
          ++ str "\n)" ++ str " " ++ rangePartitionedDDL.TableSuffix
          ++ (if rangePartitionedDDL.TableComment = [] then []
              else str " " ++ rangePartitionedDDL.TableComment)
          ++ str ";" ++ str "\n") :=
  ⟨by decide, by decide,
    GenDDLStructure_other_partition (str "TIDB") (str "8.0.15") rangePartitionedDDL (by decide)⟩

/-- C20: for every DDL `GenDDLStructure` returns, and the reversible stream without
its first element, followed by the compatibility stream, is exactly the list of one
statement ``ALTER TABLE `<schema>`.`<table>` ADD k;`` for each foreign key `k`, then
one for each check key `k`, then the `TableCompatibleDDL` entries: nothing is
dropped, nothing is duplicated, and the input order is kept; the rest of the
reversible stream is an initial part of that list and the compatibility stream is
the remaining final part. -/
theorem GenDDLStructure_alter_statements (DatabaseTypeTiDB MySQLCheckConsVersion : GoString)
    (d : DDL) :
    ∃ rev comp, d.GenDDLStructure DatabaseTypeTiDB MySQLCheckConsVersion = some (rev, comp)
      ∧ rev.tail ++ comp
        = d.TableForeignKeys.map (fun k => str "ALTER TABLE `" ++ d.TargetSchemaName
            ++ str "`.`" ++ d.TargetTableName ++ str "` ADD " ++ k ++ str ";")
          ++ d.TableCheckKeys.map (fun k => str "ALTER TABLE `" ++ d.TargetSchemaName
            ++ str "`.`" ++ d.TargetTableName ++ str "` ADD " ++ k ++ str ";")
          ++ d.TableCompatibleDDL
      ∧ rev.tail <+: d.TableForeignKeys.map d.alterSQL ++ d.TableCheckKeys.map d.alterSQL
          ++ d.TableCompatibleDDL
      ∧ comp <:+ d.TableForeignKeys.map d.alterSQL ++ d.TableCheckKeys.map d.alterSQL
          ++ d.TableCompatibleDDL
      ∧ rev.tail.length + comp.length
        = d.TableForeignKeys.length + d.TableCheckKeys.length + d.TableCompatibleDDL.length := by
  obtain ⟨rest, comp, h, hcat⟩ := GenDDLStructure_head DatabaseTypeTiDB MySQLCheckConsVersion d
  have hcat' : rest ++ comp = d.TableForeignKeys.map d.alterSQL
      ++ d.TableCheckKeys.map d.alterSQL ++ d.TableCompatibleDDL := hcat
  refine ⟨_, comp, h, ?_, ?_, ?_, ?_⟩
  · exact hcat'
  · exact ⟨comp, hcat'⟩
  · exact ⟨rest, hcat'⟩
  · have := congrArg List.length hcat'
    simp only [List.length_append, List.length_map, List.tail_cons] at this ⊢
    omega

/-! ## The compatibility report of the reverse job -/

/-- C19: whenever the list of partitioned, of temporary or of clustered tables is
not empty, the first thing `GenCompatibilityTable` does is to write to the
compatibility sink a report whose rows are one row per partitioned table labelled
`Partition`, then one per temporary table labelled `Temporary`, then one per
clustered table labelled `Clustered`, each with the source schema and the suggestion
`Manual Process Table`; without materialized views this is its only action. When all
four lists are empty it does nothing and returns nil. -/
theorem GenCompatibilityTable_report {Rule : Type} (env : ReverseEnv Rule)
    (sourceSchema : GoString)
    (partitionTables temporaryTables clusteredTables materializedViews : List GoString)
    (hsome : partitionTables ≠ [] ∨ temporaryTables ≠ [] ∨ clusteredTables ≠ []) :
    (GenCompatibilityTable env sourceSchema partitionTables temporaryTables clusteredTables
        materializedViews).trace.head?
      = some
          { kind := EffectKind.fileWrite
            what := str "compatibility"
            text := str "/*\n"
              ++ str " oracle table maybe mysql has compatibility, will convert to normal table, please manual process\n"
              ++ env.Render [str "SCHEMA", str "TABLE NAME", str "ORACLE TABLE TYPE", str "SUGGEST"]
                  (partitionTables.map (fun part =>
                      [sourceSchema, part, str "Partition", str "Manual Process Table"])
                    ++ temporaryTables.map (fun temp =>
                      [sourceSchema, temp, str "Temporary", str "Manual Process Table"])
                    ++ clusteredTables.map (fun cd =>
                      [sourceSchema, cd, str "Clustered", str "Manual Process Table"]))
              ++ str "\n" ++ str "*/\n" }
    ∧ (GenCompatibilityTable env sourceSchema partitionTables temporaryTables clusteredTables
        []).trace.length = 1
    ∧ (GenCompatibilityTable env sourceSchema [] [] [] []).trace = []
    ∧ (GenCompatibilityTable env sourceSchema [] [] [] []).result = Outcome.ok () := by
  have hcond : ∀ m : List GoString, partitionTables.length > 0 ∨ temporaryTables.length > 0
      ∨ clusteredTables.length > 0 ∨ m.length > 0 := by
    intro m
    rcases hsome with h | h | h
    · exact Or.inl (List.length_pos.mpr h)
    · exact Or.inr (Or.inl (List.length_pos.mpr h))
    · exact Or.inr (Or.inr (Or.inl (List.length_pos.mpr h)))
  refine ⟨?_, ?_, ?_, ?_⟩
  · unfold GenCompatibilityTable
    rw [if_pos (hcond materializedViews)]
    simp only [Bind.bind, Run.bind, sinkWriteText, compatibilityRows]
    cases env.CWriteFile _ <;> simp
  · unfold GenCompatibilityTable
    rw [if_pos (hcond [])]
    simp only [Bind.bind, Run.bind, sinkWriteText]
    cases env.CWriteFile _ <;> simp [Pure.pure]
  · simp [GenCompatibilityTable, Pure.pure]
  · simp [GenCompatibilityTable, Pure.pure]

/-- C19 at the sample run with one partitioned and one temporary table. -/
theorem GenCompatibilityTable_report_sample :
    (GenCompatibilityTable sampleReverseEnv (str "MARVIN") [str "SALES"] [str "TMP1"] [] []).trace
      = [{ kind := EffectKind.fileWrite
           what := str "compatibility"
           text := str "/*\n oracle table maybe mysql has compatibility, will convert to normal table, please manual process\nSCHEMA|TABLE NAME|ORACLE TABLE TYPE|SUGGEST|MARVIN|SALES|Partition|Manual Process Table|MARVIN|TMP1|Temporary|Manual Process Table\n*/\n" }]
    ∧ (([str "SALES"] : List GoString) ≠ [] ∨ ([str "TMP1"] : List GoString) ≠ []
        ∨ ([] : List GoString) ≠ [])
    ∧ (GenCompatibilityTable sampleReverseEnv (str "MARVIN") [str "SALES"] [str "TMP1"] []
        []).trace.head?
      = some
          { kind := EffectKind.fileWrite
            what := str "compatibility"
            text := str "/*\n"
              ++ str " oracle table maybe mysql has compatibility, will convert to normal table, please manual process\n"
              ++ sampleReverseEnv.Render
                  [str "SCHEMA", str "TABLE NAME", str "ORACLE TABLE TYPE", str "SUGGEST"]
                  ([str "SALES"].map (fun part =>
                      [str "MARVIN", part, str "Partition", str "Manual Process Table"])
                    ++ [str "TMP1"].map (fun temp =>
                      [str "MARVIN", temp, str "Temporary", str "Manual Process Table"])
                    ++ ([] : List GoString).map (fun cd =>
                      [str "MARVIN", cd, str "Clustered", str "Manual Process Table"]))
              ++ str "\n" ++ str "*/\n" }
    ∧ (GenCompatibilityTable sampleReverseEnv (str "MARVIN") [str "SALES"] [str "TMP1"] []
        []).trace.length = 1
    ∧ (GenCompatibilityTable sampleReverseEnv (str "MARVIN") [] [] [] []).trace = []
    ∧ (GenCompatibilityTable sampleReverseEnv (str "MARVIN") [] [] [] []).result
      = Outcome.ok () :=
  ⟨rfl, by decide,
    GenCompatibilityTable_report sampleReverseEnv (str "MARVIN") [str "SALES"] [str "TMP1"] [] []
      (Or.inl (by decide))⟩

/-! ## Preflight checks of the jobs -/

/-- The run of `NewReverse` once the table list is not empty, the error gate is
passed and both NLS values are read. -/
theorem NewReverse_after_NLS_reads {Rule : Type} (env : ReverseEnv Rule)
    (exporters : List GoString) (nlsSort nlsComp : GoString)
    (hcfg : env.filterCFGTable = Except.ok exporters) (hne : exporters ≠ [])
    (hgate : ¬ (env.CountsErrorLogBySchema.1 > 0 ∨ env.CountsErrorLogBySchema.2 ≠ none))
    (hcomp : env.GetOracleDBCharacterNLSCompCollation = Except.ok nlsComp)
    (hsort : env.GetOracleDBCharacterNLSSortCollation = Except.ok nlsSort) :
    NewReverse env
      = Run.bind { trace := reverseNLSReads, result := Outcome.ok () } (fun _ =>
          if (env.OracleCollationMap.find (ToUpper env.upper nlsComp)).isNone then
            Run.fail (str "r.Oracle db nls comp [" ++ nlsComp ++ str "] , mysql db isn't support")
          else if (env.OracleCollationMap.find (ToUpper env.upper nlsSort)).isNone then
            Run.fail (str "r.Oracle db nls sort [" ++ nlsSort ++ str "] , mysql db isn't support")
          else if !EqualFold env.fold nlsSort nlsComp then
            Run.fail (str "r.Oracle db nls_sort [" ++ nlsSort ++ str "] and nls_comp [" ++ nlsComp
              ++ str "] isn't different, need be equal; because mysql db isn't support")
          else NewReverse.translate env exporters nlsSort nlsComp) := by
  have hlen : ¬ exporters.length = 0 := by simpa using hne
  simp only [NewReverse, Bind.bind, Run.bind, Run.call, Run.ask, hcfg, hlen, hgate, hcomp, hsort,
    if_false, reverseNLSReads]
  split <;> simp_all


/-- The run of `NewCheck` once the target tables are complete, the error gate is
passed, the character set is accepted and both NLS values are read. -/
theorem NewCheck_after_NLS_reads (env : CheckEnv) (exporters mysqlTables : List GoString)
    (characterSet name nlsSort nlsComp : GoString)
    (hcfg : env.filterCFGTable = Except.ok exporters)
    (hmy : env.GetMySQLTable = Except.ok mysqlTables)
    (hsub : (IsSubsetString mysqlTables exporters).1 = true)
    (hgate : ¬ (env.CountsBySchema.1 > 0 ∨ env.CountsBySchema.2 ≠ none))
    (hcs : env.GetOracleDBCharacterSet = Except.ok characterSet)
    (hname : (Split characterSet (str "."))[1]? = some name)
    (hallow : (env.OracleDBCharacterSetMap.find name).isNone = false)
    (hsort : env.GetOracleDBCharacterNLSSortCollation = Except.ok nlsSort)
    (hcomp : env.GetOracleDBCharacterNLSCompCollation = Except.ok nlsComp) :
    NewCheck env
      = Run.bind { trace := checkNLSReads, result := Outcome.ok () } (fun _ =>
          if (env.OracleCollationMap.find (ToUpper env.upper nlsSort)).isNone then
            Run.fail (str "oracle db nls sort [" ++ nlsSort ++ str "] isn't support")
          else if (env.OracleCollationMap.find (ToUpper env.upper nlsComp)).isNone then
            Run.fail (str "oracle db nls comp [" ++ nlsComp ++ str "] isn't support")
          else if ToUpper env.upper nlsSort ≠ ToUpper env.upper nlsComp then
            Run.fail (str "oracle db nls_sort [" ++ nlsSort ++ str "] and nls_comp [" ++ nlsComp
              ++ str "] isn't different, need be equal; because mysql db isn't support")
          else NewCheck.compare env exporters) := by
  simp only [NewCheck, Bind.bind, Run.bind, Run.call, Run.ask, hcfg, hmy, hsub, hgate, hcs,
    hname, hallow, hsort, hcomp, checkNLSReads]
  split <;> simp_all

/-- C11: once `NewReverse`, run with a non-empty table list and past its error gate,
has read the two NLS values, it returns an error whenever `strings.EqualFold` finds
them different, having done nothing but its four reads (no output file is created,
no table is read or translated); and once `NewCheck`, past its earlier checks, has
read them, it returns an error whenever their upper-cased forms differ, having done
nothing but its six reads (the check file is not created). Values of supported
collations that the comparison finds equal are accepted: the job goes on with its
next step. -/
theorem NLS_preflight {Rule : Type} (envR : ReverseEnv Rule) (envK : CheckEnv)
    (exportersR exportersK mysqlTables : List GoString)
    (characterSet name nlsSort nlsComp : GoString)
    (hcfgR : envR.filterCFGTable = Except.ok exportersR) (hneR : exportersR ≠ [])
    (hgateR : ¬ (envR.CountsErrorLogBySchema.1 > 0 ∨ envR.CountsErrorLogBySchema.2 ≠ none))
    (hcompR : envR.GetOracleDBCharacterNLSCompCollation = Except.ok nlsComp)
    (hsortR : envR.GetOracleDBCharacterNLSSortCollation = Except.ok nlsSort)
    (hcfgK : envK.filterCFGTable = Except.ok exportersK)
    (hmyK : envK.GetMySQLTable = Except.ok mysqlTables)
    (hsubK : (IsSubsetString mysqlTables exportersK).1 = true)
    (hgateK : ¬ (envK.CountsBySchema.1 > 0 ∨ envK.CountsBySchema.2 ≠ none))
    (hcsK : envK.GetOracleDBCharacterSet = Except.ok characterSet)
    (hnameK : (Split characterSet (str "."))[1]? = some name)
    (hallowK : (envK.OracleDBCharacterSetMap.find name).isNone = false)
    (hsortK : envK.GetOracleDBCharacterNLSSortCollation = Except.ok nlsSort)
    (hcompK : envK.GetOracleDBCharacterNLSCompCollation = Except.ok nlsComp) :
    (EqualFold envR.fold nlsSort nlsComp = false →
      (∃ msg, (NewReverse envR).result = Outcome.error msg)
      ∧ (NewReverse envR).trace = reverseNLSReads
      ∧ ∀ e ∈ (NewReverse envR).trace, e.kind ≠ EffectKind.fileCreate
          ∧ e.kind ≠ EffectKind.tableRead ∧ e.kind ≠ EffectKind.tableTranslate
          ∧ e.isSideEffect = false)
    ∧ (ToUpper envK.upper nlsSort ≠ ToUpper envK.upper nlsComp →
      (∃ msg, (NewCheck envK).result = Outcome.error msg)
      ∧ (NewCheck envK).trace = checkNLSReads
      ∧ ∀ e ∈ (NewCheck envK).trace, e.kind ≠ EffectKind.fileCreate
          ∧ e.kind ≠ EffectKind.tableCompare ∧ e.isSideEffect = false)
    ∧ (EqualFold envR.fold nlsSort nlsComp = true →
      (envR.OracleCollationMap.find (ToUpper envR.upper nlsComp)).isNone = false →
      (envR.OracleCollationMap.find (ToUpper envR.upper nlsSort)).isNone = false →
      (NewReverse envR).trace
          = reverseNLSReads ++ (NewReverse.translate envR exportersR nlsSort nlsComp).trace
        ∧ (NewReverse envR).result
          = (NewReverse.translate envR exportersR nlsSort nlsComp).result)
    ∧ (ToUpper envK.upper nlsSort = ToUpper envK.upper nlsComp →
      (envK.OracleCollationMap.find (ToUpper envK.upper nlsSort)).isNone = false →
      (envK.OracleCollationMap.find (ToUpper envK.upper nlsComp)).isNone = false →
      (NewCheck envK).trace = checkNLSReads ++ (NewCheck.compare envK exportersK).trace
        ∧ (NewCheck envK).result = (NewCheck.compare envK exportersK).result) := by
  have hR := NewReverse_after_NLS_reads envR exportersR nlsSort nlsComp hcfgR hneR hgateR
    hcompR hsortR
  have hK := NewCheck_after_NLS_reads envK exportersK mysqlTables characterSet name nlsSort
    nlsComp hcfgK hmyK hsubK hgateK hcsK hnameK hallowK hsortK hcompK
  have hnoR : ∀ e ∈ reverseNLSReads, e.kind ≠ EffectKind.fileCreate
      ∧ e.kind ≠ EffectKind.tableRead ∧ e.kind ≠ EffectKind.tableTranslate
      ∧ e.isSideEffect = false := by decide
  have hnoK : ∀ e ∈ checkNLSReads, e.kind ≠ EffectKind.fileCreate
      ∧ e.kind ≠ EffectKind.tableCompare ∧ e.isSideEffect = false := by decide
  refine ⟨?_, ?_, ?_, ?_⟩
  · intro hdiff
    have hrun : (∃ msg, (NewReverse envR).result = Outcome.error msg)
        ∧ (NewReverse envR).trace = reverseNLSReads := by
      rw [hR]
      by_cases h1 : (envR.OracleCollationMap.find (ToUpper envR.upper nlsComp)).isNone = true
      · simp [Run.bind, Run.fail, h1]
      · by_cases h2 : (envR.OracleCollationMap.find (ToUpper envR.upper nlsSort)).isNone = true
        · simp [Run.bind, Run.fail, h1, h2]
        · simp [Run.bind, Run.fail, h1, h2, hdiff]
    refine ⟨hrun.1, hrun.2, ?_⟩
    rw [hrun.2]
    exact hnoR
  · intro hdiff
    have hrun : (∃ msg, (NewCheck envK).result = Outcome.error msg)
        ∧ (NewCheck envK).trace = checkNLSReads := by
      rw [hK]
      by_cases h1 : (envK.OracleCollationMap.find (ToUpper envK.upper nlsSort)).isNone = true
      · simp [Run.bind, Run.fail, h1]
      · by_cases h2 : (envK.OracleCollationMap.find (ToUpper envK.upper nlsComp)).isNone = true
        · simp [Run.bind, Run.fail, h1, h2]
        · simp [Run.bind, Run.fail, h1, h2, hdiff]
    refine ⟨hrun.1, hrun.2, ?_⟩
    rw [hrun.2]
    exact hnoK
  · intro heq h1 h2
    rw [hR]
    constructor <;> simp [Run.bind, h1, h2, heq]
  · intro heq h1 h2
    rw [hK]
    constructor <;> simp [Run.bind, h1, h2, heq]

/-- C11 at the sample runs: with `NLS_SORT = BINARY_CI` and `NLS_COMP = BINARY`, both
supported, each job stops with an error after its reads; with `NLS_SORT = binary`
and `NLS_COMP = BINARY` each job runs to its end. -/
theorem NLS_preflight_sample :
    (NewReverse mixedCaseReverseEnv).result = Outcome.ok ()
    ∧ (NewCheck mixedCaseCheckEnv).result = Outcome.ok ()
    ∧ mismatchReverseEnv.filterCFGTable = Except.ok [str "ORDERS"]
    ∧ ([str "ORDERS"] : List GoString) ≠ []
    ∧ ¬ (mismatchReverseEnv.CountsErrorLogBySchema.1 > 0
        ∨ mismatchReverseEnv.CountsErrorLogBySchema.2 ≠ none)
    ∧ mismatchReverseEnv.GetOracleDBCharacterNLSCompCollation = Except.ok (str "BINARY")
    ∧ mismatchReverseEnv.GetOracleDBCharacterNLSSortCollation = Except.ok (str "BINARY_CI")
    ∧ mismatchCheckEnv.filterCFGTable = Except.ok [str "ORDERS"]
    ∧ mismatchCheckEnv.GetMySQLTable = Except.ok [str "ORDERS", str "ITEM"]
    ∧ (IsSubsetString [str "ORDERS", str "ITEM"] [str "ORDERS"]).1 = true
    ∧ ¬ (mismatchCheckEnv.CountsBySchema.1 > 0 ∨ mismatchCheckEnv.CountsBySchema.2 ≠ none)
    ∧ mismatchCheckEnv.GetOracleDBCharacterSet = Except.ok (str "AMERICAN_AMERICA.AL32UTF8")
    ∧ (Split (str "AMERICAN_AMERICA.AL32UTF8") (str "."))[1]? = some (str "AL32UTF8")
    ∧ (mismatchCheckEnv.OracleDBCharacterSetMap.find (str "AL32UTF8")).isNone = false
    ∧ mismatchCheckEnv.GetOracleDBCharacterNLSSortCollation = Except.ok (str "BINARY_CI")
    ∧ mismatchCheckEnv.GetOracleDBCharacterNLSCompCollation = Except.ok (str "BINARY")
    ∧ EqualFold mismatchReverseEnv.fold (str "BINARY_CI") (str "BINARY") = false
    ∧ ToUpper mismatchCheckEnv.upper (str "BINARY_CI") ≠ ToUpper mismatchCheckEnv.upper (str "BINARY")
    ∧ ((∃ msg, (NewReverse mismatchReverseEnv).result = Outcome.error msg)
      ∧ (NewReverse mismatchReverseEnv).trace = reverseNLSReads
      ∧ ∀ e ∈ (NewReverse mismatchReverseEnv).trace, e.kind ≠ EffectKind.fileCreate
          ∧ e.kind ≠ EffectKind.tableRead ∧ e.kind ≠ EffectKind.tableTranslate
          ∧ e.isSideEffect = false)
    ∧ ((∃ msg, (NewCheck mismatchCheckEnv).result = Outcome.error msg)
      ∧ (NewCheck mismatchCheckEnv).trace = checkNLSReads
      ∧ ∀ e ∈ (NewCheck mismatchCheckEnv).trace, e.kind ≠ EffectKind.fileCreate
          ∧ e.kind ≠ EffectKind.tableCompare ∧ e.isSideEffect = false) :=
  ⟨by decide, by decide, rfl, by decide, by decide, rfl, rfl, rfl, rfl, by decide, by decide,
    rfl, by decide, by decide, rfl, rfl, by decide, by decide,
    (NLS_preflight mismatchReverseEnv mismatchCheckEnv [str "ORDERS"] [str "ORDERS"]
      [str "ORDERS", str "ITEM"] (str "AMERICAN_AMERICA.AL32UTF8") (str "AL32UTF8")
      (str "BINARY_CI") (str "BINARY") rfl (by decide) (by decide) rfl rfl rfl rfl (by decide)
      (by decide) rfl (by decide) (by decide) rfl rfl).1 (by decide),
    (NLS_preflight mismatchReverseEnv mismatchCheckEnv [str "ORDERS"] [str "ORDERS"]
      [str "ORDERS", str "ITEM"] (str "AMERICAN_AMERICA.AL32UTF8") (str "AL32UTF8")
      (str "BINARY_CI") (str "BINARY") rfl (by decide) (by decide) rfl rfl rfl rfl (by decide)
      (by decide) rfl (by decide) (by decide) rfl rfl).2.1 (by decide)⟩

/-- C12 fails on the code: for the character-set string `AL32UTF8`, which has no
`.`, `strings.Split(characterSet, ".")[1]` is out of range, so `GenReverseTableTask`
and `NewCheck` panic instead of returning an error; for the dotted string
`AMERICAN_AMERICA.WE8DEC`, whose character set is not in the allow-list, `NewCheck`
does return the error. -/
theorem charset_check_panics_without_dot :
    (GenReverseTableTask dotlessCharsetReverseEnv [] [] [] (str "19.0.0.0.0") true
        [str "ORDERS"] (str "BINARY") (str "BINARY")).result = Outcome.panic
    ∧ (NewReverse dotlessCharsetReverseEnv).result = Outcome.panic
    ∧ (NewCheck dotlessCharsetCheckEnv).result = Outcome.panic
    ∧ (NewCheck unsupportedCharsetCheckEnv).result
      = Outcome.error (str "oracle db character set [AMERICAN_AMERICA.WE8DEC] isn't support") := by
  refine ⟨by decide, by decide, by decide, by decide⟩

theorem IsSubsetString_missing (first second : List GoString) :
    (IsSubsetString first second).2 = second.filter (fun t => t ∉ first)
    ∧ ((IsSubsetString first second).1 = false ↔ ∃ t ∈ second, t ∉ first) := by
  have hfilter : second.filter (fun t => !first.contains t)
      = second.filter (fun t => t ∉ first) := by
    apply List.filter_congr
    intro t _
    simp
  constructor
  · simp only [IsSubsetString, hfilter]
  · simp only [IsSubsetString, hfilter, List.isEmpty_eq_true, Bool.eq_false_iff, ne_eq,
      List.filter_eq_nil_iff]
    simp

/-- C13: whenever some configured Oracle table is missing from the tables of the
MySQL schema, `NewCheck` returns the error that names the missing tables, having
done nothing but read the table list and the target tables: the error gate is not
consulted, no Oracle environment query is made, the check file is not created and
no table is compared. -/
theorem NewCheck_missing_tables (env : CheckEnv) (exporters mysqlTables : List GoString)
    (hcfg : env.filterCFGTable = Except.ok exporters)
    (hmy : env.GetMySQLTable = Except.ok mysqlTables)
    (hmissing : ∃ t ∈ exporters, t ∉ mysqlTables) :
    (NewCheck env).result
      = Outcome.error (str "oracle tables "
          ++ sliceText (exporters.filter (fun t => t ∉ mysqlTables))
          ++ str " isn't exist in the mysqldb schema [" ++ env.MySQLSchemaName
          ++ str "], please create")
    ∧ (NewCheck env).trace
      = [{ kind := EffectKind.oracleRead, what := str "filterCFGTable" },
         { kind := EffectKind.targetRead, what := str "GetMySQLTable" }]
    ∧ ∀ e ∈ (NewCheck env).trace, e.kind ≠ EffectKind.metaRead
        ∧ e.kind ≠ EffectKind.fileCreate ∧ e.kind ≠ EffectKind.tableCompare
        ∧ e.isSideEffect = false := by
  obtain ⟨hlist, hflag⟩ := IsSubsetString_missing mysqlTables exporters
  have hsub : (IsSubsetString mysqlTables exporters).1 = false := hflag.mpr hmissing
  have hrun : NewCheck env
      = { trace := [{ kind := EffectKind.oracleRead, what := str "filterCFGTable" },
                    { kind := EffectKind.targetRead, what := str "GetMySQLTable" }]
          result := Outcome.error (str "oracle tables "
            ++ sliceText (exporters.filter (fun t => t ∉ mysqlTables))
            ++ str " isn't exist in the mysqldb schema [" ++ env.MySQLSchemaName
            ++ str "], please create") } := by
    rw [← hlist]
    simp [NewCheck, Bind.bind, Run.bind, Run.call, Run.fail, hcfg, hmy, hsub]
  rw [hrun]
  exact ⟨rfl, rfl, by simp [Effect.isSideEffect]⟩

/-- C13 at the sample check run with the configured tables `ORDERS` and `PAYMENTS`,
of which only `ORDERS` exists on the target. -/
theorem NewCheck_missing_tables_sample :
    (NewCheck missingTableCheckEnv).result
      = Outcome.error
          (str "oracle tables [PAYMENTS] isn't exist in the mysqldb schema [shop], please create")
    ∧ missingTableCheckEnv.filterCFGTable = Except.ok [str "ORDERS", str "PAYMENTS"]
    ∧ missingTableCheckEnv.GetMySQLTable = Except.ok [str "ORDERS", str "ITEM"]
    ∧ (∃ t ∈ [str "ORDERS", str "PAYMENTS"], t ∉ [str "ORDERS", str "ITEM"])
    ∧ (NewCheck missingTableCheckEnv).result
      = Outcome.error (str "oracle tables "
          ++ sliceText ([str "ORDERS", str "PAYMENTS"].filter
              (fun t => t ∉ [str "ORDERS", str "ITEM"]))
          ++ str " isn't exist in the mysqldb schema [" ++ missingTableCheckEnv.MySQLSchemaName
          ++ str "], please create")
    ∧ (NewCheck missingTableCheckEnv).trace
      = [{ kind := EffectKind.oracleRead, what := str "filterCFGTable" },
         { kind := EffectKind.targetRead, what := str "GetMySQLTable" }]
    ∧ ∀ e ∈ (NewCheck missingTableCheckEnv).trace, e.kind ≠ EffectKind.metaRead
        ∧ e.kind ≠ EffectKind.fileCreate ∧ e.kind ≠ EffectKind.tableCompare
        ∧ e.isSideEffect = false :=
  ⟨by decide, rfl, rfl, by decide,
    NewCheck_missing_tables missingTableCheckEnv [str "ORDERS", str "PAYMENTS"]
      [str "ORDERS", str "ITEM"] rfl rfl (by decide)⟩

theorem Query_row_other (k : GoString) (cols : List GoString) :
    ∀ (values : List (Option GoString)) (row : GoStrMap), k ∉ cols →
      (Query.row cols values row).find k = row.find k := by
  induction cols with
  | nil => intro values row _; cases values <;> rfl
  | cons c cs ih =>
      intro values row hk
      cases values with
      | nil => rfl
      | cons v vs =>
          have hne : ¬ k = c := fun h => hk (h ▸ List.mem_cons_self _ _)
          have hcs : k ∉ cs := fun h => hk (List.mem_cons_of_mem _ h)
          simp only [Query.row]
          rw [ih vs _ hcs]
          have hb : (k == c) = false := beq_eq_false_iff_ne.mpr hne
          simp only [GoStrMap.find, GoStrMap.set, List.lookup, hb]

theorem Query_row_field (k : GoString) (cols : List GoString) :
    ∀ (values : List (Option GoString)) (row : GoStrMap) (i : Nat) (v : Option GoString),
      cols[i]? = some k → values[i]? = some v → k ∉ cols.drop (i + 1) →
      (Query.row cols values row).find k = some (Query.field v) := by
  induction cols with
  | nil => intro values row i v hc; simp at hc
  | cons c cs ih =>
      intro values row i v hc hv hlast
      cases values with
      | nil => simp at hv
      | cons w ws =>
          cases i with
          | zero =>
              simp only [List.getElem?_cons_zero, Option.some.injEq] at hc hv
              subst hc; subst hv
              simp only [Nat.zero_add, List.drop_succ_cons, List.drop_zero] at hlast
              simp only [Query.row]
              rw [Query_row_other c cs ws _ hlast]
              simp [GoStrMap.find, GoStrMap.set, List.lookup]
          | succ j =>
              simp only [List.getElem?_cons_succ] at hc hv
              simp only [List.drop_succ_cons] at hlast
              simp only [Query.row]
              exact ih ws _ j v hc hv hlast

theorem Query_next_ok (cols : List GoString) (rows : List (List (Option GoString))) :
    ∀ res : List GoStrMap,
      Query.next cols (rows.map Except.ok) res
        = (res ++ rows.map (fun values => Query.row cols values []), none) := by
  induction rows with
  | nil => intro res; simp [Query.next]
  | cons r rs ih => intro res; simp [Query.next, ih]

theorem GetOracleTableRows_next_ok (rows : List (List (Option GoString))) :
    ∀ rowsResult : List GoString,
      GetOracleTableRows.next (rows.map Except.ok) rowsResult
        = (rowsResult ++ (rows.map (fun r => r.map GetOracleTableRows.entry)).flatten, none) := by
  induction rows with
  | nil => intro res; simp [GetOracleTableRows.next]
  | cons r rs ih => intro res; simp [GetOracleTableRows.next, ih]

theorem flatten_uniform_length {α : Type} (c : Nat) (L : List (List α))
    (h : ∀ r ∈ L, r.length = c) : L.flatten.length = L.length * c := by
  induction L with
  | nil => simp
  | cons x xs ih =>
      have hx : x.length = c := h x (List.mem_cons_self _ _)
      have hxs := ih (fun r hr => h r (List.mem_cons_of_mem _ hr))
      simp only [List.flatten_cons, List.length_append, List.length_cons, hx, hxs]
      rw [Nat.succ_mul]; omega

theorem flatten_uniform_index {α : Type} (c : Nat) (L : List (List α))
    (h : ∀ r ∈ L, r.length = c) :
    ∀ (i j : Nat) (row : List α), L[i]? = some row → j < c →
      L.flatten[i * c + j]? = row[j]? := by
  induction L with
  | nil => intro i j row hi; simp at hi
  | cons x xs ih =>
      intro i j row hi hj
      have hx : x.length = c := h x (List.mem_cons_self _ _)
      cases i with
      | zero =>
          simp only [List.getElem?_cons_zero, Option.some.injEq] at hi
          subst hi
          simp only [List.flatten_cons, Nat.zero_mul, Nat.zero_add]
          exact List.getElem?_append_left (by omega)
      | succ n =>
          simp only [List.getElem?_cons_succ] at hi
          simp only [List.flatten_cons]
          rw [List.getElem?_append_right (by rw [hx, Nat.succ_mul]; omega)]
          have hidx : (n + 1) * c + j - x.length = n * c + j := by
            rw [hx, Nat.succ_mul]; omega
          rw [hidx]
          exact ih (fun r hr => h r (List.mem_cons_of_mem _ hr)) n j row hi hj

/-- C14 fails on the code: `Query` returns a non-NULL value whose text is `NULLABLE`
unchanged, so its field equals the sentinel exactly as the field of the NULL in the
next column does, although the comment on `IsNull` reads a field equal to `NULLABLE`
as a NULL. -/
theorem Query_sentinel_text_collides :
    Query (rowsDB [str "A", str "B"] [[some (str "NULLABLE"), none]]) (str "SELECT A, B FROM T")
      = ([str "A", str "B"], [[(str "B", IsNull), (str "A", IsNull)]], none)
    ∧ (some (str "NULLABLE") : Option GoString) ≠ none := by
  constructor
  · rfl
  · decide

/-- What `Query` returns when the query succeeds and every row scans into one raw
value per column: one row map per database row, in order; the field of a column (the
last one of its name) is the sentinel `NULLABLE` for a NULL and the value's text
unchanged for a non-NULL value, the empty string included; and the field equals the
sentinel exactly when the value was NULL or its text is itself `NULLABLE`. -/
theorem Query_null_sentinel (db : SQLDB) (querySQL : GoString) (cols : List GoString)
    (rows : List (List (Option GoString)))
    (hquery : (db querySQL).Query = none)
    (hcols : (db querySQL).Columns = Except.ok cols)
    (hscan : (db querySQL).Scan = rows.map Except.ok) :
    Query db querySQL = (cols, rows.map (fun values => Query.row cols values []), none)
    ∧ ∀ (n i : Nat) (values : List (Option GoString)) (k : GoString) (v : Option GoString),
        rows[n]? = some values → cols[i]? = some k → values[i]? = some v →
        k ∉ cols.drop (i + 1) →
        ∃ row, (Query db querySQL).2.1[n]? = some row
          ∧ (v = none → row.find k = some IsNull)
          ∧ (∀ text, v = some text → row.find k = some text)
          ∧ (v = some [] → row.find k = some [])
          ∧ (row.find k = some IsNull ↔ v = none ∨ v = some IsNull) := by
  have hrun : Query db querySQL
      = (cols, rows.map (fun values => Query.row cols values []), none) := by
    simp [Query, hquery, hcols, hscan, Query_next_ok]
  refine ⟨hrun, ?_⟩
  intro n i values k v hn hi hv hlast
  refine ⟨Query.row cols values [], ?_, ?_⟩
  · rw [hrun]; simp [List.getElem?_map, hn]
  · have hfield := Query_row_field k cols values [] i v hi hv hlast
    rw [hfield]
    cases v with
    | none => simp [Query.field]
    | some text => simp [Query.field]

/-- The rows of `Query` at a row with a NULL, an empty string and a text. -/
theorem Query_null_sentinel_sample :
    (rowsDB [str "A", str "B", str "C"] [[none, some [], some (str "x")]]
        (str "SELECT A, B, C FROM T")).Query = none
    ∧ Query (rowsDB [str "A", str "B", str "C"] [[none, some [], some (str "x")]])
        (str "SELECT A, B, C FROM T")
      = ([str "A", str "B", str "C"],
         [[(str "C", str "x"), (str "B", []), (str "A", str "NULLABLE")]], none) :=
  ⟨rfl,
    ((Query_null_sentinel (rowsDB [str "A", str "B", str "C"] [[none, some [], some (str "x")]])
      (str "SELECT A, B, C FROM T") [str "A", str "B", str "C"]
      [[none, some [], some (str "x")]] rfl rfl rfl).1.trans rfl)⟩

/-- C15: when the query succeeds and every one of the `r` rows scans into one raw
value per each of the `c` columns, `GetOracleTableRows` returns the columns and the
flat list of the rows' entries one row after the other, of exactly `r * c` strings;
the entry of row `i` and column `j` stands at index `i * c + j` and is `NULL` when
the raw value is NULL or the empty string and the value's text unchanged otherwise. -/
theorem GetOracleTableRows_row_major (db : SQLDB) (querySQL : GoString)
    (cols : List GoString) (rows : List (List (Option GoString)))
    (hquery : (db querySQL).Query = none)
    (hcols : (db querySQL).Columns = Except.ok cols)
    (htypes : (db querySQL).ColumnTypes = none)
    (hscan : (db querySQL).Scan = rows.map Except.ok)
    (herr : (db querySQL).Err = none)
    (hwidth : ∀ r ∈ rows, r.length = cols.length) :
    GetOracleTableRows db querySQL
      = (cols, (rows.map (fun r => r.map GetOracleTableRows.entry)).flatten, none)
    ∧ (GetOracleTableRows db querySQL).2.1.length = rows.length * cols.length
    ∧ ∀ (i j : Nat) (row : List (Option GoString)) (raw : Option GoString),
        rows[i]? = some row → row[j]? = some raw →
        ∃ entry, (GetOracleTableRows db querySQL).2.1[i * cols.length + j]? = some entry
          ∧ (raw = none ∨ raw = some [] → entry = str "NULL")
          ∧ (∀ text, raw = some text → text ≠ [] → entry = text) := by
  have hrun : GetOracleTableRows db querySQL
      = (cols, (rows.map (fun r => r.map GetOracleTableRows.entry)).flatten, none) := by
    simp [GetOracleTableRows, hquery, hcols, htypes, hscan, herr, GetOracleTableRows_next_ok]
  have hw : ∀ r ∈ rows.map (fun r => r.map GetOracleTableRows.entry),
      r.length = cols.length := by
    intro r hr
    obtain ⟨r0, hr0, rfl⟩ := List.mem_map.mp hr
    simpa using hwidth r0 hr0
  refine ⟨hrun, ?_, ?_⟩
  · rw [hrun]
    simpa using flatten_uniform_length cols.length _ hw
  · intro i j row raw hi hj
    have hrow : row.length = cols.length := hwidth row (List.mem_iff_getElem?.mpr ⟨i, hi⟩)
    have hjc : j < cols.length := by
      have := (List.getElem?_eq_some_iff.mp hj).1
      omega
    refine ⟨GetOracleTableRows.entry raw, ?_, ?_, ?_⟩
    · rw [hrun]
      show (rows.map (fun r => r.map GetOracleTableRows.entry)).flatten[i * cols.length + j]?
        = some (GetOracleTableRows.entry raw)
      rw [flatten_uniform_index cols.length _ hw i j (row.map GetOracleTableRows.entry)
        (by simp [List.getElem?_map, hi]) hjc]
      simp [List.getElem?_map, hj]
    · rintro (h | h) <;> subst h <;> simp [GetOracleTableRows.entry]
    · intro text h hne
      subst h
      simp [GetOracleTableRows.entry, hne]

/-- C15 at a result set of two rows and three columns. -/
theorem GetOracleTableRows_row_major_sample :
    (∀ r ∈ [[none, some [], some (str "x")], [some (str "1"), some (str "NULL"), none]],
        r.length = [str "A", str "B", str "C"].length)
    ∧ GetOracleTableRows
        (rowsDB [str "A", str "B", str "C"]
          [[none, some [], some (str "x")], [some (str "1"), some (str "NULL"), none]])
        (str "SELECT A, B, C FROM T")
      = ([str "A", str "B", str "C"],
         [str "NULL", str "NULL", str "x", str "1", str "NULL", str "NULL"], none) :=
  ⟨by decide,
    ((GetOracleTableRows_row_major
      (rowsDB [str "A", str "B", str "C"]
        [[none, some [], some (str "x")], [some (str "1"), some (str "NULL"), none]])
      (str "SELECT A, B, C FROM T") [str "A", str "B", str "C"]
      [[none, some [], some (str "x")], [some (str "1"), some (str "NULL"), none]]
      rfl rfl rfl rfl rfl (by decide)).1.trans rfl)⟩

/-! ## `IsEqualStruct` -/

theorem IsEqualStruct.dict_spec {α : Type} (hashable : α → Bool) (b : List α) :
    ∀ dict : List α,
      ((∀ x ∈ b, hashable x = true) →
        ∃ keys, IsEqualStruct.dict hashable b dict = some keys
          ∧ ∀ x, x ∈ keys ↔ x ∈ b ∨ x ∈ dict)
      ∧ ((∃ x ∈ b, hashable x = false) → IsEqualStruct.dict hashable b dict = none) := by
  induction b with
  | nil =>
      intro dict
      exact ⟨fun _ => ⟨dict, rfl, by simp⟩, by simp⟩
  | cons y ys ih =>
      intro dict
      by_cases hy : hashable y = true
      · obtain ⟨ih1, ih2⟩ := ih (y :: dict)
        constructor
        · intro hall
          obtain ⟨keys, hk, hmem⟩ := ih1 (fun x hx => hall x (List.mem_cons_of_mem _ hx))
          refine ⟨keys, by simp [IsEqualStruct.dict, hy, hk], ?_⟩
          intro x
          rw [hmem x]
          simp only [List.mem_cons]
          tauto
        · rintro ⟨x, hx, hbad⟩
          rcases List.mem_cons.mp hx with rfl | hx
          · rw [hy] at hbad; cases hbad
          · simp [IsEqualStruct.dict, hy, ih2 ⟨x, hx, hbad⟩]
      · constructor
        · intro hall
          exact absurd (hall y (List.mem_cons_self _ _)) hy
        · intro _
          simp [IsEqualStruct.dict, hy]

theorem IsEqualStruct.diffs_spec {α : Type} [DecidableEq α] (hashable : α → Bool)
    (dict a : List α) :
    ∀ diffs : List α,
      ((∀ x ∈ a, hashable x = true) →
        IsEqualStruct.diffs hashable dict a diffs
          = some (diffs ++ a.filter (fun x => x ∉ dict)))
      ∧ ((∃ x ∈ a, hashable x = false) → IsEqualStruct.diffs hashable dict a diffs = none) := by
  induction a with
  | nil =>
      intro diffs
      exact ⟨fun _ => by simp [IsEqualStruct.diffs], by simp⟩
  | cons y ys ih =>
      intro diffs
      by_cases hy : hashable y = true
      · constructor
        · intro hall
          have hrest := (ih (if y ∈ dict then diffs else diffs ++ [y])).1
            (fun x hx => hall x (List.mem_cons_of_mem _ hx))
          simp only [IsEqualStruct.diffs, hy, if_true, hrest]
          by_cases hd : y ∈ dict
          · simp [hd]
          · simp [hd]
        · rintro ⟨x, hx, hbad⟩
          rcases List.mem_cons.mp hx with rfl | hx
          · rw [hy] at hbad; cases hbad
          · simp [IsEqualStruct.diffs, hy, (ih _).2 ⟨x, hx, hbad⟩]
      · constructor
        · intro hall
          exact absurd (hall y (List.mem_cons_self _ _)) hy
        · intro _
          simp [IsEqualStruct.diffs, hy]

/-- C25 fails on the code: `IsEqualStruct` reports the slices `[1]` and `[1, 2]` of
integers as equal, with no difference, although `2` occurs in the second and not in
the first; only the elements of the first slice are looked up in the second. -/
theorem IsEqualStruct_one_sided :
    IsEqualStruct (fun _ => true) (some [(1 : Int)]) (some [1, 2]) = some ([], true)
    ∧ ([(1 : Int)] ≠ [1, 2])
    ∧ ((2 : Int) ∈ [(1 : Int), 2] ∧ (2 : Int) ∉ [(1 : Int)])
    ∧ IsEqualStruct (fun _ => true) (some [(1 : Int), 2]) (some [1]) = some ([2], false) := by
  refine ⟨by decide, by decide, by decide, by decide⟩

/-- C26 fails on the code: on two slices of slices of integers, whose elements Go
cannot hash, `IsEqualStruct` panics and returns no difference list, when `structB`
holds an element as well as when only `structA` does. -/
theorem IsEqualStruct_panics_on_unhashable :
    IsEqualStruct (fun _ : List Int => false) (some [[1]]) (some [[1]]) = none
    ∧ IsEqualStruct (fun _ : List Int => false) (some [[1]]) (some []) = none
    ∧ IsEqualStruct (fun _ : List Int => false) (some []) (some [[1]]) = none
    ∧ ([[1]] : List (List Int)).filter (fun x => x ∉ ([[1]] : List (List Int))) = [] := by
  refine ⟨by decide, by decide, by decide, by decide⟩

/-- C26, amended: for all slices `a` and `b` whose elements are all hashable,
`IsEqualStruct` returns, its difference list is the list of the elements of `a` that
do not occur in `b`, in the order and with the repetitions of `a`, and its boolean is
true exactly when that list is empty; a nil slice `a` is reported equal, with no
differences, to every `b`; and the call panics exactly when `a` is not nil and some
element of `a` or of `b` is not hashable. -/
theorem IsEqualStruct_differences {α : Type} [DecidableEq α] (hashable : α → Bool)
    (a b : GoSlice α) :
    ((∀ x ∈ a.elems ++ b.elems, hashable x = true) →
      ∃ diffs verdict, IsEqualStruct hashable a b = some (diffs, verdict)
        ∧ diffs = a.elems.filter (fun x => x ∉ b.elems)
        ∧ (verdict = true ↔ diffs = []))
    ∧ IsEqualStruct hashable none b = some ([], true)
    ∧ (IsEqualStruct hashable a b = none
        ↔ a ≠ none ∧ ∃ x ∈ a.elems ++ b.elems, hashable x = false) := by
  refine ⟨?_, rfl, ?_⟩
  · intro hall
    cases a with
    | none => exact ⟨[], true, rfl, by simp [GoSlice.elems], by simp⟩
    | some xs =>
        have hb : ∀ x ∈ b.elems, hashable x = true :=
          fun x hx => hall x (List.mem_append_right _ hx)
        have ha : ∀ x ∈ xs, hashable x = true :=
          fun x hx => hall x (List.mem_append_left _ hx)
        obtain ⟨keys, hk, hmem⟩ := (IsEqualStruct.dict_spec hashable b.elems []).1 hb
        have hd := (IsEqualStruct.diffs_spec hashable keys xs []).1 ha
        have hfilter : xs.filter (fun x => x ∉ keys) = xs.filter (fun x => x ∉ b.elems) := by
          apply List.filter_congr
          intro x _
          simp [hmem x]
        rw [List.nil_append, hfilter] at hd
        have hrun : ∀ D : List α, IsEqualStruct.diffs hashable keys xs [] = some D →
            IsEqualStruct hashable (some xs) b
              = if D.length = 0 then some (D, true) else some (D, false) := by
          intro D hD
          simp only [IsEqualStruct, hk, hD]
        have helems : GoSlice.elems (some xs) = xs := rfl
        rw [helems]
        generalize xs.filter (fun x => x ∉ b.elems) = D at hd
        rw [hrun D hd]
        cases D with
        | nil => exact ⟨[], true, by simp, rfl, by simp⟩
        | cons z zs => exact ⟨z :: zs, false, by simp, rfl, by simp⟩
  · cases a with
    | none => simp [IsEqualStruct]
    | some xs =>
        by_cases hb : ∀ x ∈ b.elems, hashable x = true
        · obtain ⟨keys, hk, _⟩ := (IsEqualStruct.dict_spec hashable b.elems []).1 hb
          by_cases ha : ∀ x ∈ xs, hashable x = true
          · have hd := (IsEqualStruct.diffs_spec hashable keys xs []).1 ha
            have hno : ¬ ∃ x ∈ GoSlice.elems (some xs) ++ b.elems, hashable x = false := by
              rintro ⟨x, hx, hbad⟩
              rcases List.mem_append.mp hx with hx | hx
              · rw [ha x hx] at hbad; cases hbad
              · rw [hb x hx] at hbad; cases hbad
            have hsome : IsEqualStruct hashable (some xs) b ≠ none := by
              simp only [IsEqualStruct, hk, hd]
              split <;> simp
            constructor
            · intro h
              exact absurd h hsome
            · rintro ⟨_, hex⟩
              exact absurd hex hno
          · have hex : ∃ x ∈ xs, hashable x = false := by
              by_contra hcon
              exact ha (fun x hx => by
                cases hh : hashable x with
                | true => rfl
                | false => exact absurd ⟨x, hx, hh⟩ hcon)
            have hd := (IsEqualStruct.diffs_spec hashable keys xs []).2 hex
            obtain ⟨x, hx, hbad⟩ := hex
            simp only [IsEqualStruct, hk, hd, ne_eq, not_false_eq_true, true_and, true_iff,
              reduceCtorEq]
            exact ⟨x, List.mem_append_left _ hx, hbad⟩
        · have hex : ∃ x ∈ b.elems, hashable x = false := by
            by_contra hcon
            exact hb (fun x hx => by
              cases hh : hashable x with
              | true => rfl
              | false => exact absurd ⟨x, hx, hh⟩ hcon)
          have hk := (IsEqualStruct.dict_spec hashable b.elems []).2 hex
          obtain ⟨x, hx, hbad⟩ := hex
          simp only [IsEqualStruct, hk, ne_eq, not_false_eq_true, true_and, true_iff,
            reduceCtorEq]
          exact ⟨x, List.mem_append_right _ hx, hbad⟩

/-- C26, amended, at two slices of strings: the elements of the first that are
absent from the second come back in order and with their repetitions. -/
theorem IsEqualStruct_differences_sample :
    (∀ x ∈ GoSlice.elems (some [str "b", str "a", str "c", str "b"])
        ++ GoSlice.elems (some [str "a"]), (fun _ : GoString => true) x = true)
    ∧ IsEqualStruct (fun _ : GoString => true) (some [str "b", str "a", str "c", str "b"])
        (some [str "a"]) = some ([str "b", str "c", str "b"], false)
    ∧ ∃ diffs verdict,
        IsEqualStruct (fun _ : GoString => true) (some [str "b", str "a", str "c", str "b"])
          (some [str "a"]) = some (diffs, verdict)
        ∧ diffs = (GoSlice.elems (some [str "b", str "a", str "c", str "b"])).filter
            (fun x => x ∉ GoSlice.elems (some [str "a"]))
        ∧ (verdict = true ↔ diffs = []) :=
  ⟨fun _ _ => rfl, by decide,
    (IsEqualStruct_differences (fun _ : GoString => true)
      (some [str "b", str "a", str "c", str "b"]) (some [str "a"])).1 (fun _ _ => rfl)⟩

/-! ## Unchecked inputs -/

set_option maxRecDepth 100000 in
/-- C29 fails on the code: on a run of 256 digits `1` `VersionOrdinal` does not
panic; it returns the digits behind a length byte that has wrapped to 0. The test
`vo[j]+1 > maxByte` is made on a `byte`, so it never holds, and no input at all makes
`VersionOrdinal` panic. -/
theorem VersionOrdinal_long_run_wraps :
    VersionOrdinal (List.replicate 256 49) = some (0 :: List.replicate 256 49)
    ∧ ∀ version : List Nat, VersionOrdinal version ≠ none := by
  refine ⟨rfl, ?_⟩
  intro version h
  obtain ⟨vo, hvo⟩ := VersionOrdinal_returns version
  rw [hvo] at h
  exact Option.noConfusion h

/-- C30 fails on the code: for a DDL row that passes the comparator and whose redo
SQL holds no space (here tab-separated, or empty), `splitDDL[1]` is out of range and
the call panics, under either reset flag. -/
theorem filter_panics_without_space :
    (filterOracleRedoGreaterOrEqualRecordByTable asciiUpper [ddlRow "T1" "drop\ttable\tt1"]
        [str "t1"] [(str "T1", 1000)] 4 0).status = Status.panic
    ∧ (filterOracleRedoGreaterOrEqualRecordByTable asciiUpper [ddlRow "T1" "drop\ttable\tt1"]
        [str "t1"] [(str "T1", 999)] 4 1).status = Status.panic
    ∧ (filterOracleRedoGreaterOrEqualRecordByTable asciiUpper [ddlRow "T1" ""]
        [str "t1"] [(str "T1", 1000)] 4 0).status = Status.panic
    ∧ Split (str "drop\ttable\tt1") (str " ") = [str "drop\ttable\tt1"] := by
  refine ⟨by decide, by decide, by decide, by decide⟩

/-! ## The split functions -/

theorem sliceRange_cast {α : Type} (arr : List α) (lo hi : Nat) (h1 : lo ≤ hi)
    (h2 : hi ≤ arr.length) :
    sliceRange arr (lo : Int) (hi : Int) = some ((arr.drop lo).take (hi - lo)) := by
  have hc : (0 : Int) ≤ lo ∧ (lo : Int) ≤ hi ∧ (hi : Int) ≤ arr.length := by
    refine ⟨by omega, by omega, by omega⟩
  have hd : ((hi : Int) - (lo : Int)).toNat = hi - lo := by omega
  simp only [sliceRange, hc, and_self, if_true, Int.toNat_ofNat, hd]

theorem sliceFrom_cast {α : Type} (arr : List α) (lo : Nat) (h : lo ≤ arr.length) :
    sliceFrom arr (lo : Int) = some (arr.drop lo) := by
  have hc : (0 : Int) ≤ lo ∧ (lo : Int) ≤ arr.length := ⟨by omega, by omega⟩
  simp only [sliceFrom, hc, and_self, if_true, Int.toNat_ofNat]

theorem splitLoop_body {α : Type} (arr : List α) (q b : Nat) (hq : 1 ≤ q) :
    ∀ (n k : Nat) (rest : List Int) (S : List (List α)),
      k + n < b → (k + n) * q ≤ arr.length →
      splitLoop arr q b ((List.range' (k + 1) n).map Int.ofNat ++ rest)
          (((k * q : Nat) : Int) - (k : Int)) S
        = splitLoop arr q b rest ((((k + n) * q : Nat) : Int) - ((k + n : Nat) : Int))
            (S ++ (List.range' k n).map (fun j => (arr.drop (j * q)).take q)) := by
  intro n
  induction n with
  | zero => intro k rest S _ _; simp
  | succ n ih =>
      intro k rest S hk hlen
      have hne : ¬ ((k + 1 : Nat) : Int) = (b : Int) := by omega
      have hmul : (k + 1) * q = k * q + q := by ring
      have hle : (k + 1) * q ≤ arr.length := by
        have : (k + 1) * q ≤ (k + (n + 1)) * q := Nat.mul_le_mul_right q (by omega)
        omega
      have hlo : ((k + 1 : Nat) : Int) - 1 + ((((k * q : Nat) : Int)) - (k : Int))
          = ((k * q : Nat) : Int) := by omega
      have hhi : ((k + 1 : Nat) : Int) * (q : Int) = (((k + 1) * q : Nat) : Int) := by
        push_cast; ring
      have hseg := sliceRange_cast arr (k * q) ((k + 1) * q) (by omega) hle
      have hsub : (k + 1) * q - k * q = q := by omega
      rw [hsub] at hseg
      have hnext := ih (k + 1) rest (S ++ [(arr.drop (k * q)).take q])
        (by omega) (by rw [show k + 1 + n = k + (n + 1) by omega]; exact hlen)
      rw [List.range'_succ, List.map_cons, List.cons_append]
      simp only [splitLoop, Int.ofNat_eq_coe, ne_eq, hne, not_false_eq_true, if_true, hlo, hhi,
        hseg]
      rw [hnext]
      rw [List.range'_succ, List.map_cons]
      simp only [List.append_assoc, List.singleton_append,
        show k + 1 + n = k + (n + 1) by omega]

theorem splitLoop_spec {α : Type} (arr : List α) (q b : Nat) (hq : 1 ≤ q) (hb : 1 ≤ b)
    (hlen : b * q ≤ arr.length) :
    splitLoop arr q b (loopValues b) 0 []
      = Except.ok ((List.range' 0 (b - 1)).map (fun j => (arr.drop (j * q)).take q)
          ++ [arr.drop ((b - 1) * q)]) := by
  obtain ⟨c, rfl⟩ : ∃ c, b = c + 1 := ⟨b - 1, by omega⟩
  have hcq : c * q ≤ arr.length := by
    have : c * q ≤ (c + 1) * q := Nat.mul_le_mul_right q (by omega)
    omega
  have hbody := splitLoop_body arr q (c + 1) hq c 0 [((c + 1 : Nat) : Int)] []
    (by omega) (by simpa using hcq)
  simp only [Nat.zero_mul, Nat.cast_zero, sub_self, Nat.zero_add, List.nil_append] at hbody
  have hvals : loopValues ((c + 1 : Nat) : Int)
      = (List.range' 1 c).map Int.ofNat ++ [((c + 1 : Nat) : Int)] := by
    simp only [loopValues, Int.toNat_ofNat, List.range'_concat, List.map_append, List.map_cons,
      List.map_nil, Int.ofNat_eq_coe]
    congr 2
    push_cast; ring
  rw [hvals, hbody]
  have hlo : ((c + 1 : Nat) : Int) - 1 + ((((c * q : Nat)) : Int) - (c : Int))
      = ((c * q : Nat) : Int) := by omega
  simp only [splitLoop, ne_eq, not_true_eq_false, if_false, hlo, sliceFrom_cast arr (c * q) hcq,
    Nat.add_sub_cancel]

theorem chunks_flatten {α : Type} (arr : List α) (q : Nat) :
    ∀ n : Nat, ((List.range' 0 n).map (fun j => (arr.drop (j * q)).take q)).flatten
      = arr.take (n * q) := by
  intro n
  induction n with
  | zero => simp
  | succ n ih =>
      rw [List.range'_concat, List.map_append, List.flatten_append, ih]
      simp only [Nat.zero_add, Nat.one_mul, List.map_cons, List.map_nil, List.flatten_cons,
        List.flatten_nil, List.append_nil]
      rw [show (n + 1) * q = n * q + q by ring, List.take_add]

theorem splitLoop_partitions {α : Type} (arr : List α) (q b : Nat) (hq : 1 ≤ q) (hb : 1 ≤ b)
    (hlen : b * q ≤ arr.length) :
    ∃ segs, splitLoop arr q b (loopValues b) 0 [] = Except.ok segs
      ∧ segs.length = b ∧ (∀ s ∈ segs, s ≠ [] ∧ s <:+: arr) ∧ segs.flatten = arr := by
  obtain ⟨c, rfl⟩ : ∃ c, b = c + 1 := ⟨b - 1, by omega⟩
  have hmul : (c + 1) * q = c * q + q := by ring
  have hflat : ((List.range' 0 c).map (fun j => (arr.drop (j * q)).take q)
      ++ [arr.drop (c * q)]).flatten = arr := by
    rw [List.flatten_append, chunks_flatten]
    simp
  refine ⟨_, splitLoop_spec arr q (c + 1) hq hb hlen, by simp, ?_, by simpa using hflat⟩
  intro s hs
  refine ⟨?_, ?_⟩
  · simp only [Nat.add_sub_cancel, List.mem_append, List.mem_map, List.mem_range'_1,
      List.mem_singleton] at hs
    rcases hs with ⟨j, ⟨_, hj⟩, rfl⟩ | rfl
    · have hjq : (j + 1) * q ≤ c * q := Nat.mul_le_mul_right q (by omega)
      have hjm : (j + 1) * q = j * q + q := by ring
      intro h0
      have hl := congrArg List.length h0
      simp only [List.length_take, List.length_drop, List.length_nil] at hl
      omega
    · intro h0
      have hl := congrArg List.length h0
      simp only [List.length_drop, List.length_nil] at hl
      omega
  · have := List.infix_of_mem_flatten (by simpa using hs :
      s ∈ (List.range' 0 c).map (fun j => (arr.drop (j * q)).take q) ++ [arr.drop (c * q)])
    rwa [hflat] at this

theorem splitSlice_partitions {α : Type} (arr : List α) (num : Int) (harr : arr ≠ [])
    (hnum : 1 ≤ num) :
    ∃ segs, splitSlice arr num = Except.ok segs
      ∧ (segs.length : Int) = min num arr.length
      ∧ (∀ s ∈ segs, s ≠ [] ∧ s <:+: arr) ∧ segs.flatten = arr := by
  obtain ⟨m, rfl⟩ : ∃ m : Nat, num = (m : Int) := ⟨num.toNat, by omega⟩
  have hm : 1 ≤ m := by omega
  have hpos : 1 ≤ arr.length := by
    cases arr with
    | nil => exact absurd rfl harr
    | cons x xs => simp
  have hnum0 : ¬ (m : Int) = 0 := by omega
  by_cases hlt : arr.length < m
  · have hlt' : ((arr.length : Nat) : Int) < (m : Int) := by omega
    have hmax0 : ¬ ((arr.length : Nat) : Int) = 0 := by omega
    obtain ⟨segs, hrun, hl, hs, hf⟩ :=
      splitLoop_partitions arr 1 arr.length (by omega) hpos (by omega)
    refine ⟨segs, ?_, by rw [hl]; omega, hs, hf⟩
    simp only [splitSlice, hnum0, if_false, hlt', if_true, hmax0, Int.tdiv_self hmax0]
    simpa using hrun
  · have hlt' : ¬ ((arr.length : Nat) : Int) < (m : Int) := by omega
    have hq : 1 ≤ arr.length / m := (Nat.one_le_div_iff (by omega)).mpr (by omega)
    obtain ⟨segs, hrun, hl, hs, hf⟩ :=
      splitLoop_partitions arr (arr.length / m) m hq hm (Nat.mul_div_le _ _)
    refine ⟨segs, ?_, by rw [hl]; omega, hs, hf⟩
    simp only [splitSlice, hnum0, if_false, hlt', ← Int.ofNat_tdiv]
    exact hrun

theorem splitSlice_failure {α : Type} (arr : List α) (num : Int) :
    (splitSlice arr num = Except.error SplitFailure.divideByZero ↔ arr = [] ∧ 0 < num)
    ∧ ((∃ segs, splitSlice arr num = Except.ok segs) ↔ ¬ (arr = [] ∧ 0 < num)) := by
  by_cases h0 : num = 0
  · subst h0
    simp [splitSlice]
  by_cases hneg : num < 0
  · have hlt : ¬ ((arr.length : Nat) : Int) < num := by omega
    have hvals : loopValues num = [] := by
      simp only [loopValues, show num.toNat = 0 by omega, List.range'_zero, List.map_nil]
    have hnot : ¬ (arr = [] ∧ 0 < num) := fun h => by omega
    simp [splitSlice, h0, hlt, hvals, splitLoop, hnot]
  have hpos : 0 < num := by omega
  cases arr with
  | nil =>
      simp [splitSlice, h0, hpos]
  | cons x xs =>
      obtain ⟨segs, hrun, _⟩ := splitSlice_partitions (x :: xs) num (by simp) (by omega)
      simp [hrun]

/-- C27: for every non-empty slice `arr` and every `num >= 1`, `SplitIntSlice` and
`SplitMultipleStringSlice` return exactly `min(num, len(arr))` segments, each of them
a non-empty contiguous run of `arr`, whose concatenation in order is `arr`; for
`num = 0` the result is the single segment `arr`. -/
theorem Split_partitions (ints : List Int) (strs : List GoString) (num : Int)
    (hints : ints ≠ []) (hstrs : strs ≠ []) (hnum : 1 ≤ num) :
    (∃ segs, SplitIntSlice ints num = Except.ok segs
      ∧ (segs.length : Int) = min num ints.length
      ∧ (∀ s ∈ segs, s ≠ [] ∧ s <:+: ints) ∧ segs.flatten = ints)
    ∧ (∃ segs, SplitMultipleStringSlice strs num = Except.ok segs
      ∧ (segs.length : Int) = min num strs.length
      ∧ (∀ s ∈ segs, s ≠ [] ∧ s <:+: strs) ∧ segs.flatten = strs)
    ∧ SplitIntSlice ints 0 = Except.ok [ints]
    ∧ SplitMultipleStringSlice strs 0 = Except.ok [strs] :=
  ⟨splitSlice_partitions ints num hints hnum, splitSlice_partitions strs num hstrs hnum,
    rfl, rfl⟩

/-- C27 at seven integers in three segments and three strings asked in five. -/
theorem Split_partitions_sample :
    SplitIntSlice [1, 2, 3, 4, 5, 6, 7] 3 = Except.ok [[1, 2], [3, 4], [5, 6, 7]]
    ∧ SplitMultipleStringSlice [str "a", str "b", str "c"] 5
      = Except.ok [[str "a"], [str "b"], [str "c"]]
    ∧ ((∃ segs, SplitIntSlice [1, 2, 3, 4, 5, 6, 7] 3 = Except.ok segs
        ∧ (segs.length : Int) = min 3 ([1, 2, 3, 4, 5, 6, 7] : List Int).length
        ∧ (∀ s ∈ segs, s ≠ [] ∧ s <:+: [1, 2, 3, 4, 5, 6, 7])
        ∧ segs.flatten = [1, 2, 3, 4, 5, 6, 7])) :=
  ⟨rfl, rfl,
    (Split_partitions [1, 2, 3, 4, 5, 6, 7] [str "a", str "b", str "c"] 3 (by decide)
      (by decide) (by decide)).1⟩

/-- C28: `SplitIntSlice` fails with a division by zero exactly when `arr` is empty
and `num > 0`; on every other input (`num = 0`, `num < 0`, or a non-empty `arr` with
`num > 0`) it returns its segments, with no division by zero and no slice out of
bounds. -/
theorem SplitIntSlice_failure (arr : List Int) (num : Int) :
    (SplitIntSlice arr num = Except.error SplitFailure.divideByZero ↔ arr = [] ∧ 0 < num)
    ∧ ((∃ segs, SplitIntSlice arr num = Except.ok segs) ↔ ¬ (arr = [] ∧ 0 < num)) :=
  splitSlice_failure arr num

/-! ## The full load of a table by chunks -/

/-- C24 fails on the code: with two workers and two chunks, of which the apply of the
first fails, the worker of the second chunk assigns the shared `err` (its extract
returns nil) between the failing apply of the first chunk and the test of `err` that
follows it; the first worker then finds `err` nil and calls
`ClearFullSyncTableMetaRecord` for its chunk, whose rows were not applied, and the
function returns nil. When the first task runs to its end before the second starts,
as it does under every choice when the pool has a single worker, the failed apply is
seen and no clearing call is made. -/
theorem sync_clears_after_failed_apply :
    sampleSyncEnv.applierTableFullRecord sampleSyncEnv.TargetSchemaName
        (sampleChunk "ROWID < 'B'").SourceTableName
        (StringsBuilder [(sampleChunk "ROWID < 'B'").SourceSQL,
          (sampleChunk "ROWID < 'B'").RowidSQL]) [str "ID"] [str "(1)"]
      = some (str "deadlock")
    ∧ syncOracleRowsByRowID sampleSyncEnv (str "T1") (str "ALL") [0, 0, 0, 1, 0, 0]
      = ([SyncCall.GetFullSyncMetaRowIDRecord,
          SyncCall.extractorTableFullRecord (sampleChunk "ROWID < 'B'"),
          SyncCall.applierTableFullRecord (sampleChunk "ROWID < 'B'"),
          SyncCall.extractorTableFullRecord (sampleChunk "ROWID < 'C'"),
          SyncCall.ClearFullSyncTableMetaRecord (sampleChunk "ROWID < 'B'"),
          SyncCall.applierTableFullRecord (sampleChunk "ROWID < 'C'"),
          SyncCall.ClearFullSyncTableMetaRecord (sampleChunk "ROWID < 'C'"),
          SyncCall.ModifyWaitSyncTableMetaRecord],
         Status.ok)
    ∧ syncOracleRowsByRowID sampleSyncEnv (str "T1") (str "ALL") []
      = ([SyncCall.GetFullSyncMetaRowIDRecord,
          SyncCall.extractorTableFullRecord (sampleChunk "ROWID < 'B'"),
          SyncCall.applierTableFullRecord (sampleChunk "ROWID < 'B'")],
         Status.error (str "deadlock"))
    ∧ syncOracleRowsByRowID { sampleSyncEnv with SQLThreads := 1 } (str "T1") (str "ALL")
        [0, 0, 0, 1, 0, 0]
      = ([SyncCall.GetFullSyncMetaRowIDRecord,
          SyncCall.extractorTableFullRecord (sampleChunk "ROWID < 'B'"),
          SyncCall.applierTableFullRecord (sampleChunk "ROWID < 'B'")],
         Status.error (str "deadlock")) := by
  refine ⟨by decide, by decide, by decide, by decide⟩

/-! ## The table loop of the reverse job -/

theorem Run.group_spec (runs : List (Run Unit))
    (h : ∀ r ∈ runs, r.result ≠ Outcome.panic) :
    (Run.group runs).result ≠ Outcome.panic
    ∧ (Run.group runs).trace = (runs.map Run.trace).flatten
    ∧ ((Run.group runs).result = Outcome.ok () ↔ ∀ r ∈ runs, r.result = Outcome.ok ())
    ∧ ((∃ r ∈ runs, ∃ e, r.result = Outcome.error e)
        → ∃ msg, (Run.group runs).result = Outcome.error msg) := by
  induction runs with
  | nil => simp [Run.group, Pure.pure]
  | cons t ts ih =>
      obtain ⟨ih1, ih2, ih3, ih4⟩ := ih (fun r hr => h r (List.mem_cons_of_mem _ hr))
      have ht := h t (List.mem_cons_self _ _)
      cases hres : t.result with
      | panic => exact absurd hres ht
      | ok a =>
          cases a
          refine ⟨?_, ?_, ?_, ?_⟩
          · simpa [Run.group, hres] using ih1
          · simp [Run.group, hres, ih2]
          · simp [Run.group, hres, ih3]
          · rintro ⟨r, hr, e, he⟩
            rcases List.mem_cons.mp hr with rfl | hr
            · rw [hres] at he; exact Outcome.noConfusion he
            · simpa [Run.group, hres] using ih4 ⟨r, hr, e, he⟩
      | error e =>
          have hgroup : (Run.group (t :: ts)).result = Outcome.error e := by
            cases hts : (Run.group ts).result with
            | panic => exact absurd hts ih1
            | ok a => simp [Run.group, hres, hts]
            | error e2 => simp [Run.group, hres, hts]
          refine ⟨?_, ?_, ?_, ?_⟩
          · rw [hgroup]; exact fun h0 => Outcome.noConfusion h0
          · simp [Run.group, hres, ih2]
          · rw [hgroup]
            constructor
            · intro h0; exact Outcome.noConfusion h0
            · intro hall
              have := hall t (List.mem_cons_self _ _)
              rw [hres] at this
              exact Outcome.noConfusion this
          · intro _
            exact ⟨e, hgroup⟩

theorem Run.bind_returns {α β : Type} (x : Run α) (f : α → Run β)
    (hx : x.result ≠ Outcome.panic) (hf : ∀ a, (f a).result ≠ Outcome.panic) :
    (x.bind f).result ≠ Outcome.panic := by
  cases h : x.result with
  | panic => exact absurd h hx
  | ok a => simpa [Run.bind, h] using hf a
  | error e => simp [Run.bind, h]

theorem Run.bind_trace_mem {α β : Type} (x : Run α) (f : α → Run β) (e : Effect)
    (h : e ∈ (x.bind f).trace) :
    e ∈ x.trace ∨ ∃ a, x.result = Outcome.ok a ∧ e ∈ (f a).trace := by
  cases hx : x.result with
  | panic => left; simpa [Run.bind, hx] using h
  | error msg => left; simpa [Run.bind, hx] using h
  | ok a =>
      simp only [Run.bind, hx, List.mem_append] at h
      rcases h with h | h
      · exact Or.inl h
      · exact Or.inr ⟨a, rfl, h⟩

theorem sinkWriteText_returns (kind : EffectKind) (what text : GoString)
    (err : Option GoString) :
    (sinkWriteText kind what text err).result ≠ Outcome.panic
    ∧ (sinkWriteText kind what text err).trace = [{ kind := kind, what := what, text := text }]
    ∧ ((sinkWriteText kind what text err).result = Outcome.ok () ↔ err = none) := by
  cases err <;> simp [sinkWriteText]

theorem IWriter_returns {Rule : Type} (env : ReverseEnv Rule) (d : DDL) :
    (IWriter env d).result ≠ Outcome.panic
    ∧ ∀ e ∈ (IWriter env d).trace,
        ((e.kind = EffectKind.fileWrite ∧ e.what = str "reverse")
          ∨ e.kind = EffectKind.targetWrite) →
        ∃ head rest comp,
          d.GenDDLStructure env.DatabaseTypeTiDB env.MySQLCheckConsVersion
            = some ((d.tableDDL ++ str "\n") :: rest, comp)
          ∧ e.text = head ++ Join ((d.tableDDL ++ str "\n") :: rest) (str "\n") := by
  obtain ⟨rest, comp, hgen, _⟩ :=
    GenDDLStructure_head env.DatabaseTypeTiDB env.MySQLCheckConsVersion d
  have hpure : (pure () : Run Unit).result ≠ Outcome.panic := by simp [Pure.pure]
  have hsecond : ∀ (c : Prop) [Decidable c] (text : GoString),
      (if c then sinkWriteText EffectKind.fileWrite (str "compatibility") text
          (env.CWriteFile text) else pure ()).result ≠ Outcome.panic
      ∧ ∀ e ∈ (if c then sinkWriteText EffectKind.fileWrite (str "compatibility") text
          (env.CWriteFile text) else pure ()).trace,
          ¬ ((e.kind = EffectKind.fileWrite ∧ e.what = str "reverse")
            ∨ e.kind = EffectKind.targetWrite) := by
    intro c _ text
    by_cases hc : c
    · simp only [hc, if_true, (sinkWriteText_returns _ _ _ _).2.1, List.mem_singleton]
      refine ⟨(sinkWriteText_returns _ _ _ _).1, ?_⟩
      intro e he
      subst he
      rintro (⟨_, hw⟩ | hk)
      · exact absurd (show str "compatibility" = str "reverse" from hw) (by decide)
      · exact absurd (show EffectKind.fileWrite = EffectKind.targetWrite from hk) (by decide)
    · simp [hc, Pure.pure]
  unfold IWriter DDL.Write
  by_cases hdw : env.DirectWrite = true
  · rw [if_pos hdw]
    simp only [DDL.WriteDB, hgen, Bind.bind]
    split
    · constructor
      · exact Run.bind_returns _ _ (sinkWriteText_returns _ _ _ _).1
          (fun _ => (hsecond _ _).1)
      · intro e he hk
        refine ⟨[], rest, comp, rfl, ?_⟩
        rcases Run.bind_trace_mem _ _ e he with h | ⟨_, _, h⟩
        · rw [(sinkWriteText_returns _ _ _ _).2.1] at h
          simp only [List.mem_singleton] at h
          subst h
          rfl
        · exact absurd hk ((hsecond _ _).2 e h)
    · constructor
      · exact Run.bind_returns _ _ hpure (fun _ => (hsecond _ _).1)
      · intro e he hk
        rcases Run.bind_trace_mem _ _ e he with h | ⟨_, _, h⟩
        · simp [Pure.pure] at h
        · exact absurd hk ((hsecond _ _).2 e h)
  · rw [if_neg hdw]
    simp only [DDL.WriteFile, hgen, Bind.bind]
    split
    · constructor
      · exact Run.bind_returns _ _ (sinkWriteText_returns _ _ _ _).1
          (fun _ => (hsecond _ _).1)
      · intro e he hk
        rcases Run.bind_trace_mem _ _ e he with h | ⟨_, _, h⟩
        · rw [(sinkWriteText_returns _ _ _ _).2.1] at h
          simp only [List.mem_singleton] at h
          subst h
          exact ⟨_, rest, comp, rfl, rfl⟩
        · exact absurd hk ((hsecond _ _).2 e h)
    · constructor
      · exact Run.bind_returns _ _ hpure (fun _ => (hsecond _ _).1)
      · intro e he hk
        rcases Run.bind_trace_mem _ _ e he with h | ⟨_, _, h⟩
        · simp [Pure.pure] at h
        · exact absurd hk ((hsecond _ _).2 e h)

theorem recordFailure_spec {Rule : Type} (env : ReverseEnv Rule) (t : Table)
    (stage cause : GoString) :
    (recordFailure env t stage cause).trace
      = [{ kind := EffectKind.errorLogWrite, what := t.SourceTableName }]
    ∧ (recordFailure env t stage cause).result ≠ Outcome.panic
    ∧ (env.CreateErrorLog t cause = none →
        (recordFailure env t stage cause).result = Outcome.ok ())
    ∧ (∀ err, env.CreateErrorLog t cause = some err →
        (recordFailure env t stage cause).result
          = Outcome.error (stage
              ++ str " table task failed, detail see [error_log_detail], please rerunning, error: "
              ++ err)) := by
  cases h : env.CreateErrorLog t cause <;>
    simp [recordFailure, Bind.bind, Run.bind, Run.ask, Run.fail, Pure.pure, h]

theorem reverseTask_read_fails {Rule : Type} (env : ReverseEnv Rule) (t : Table)
    (cause : GoString) (hread : env.IReader t = Except.error cause) :
    (reverseTask env t).trace
      = [{ kind := EffectKind.tableRead, what := t.SourceTableName },
         { kind := EffectKind.errorLogWrite, what := t.SourceTableName }]
    ∧ (reverseTask env t).result = (recordFailure env t (str "reader") cause).result := by
  obtain ⟨htr, _, _, _⟩ := recordFailure_spec env t (str "reader") cause
  refine ⟨?_, ?_⟩ <;> simp [reverseTask, Bind.bind, Run.bind, Run.ask, hread, htr]

theorem reverseTask_translate_fails {Rule : Type} (env : ReverseEnv Rule) (t : Table)
    (rule : Rule) (cause : GoString) (hread : env.IReader t = Except.ok rule)
    (htrans : env.IReverse rule = Except.error cause) :
    (reverseTask env t).trace
      = [{ kind := EffectKind.tableRead, what := t.SourceTableName },
         { kind := EffectKind.tableTranslate, what := t.SourceTableName },
         { kind := EffectKind.errorLogWrite, what := t.SourceTableName }]
    ∧ (reverseTask env t).result = (recordFailure env t (str "reverse") cause).result := by
  obtain ⟨htr, _, _, _⟩ := recordFailure_spec env t (str "reverse") cause
  refine ⟨?_, ?_⟩ <;> simp [reverseTask, Bind.bind, Run.bind, Run.ask, hread, htrans, htr]

theorem reverseTask_write_fails {Rule : Type} (env : ReverseEnv Rule) (t : Table)
    (rule : Rule) (ddl : DDL) (cause : GoString) (hread : env.IReader t = Except.ok rule)
    (htrans : env.IReverse rule = Except.ok ddl)
    (hwrite : (IWriter env ddl).result = Outcome.error cause) :
    (reverseTask env t).trace
      = [{ kind := EffectKind.tableRead, what := t.SourceTableName },
         { kind := EffectKind.tableTranslate, what := t.SourceTableName }]
        ++ (IWriter env ddl).trace
        ++ [{ kind := EffectKind.errorLogWrite, what := t.SourceTableName }]
    ∧ (reverseTask env t).result = (recordFailure env t (str "writer") cause).result := by
  obtain ⟨htr, _, _, _⟩ := recordFailure_spec env t (str "writer") cause
  refine ⟨?_, ?_⟩ <;>
    simp [reverseTask, Bind.bind, Run.bind, Run.ask, Run.errorOf, hread, htrans, hwrite, htr]

theorem reverseTask_writes {Rule : Type} (env : ReverseEnv Rule) (t : Table)
    (rule : Rule) (ddl : DDL) (hread : env.IReader t = Except.ok rule)
    (htrans : env.IReverse rule = Except.ok ddl)
    (hwrite : (IWriter env ddl).result = Outcome.ok ()) :
    (reverseTask env t).trace
      = [{ kind := EffectKind.tableRead, what := t.SourceTableName },
         { kind := EffectKind.tableTranslate, what := t.SourceTableName }]
        ++ (IWriter env ddl).trace
    ∧ (reverseTask env t).result = Outcome.ok () := by
  refine ⟨?_, ?_⟩ <;>
    simp [reverseTask, Bind.bind, Run.bind, Run.ask, Run.errorOf, hread, htrans, hwrite,
      Pure.pure]

theorem reverseTask_returns {Rule : Type} (env : ReverseEnv Rule) (t : Table) :
    (reverseTask env t).result ≠ Outcome.panic
    ∧ ({ kind := EffectKind.tableRead, what := t.SourceTableName } : Effect)
        ∈ (reverseTask env t).trace
    ∧ ∀ e ∈ (reverseTask env t).trace,
        (e.kind = EffectKind.fileWrite ∨ e.kind = EffectKind.targetWrite) →
        ∃ rule ddl, env.IReader t = Except.ok rule ∧ env.IReverse rule = Except.ok ddl
          ∧ e ∈ (IWriter env ddl).trace := by
  cases hread : env.IReader t with
  | error cause =>
      obtain ⟨htr, hres⟩ := reverseTask_read_fails env t cause hread
      rw [htr, hres]
      refine ⟨(recordFailure_spec env t _ cause).2.1, by simp, ?_⟩
      intro e he hk
      simp only [List.mem_cons, List.mem_singleton, List.not_mem_nil, or_false] at he
      rcases he with rfl | rfl <;> simp at hk
  | ok rule =>
      cases htrans : env.IReverse rule with
      | error cause =>
          obtain ⟨htr, hres⟩ := reverseTask_translate_fails env t rule cause hread htrans
          rw [htr, hres]
          refine ⟨(recordFailure_spec env t _ cause).2.1, by simp, ?_⟩
          intro e he hk
          simp only [List.mem_cons, List.mem_singleton, List.not_mem_nil, or_false] at he
          rcases he with rfl | rfl | rfl <;> simp at hk
      | ok ddl =>
          have hmem : ∀ e : Effect,
              (e = { kind := EffectKind.tableRead, what := t.SourceTableName }
                ∨ e = { kind := EffectKind.tableTranslate, what := t.SourceTableName }
                ∨ e ∈ (IWriter env ddl).trace
                ∨ e = { kind := EffectKind.errorLogWrite, what := t.SourceTableName }) →
              (e.kind = EffectKind.fileWrite ∨ e.kind = EffectKind.targetWrite) →
              ∃ rule' ddl', (Except.ok rule : Except GoString Rule) = Except.ok rule'
                ∧ env.IReverse rule' = Except.ok ddl' ∧ e ∈ (IWriter env ddl').trace := by
            intro e he hk
            rcases he with rfl | rfl | he | rfl
            · simp at hk
            · simp at hk
            · exact ⟨rule, ddl, rfl, htrans, he⟩
            · simp at hk
          cases hwrite : (IWriter env ddl).result with
          | panic => exact absurd hwrite (IWriter_returns env ddl).1
          | ok a =>
              cases a
              obtain ⟨htr, hres⟩ := reverseTask_writes env t rule ddl hread htrans hwrite
              rw [htr, hres]
              refine ⟨fun h => Outcome.noConfusion h, by simp, ?_⟩
              intro e he hk
              exact hmem e (by
                simp only [List.mem_append, List.mem_cons, List.mem_singleton,
                  List.not_mem_nil, or_false] at he
                tauto) hk
          | error cause =>
              obtain ⟨htr, hres⟩ :=
                reverseTask_write_fails env t rule ddl cause hread htrans hwrite
              rw [htr, hres]
              refine ⟨(recordFailure_spec env t _ cause).2.1, by simp, ?_⟩
              intro e he hk
              exact hmem e (by
                simp only [List.mem_append, List.mem_cons, List.mem_singleton,
                  List.not_mem_nil, or_false] at he
                tauto) hk

theorem NewReverse.convert_spec {Rule : Type} (env : ReverseEnv Rule) (tables : List Table) :
    (Run.group (tables.map (reverseTask env))).trace
        = (tables.map (fun t => (reverseTask env t).trace)).flatten
    ∧ (Run.group (tables.map (reverseTask env))).trace <+: (NewReverse.convert env tables).trace
    ∧ ((NewReverse.convert env tables).result = Outcome.ok ()
        ↔ (∀ t ∈ tables, (reverseTask env t).result = Outcome.ok ())
          ∧ env.Close = none ∧ env.CountsErrorLogBySchemaAtEnd.2 = none)
    ∧ ((∃ t ∈ tables, ∃ e, (reverseTask env t).result = Outcome.error e)
        → ∃ msg, (NewReverse.convert env tables).result = Outcome.error msg) := by
  have hno : ∀ r ∈ tables.map (reverseTask env), r.result ≠ Outcome.panic := by
    intro r hr
    obtain ⟨t, _, rfl⟩ := List.mem_map.mp hr
    exact (reverseTask_returns env t).1
  obtain ⟨_, htrace, hok, herr⟩ := Run.group_spec _ hno
  have hok' : (Run.group (tables.map (reverseTask env))).result = Outcome.ok ()
      ↔ ∀ t ∈ tables, (reverseTask env t).result = Outcome.ok () := by
    rw [hok]
    simp
  refine ⟨by rw [htrace]; simp [List.map_map, Function.comp_def], ?_, ?_, ?_⟩
  · cases hg : (Run.group (tables.map (reverseTask env))).result <;>
      simp [NewReverse.convert, Bind.bind, Run.bind, hg]
  · rw [← hok']
    cases hg : (Run.group (tables.map (reverseTask env))).result with
    | ok a =>
        cases hc : env.Close <;> cases hn : env.CountsErrorLogBySchemaAtEnd.2 <;>
          simp [NewReverse.convert, Bind.bind, Run.bind, hg, sinkWrite, Run.ask, Run.fail,
            Pure.pure, hc, hn]
    | error e => simp [NewReverse.convert, Bind.bind, Run.bind, hg]
    | panic => simp [NewReverse.convert, Bind.bind, Run.bind, hg]
  · intro hex
    obtain ⟨msg, hmsg⟩ := herr (by
      obtain ⟨t, ht, e, he⟩ := hex
      exact ⟨reverseTask env t, List.mem_map_of_mem _ ht, e, he⟩)
    exact ⟨msg, by simp [NewReverse.convert, Bind.bind, Run.bind, hmsg]⟩

/-- The run of `NewReverse` once its preparation has succeeded: the table loop is
reached with the tasks that the preparation lists. -/
theorem NewReverse_table_loop {Rule : Type} (env : ReverseEnv Rule)
    (exporters : List GoString) (nlsSort nlsComp : GoString) (tables : List Table)
    (hcfg : env.filterCFGTable = Except.ok exporters) (hne : exporters ≠ [])
    (hgate : ¬ (env.CountsErrorLogBySchema.1 > 0 ∨ env.CountsErrorLogBySchema.2 ≠ none))
    (hcomp : env.GetOracleDBCharacterNLSCompCollation = Except.ok nlsComp)
    (hsort : env.GetOracleDBCharacterNLSSortCollation = Except.ok nlsSort)
    (hmapComp : (env.OracleCollationMap.find (ToUpper env.upper nlsComp)).isNone = false)
    (hmapSort : (env.OracleCollationMap.find (ToUpper env.upper nlsSort)).isNone = false)
    (hfold : EqualFold env.fold nlsSort nlsComp = true)
    (hprep : (NewReverse.prepare env exporters nlsSort nlsComp).result = Outcome.ok tables) :
    (NewReverse env).trace
        = reverseNLSReads ++ (NewReverse.prepare env exporters nlsSort nlsComp).trace
          ++ (NewReverse.convert env tables).trace
    ∧ (NewReverse env).result = (NewReverse.convert env tables).result := by
  rw [NewReverse_after_NLS_reads env exporters nlsSort nlsComp hcfg hne hgate hcomp hsort]
  constructor <;>
    simp [Run.bind, hmapComp, hmapSort, hfold, NewReverse.translate, Bind.bind, hprep]

theorem Join_mem (sep s : GoString) :
    ∀ elems : List GoString, s ∈ elems → ∃ a b, Join elems sep = a ++ s ++ b := by
  intro elems
  induction elems with
  | nil => intro h; simp at h
  | cons y ys ih =>
      intro h
      cases ys with
      | nil =>
          simp only [List.mem_singleton] at h
          subst h
          exact ⟨[], [], by simp [Join, List.intercalate]⟩
      | cons z zs =>
          have hstep : Join (y :: z :: zs) sep = y ++ sep ++ Join (z :: zs) sep := by
            simp [Join, List.intercalate, List.intersperse]
          rcases List.mem_cons.mp h with rfl | h
          · exact ⟨[], sep ++ Join (z :: zs) sep, by rw [hstep]; simp⟩
          · obtain ⟨a, b, hab⟩ := ih h
            exact ⟨y ++ sep ++ a, b, by rw [hstep, hab]; simp⟩

theorem Join_after_head (sep x s : GoString) (rest : List GoString) (h : s ∈ rest) :
    ∃ a b, Join (x :: rest) sep = x ++ a ++ s ++ b := by
  cases rest with
  | nil => simp at h
  | cons z zs =>
      have hstep : Join (x :: z :: zs) sep = x ++ sep ++ Join (z :: zs) sep := by
        simp [Join, List.intercalate, List.intersperse]
      obtain ⟨a, b, hab⟩ := Join_mem sep s (z :: zs) h
      exact ⟨sep ++ a, b, by rw [hstep, hab]; simp⟩

theorem GenDDLStructure_foreign_keys (DatabaseTypeTiDB MySQLCheckConsVersion : GoString)
    (d : DDL) (x : GoString) (rest comp : List GoString)
    (hgen : d.GenDDLStructure DatabaseTypeTiDB MySQLCheckConsVersion = some (x :: rest, comp)) :
    (d.TargetDBType ≠ DatabaseTypeTiDB → ∀ k ∈ d.TableForeignKeys, d.alterSQL k ∈ rest)
    ∧ (d.TargetDBType = DatabaseTypeTiDB → rest = []) := by
  obtain ⟨o, ho⟩ := versionCompare_returns d.TargetDBVersion MySQLCheckConsVersion
  unfold DDL.GenDDLStructure at hgen
  by_cases hdb : d.TargetDBType = DatabaseTypeTiDB
  · simp only [hdb, ne_eq, not_true_eq_false, if_false, Option.some.injEq, Prod.mk.injEq,
      List.cons.injEq] at hgen
    exact ⟨fun h => absurd hdb h, fun _ => hgen.1.2.symm⟩
  · refine ⟨fun _ k hk => ?_, fun h => absurd h hdb⟩
    have hk' : d.alterSQL k ∈ d.foreignKeyDDL := List.mem_map_of_mem _ hk
    by_cases hgt : o = Ordering.gt
    · simp only [ne_eq, hdb, not_false_eq_true, if_true, ho, hgt, List.singleton_append,
        List.cons_append, Option.some.injEq, Prod.mk.injEq, List.cons.injEq] at hgen
      rw [← hgen.1.2]
      exact List.mem_append_left _ hk'
    · simp only [ne_eq, hdb, not_false_eq_true, if_true, ho, hgt, if_false,
        List.singleton_append, Option.some.injEq, Prod.mk.injEq, List.cons.injEq] at hgen
      rw [← hgen.1.2]
      exact hk'

set_option maxRecDepth 1000000 in
/-- C21 fails on the code: with the tables `ORDERS` and `ITEM` written in this
order, the block of `ORDERS`, which holds its ALTER TABLE ... ADD ... FOREIGN KEY
... REFERENCES `SHOP`.`ITEM`, is written to the reverse file before the block that
holds the CREATE TABLE statement of `ITEM`. -/
theorem NewReverse_fk_before_referenced_create :
    ∃ schema orders item,
      ((NewReverse foreignKeyReverseEnv).trace.filter
          (fun e => e.kind = EffectKind.fileWrite ∧ e.what = str "reverse")).map Effect.text
        = [schema, orders, item]
      ∧ Contains orders (str "ALTER TABLE `SHOP`.`ORDERS` ADD CONSTRAINT `FK1` FOREIGN KEY (`ID`) REFERENCES `SHOP`.`ITEM` (`ID`);") = true
      ∧ Contains schema (str "CREATE TABLE `SHOP`.`ITEM`") = false
      ∧ Contains orders (str "CREATE TABLE `SHOP`.`ITEM`") = false
      ∧ Contains item (str "CREATE TABLE `SHOP`.`ITEM`") = true
      ∧ (NewReverse foreignKeyReverseEnv).result = Outcome.ok () := by
  refine ⟨_, _, _, rfl, ?_, ?_, ?_, ?_, ?_⟩
  · rfl
  · rfl
  · rfl
  · rfl
  · rfl

/-- C21, amended: every text that the table loop of `NewReverse` writes to
the reverse output is the block of one table of the loop, written by the task of that
table in a single write; the block holds the CREATE TABLE statement of the table and,
after it, every further statement of the reversible stream of the table, among them
(unless the target is TiDB, for which there is none) the ALTER TABLE of each of its
foreign keys. So every such ALTER TABLE stands after the CREATE TABLE statement of
the table it alters, whatever the order of the tables. -/
theorem reverse_fk_after_own_create {Rule : Type} (env : ReverseEnv Rule)
    (tables : List Table) (e : Effect)
    (he : e ∈ (NewReverse.convert env tables).trace)
    (hkind : (e.kind = EffectKind.fileWrite ∧ e.what = str "reverse")
      ∨ e.kind = EffectKind.targetWrite) :
    ∃ t ∈ tables, ∃ rule ddl head rest comp,
      env.IReader t = Except.ok rule ∧ env.IReverse rule = Except.ok ddl
      ∧ ddl.GenDDLStructure env.DatabaseTypeTiDB env.MySQLCheckConsVersion
          = some ((ddl.tableDDL ++ str "\n") :: rest, comp)
      ∧ e.text = head ++ Join ((ddl.tableDDL ++ str "\n") :: rest) (str "\n")
      ∧ (∀ s ∈ rest, ∃ a b, e.text = head ++ ddl.tableDDL ++ a ++ s ++ b)
      ∧ (ddl.TargetDBType ≠ env.DatabaseTypeTiDB →
          ∀ k ∈ ddl.TableForeignKeys, ddl.alterSQL k ∈ rest)
      ∧ (ddl.TargetDBType = env.DatabaseTypeTiDB → rest = []) := by
  have hgroup : e ∈ (Run.group (tables.map (reverseTask env))).trace := by
    simp only [NewReverse.convert, Bind.bind] at he
    rcases Run.bind_trace_mem _ _ e he with h | ⟨_, _, h⟩
    · exact h
    · rcases Run.bind_trace_mem _ _ e h with h | ⟨_, _, h⟩
      · simp only [sinkWrite, List.mem_singleton] at h
        subst h
        rcases hkind with ⟨hk, _⟩ | hk
        · exact absurd hk (by decide)
        · exact absurd hk (by decide)
      · rcases Run.bind_trace_mem _ _ e h with h | ⟨_, _, h⟩
        · simp only [Run.ask, List.mem_singleton] at h
          subst h
          rcases hkind with ⟨hk, _⟩ | hk
          · exact absurd hk (by decide)
          · exact absurd hk (by decide)
        · split at h <;> simp [Run.fail, Pure.pure] at h
  rw [(NewReverse.convert_spec env tables).1] at hgroup
  obtain ⟨tr, htr, hmem⟩ := List.mem_flatten.mp hgroup
  obtain ⟨t, ht, rfl⟩ := List.mem_map.mp htr
  have hwrite : e.kind = EffectKind.fileWrite ∨ e.kind = EffectKind.targetWrite := by
    rcases hkind with ⟨hk, _⟩ | hk
    · exact Or.inl hk
    · exact Or.inr hk
  obtain ⟨rule, ddl, hread, htrans, hw⟩ := (reverseTask_returns env t).2.2 e hmem hwrite
  obtain ⟨head, rest, comp, hgen, htext⟩ := (IWriter_returns env ddl).2 e hw hkind
  obtain ⟨hfk, htidb⟩ := GenDDLStructure_foreign_keys _ _ ddl _ rest comp hgen
  refine ⟨t, ht, rule, ddl, head, rest, comp, hread, htrans, hgen, htext, ?_, hfk, htidb⟩
  intro s hs
  obtain ⟨a, b, hab⟩ := Join_after_head (str "\n") (ddl.tableDDL ++ str "\n") s rest hs
  exact ⟨str "\n" ++ a, b, by rw [htext, hab]; simp⟩

/-- C21, amended, at the run of `ORDERS` and `ITEM`: the third action of
the table loop is the write of the block of `ORDERS` to the reverse file. -/
theorem reverse_fk_after_own_create_sample :
    ∃ e, (NewReverse.convert foreignKeyReverseEnv
          [sampleTask "ORDERS", sampleTask "ITEM"]).trace[2]? = some e
      ∧ e.kind = EffectKind.fileWrite ∧ e.what = str "reverse"
      ∧ ∃ t ∈ [sampleTask "ORDERS", sampleTask "ITEM"], ∃ rule ddl head rest comp,
          foreignKeyReverseEnv.IReader t = Except.ok rule
          ∧ foreignKeyReverseEnv.IReverse rule = Except.ok ddl
          ∧ ddl.GenDDLStructure foreignKeyReverseEnv.DatabaseTypeTiDB
              foreignKeyReverseEnv.MySQLCheckConsVersion
              = some ((ddl.tableDDL ++ str "\n") :: rest, comp)
          ∧ e.text = head ++ Join ((ddl.tableDDL ++ str "\n") :: rest) (str "\n")
          ∧ (∀ s ∈ rest, ∃ a b, e.text = head ++ ddl.tableDDL ++ a ++ s ++ b)
          ∧ (ddl.TargetDBType ≠ foreignKeyReverseEnv.DatabaseTypeTiDB →
              ∀ k ∈ ddl.TableForeignKeys, ddl.alterSQL k ∈ rest)
          ∧ (ddl.TargetDBType = foreignKeyReverseEnv.DatabaseTypeTiDB → rest = []) :=
  ⟨_, rfl, rfl, rfl,
    reverse_fk_after_own_create foreignKeyReverseEnv [sampleTask "ORDERS", sampleTask "ITEM"] _
      (List.mem_iff_getElem?.mpr ⟨2, rfl⟩) (Or.inl ⟨rfl, rfl⟩)⟩

/-- C22 fails on the code: in the run of `ORDERS` and `ITEM` the write of both blocks
fails (`IWriter` returns the error `disk full`), each failure is recorded in the error
log, and `NewReverse` returns nil. -/
theorem NewReverse_survives_writer_failure :
    (IWriter writerFailureReverseEnv
        { sampleDDL with TargetDBVersion := str "8.0.26" }).result
      = Outcome.error (str "disk full")
    ∧ (NewReverse writerFailureReverseEnv).result = Outcome.ok ()
    ∧ (NewReverse writerFailureReverseEnv).trace.filter
        (fun e => e.kind = EffectKind.errorLogWrite)
      = [{ kind := EffectKind.errorLogWrite, what := str "ORDERS" },
         { kind := EffectKind.errorLogWrite, what := str "ITEM" }] := by
  refine ⟨by decide, by decide, by decide⟩

/-- C22, amended: when `NewReverse` reaches its table loop and the writing
of the DDL of a table fails (`IWriter` returns an error), the failure is recorded in
the error log; `NewReverse` returns a non-nil error when that recording fails; when
the row is recorded, the task of the table returns nil and `NewReverse` returns nil
as soon as the tasks of the other tables, the closing of the writer and the final
count of the error log succeed. -/
theorem NewReverse_writer_failure {Rule : Type} (env : ReverseEnv Rule)
    (exporters : List GoString) (nlsSort nlsComp : GoString) (tables : List Table)
    (t : Table) (rule : Rule) (ddl : DDL) (cause : GoString)
    (hcfg : env.filterCFGTable = Except.ok exporters) (hne : exporters ≠ [])
    (hgate : ¬ (env.CountsErrorLogBySchema.1 > 0 ∨ env.CountsErrorLogBySchema.2 ≠ none))
    (hcomp : env.GetOracleDBCharacterNLSCompCollation = Except.ok nlsComp)
    (hsort : env.GetOracleDBCharacterNLSSortCollation = Except.ok nlsSort)
    (hmapComp : (env.OracleCollationMap.find (ToUpper env.upper nlsComp)).isNone = false)
    (hmapSort : (env.OracleCollationMap.find (ToUpper env.upper nlsSort)).isNone = false)
    (hfold : EqualFold env.fold nlsSort nlsComp = true)
    (hprep : (NewReverse.prepare env exporters nlsSort nlsComp).result = Outcome.ok tables)
    (ht : t ∈ tables)
    (hread : env.IReader t = Except.ok rule) (htrans : env.IReverse rule = Except.ok ddl)
    (hwrite : (IWriter env ddl).result = Outcome.error cause) :
    ({ kind := EffectKind.errorLogWrite, what := t.SourceTableName } : Effect)
        ∈ (NewReverse env).trace
    ∧ (∀ err, env.CreateErrorLog t cause = some err →
        ∃ msg, (NewReverse env).result = Outcome.error msg)
    ∧ (env.CreateErrorLog t cause = none →
        (reverseTask env t).result = Outcome.ok ()
        ∧ ((∀ u ∈ tables, u ≠ t → (reverseTask env u).result = Outcome.ok ()) →
            env.Close = none → env.CountsErrorLogBySchemaAtEnd.2 = none →
            (NewReverse env).result = Outcome.ok ())) := by
  obtain ⟨htrace, hresult⟩ := NewReverse_table_loop env exporters nlsSort nlsComp tables hcfg hne
    hgate hcomp hsort hmapComp hmapSort hfold hprep
  obtain ⟨hflat, hprefix, hok, herr⟩ := NewReverse.convert_spec env tables
  obtain ⟨htask, hres⟩ := reverseTask_write_fails env t rule ddl cause hread htrans hwrite
  obtain ⟨_, _, hlogged, hfailed⟩ := recordFailure_spec env t (str "writer") cause
  refine ⟨?_, ?_, ?_⟩
  · rw [htrace]
    apply List.mem_append_right
    apply hprefix.subset
    rw [hflat]
    exact List.mem_flatten.mpr ⟨_, List.mem_map_of_mem _ ht, by rw [htask]; simp⟩
  · intro err hlog
    rw [hresult]
    exact herr ⟨t, ht, _, by rw [hres]; exact hfailed err hlog⟩
  · intro hlog
    have htok : (reverseTask env t).result = Outcome.ok () := by rw [hres]; exact hlogged hlog
    refine ⟨htok, ?_⟩
    intro hothers hclose hcount
    rw [hresult]
    refine hok.mpr ⟨?_, hclose, hcount⟩
    intro u hu
    by_cases hut : u = t
    · rw [hut]; exact htok
    · exact hothers u hu hut

/-- C22, amended, at the run of `ORDERS` and `ITEM` in which the writes
fail and the error log cannot be written: `NewReverse` returns an error. -/
theorem NewReverse_writer_failure_sample :
    ∃ msg, (NewReverse writerAndLogFailureReverseEnv).result = Outcome.error msg :=
  (NewReverse_writer_failure writerAndLogFailureReverseEnv [str "ORDERS", str "ITEM"]
    (str "BINARY") (str "BINARY") [sampleTask "ORDERS", sampleTask "ITEM"] (sampleTask "ORDERS")
    { sampleDDL with TargetDBVersion := str "8.0.26" }
    { sampleDDL with TargetDBVersion := str "8.0.26" } (str "disk full")
    rfl (by decide) (by decide) rfl rfl (by decide) (by decide) (by decide) (by decide)
    (by decide) rfl rfl (by decide)).2.1 (str "meta down") rfl

theorem Run.bind_trace_head {α β : Type} (x : Run α) (f : α → Run β) (e : Effect)
    (h : x.trace.head? = some e) : (x.bind f).trace.head? = some e := by
  cases hx : x.result <;> simp [Run.bind, hx, List.head?_append, h]

theorem Join_cons_ne_nil (sep x : GoString) (rest : List GoString) (hx : x ≠ []) :
    Join (x :: rest) sep ≠ [] := by
  cases rest with
  | nil => simpa [Join, List.intercalate] using hx
  | cons z zs =>
      have hstep : Join (x :: z :: zs) sep = x ++ sep ++ Join (z :: zs) sep := by
        simp [Join, List.intercalate, List.intersperse]
      rw [hstep]
      simp [hx]

theorem IWriter_writes {Rule : Type} (env : ReverseEnv Rule) (d : DDL) :
    ∃ e head rest comp, (IWriter env d).trace.head? = some e
      ∧ ((e.kind = EffectKind.fileWrite ∧ e.what = str "reverse")
        ∨ (e.kind = EffectKind.targetWrite ∧ e.what = str "target"))
      ∧ d.GenDDLStructure env.DatabaseTypeTiDB env.MySQLCheckConsVersion
          = some ((d.tableDDL ++ str "\n") :: rest, comp)
      ∧ e.text = head ++ Join ((d.tableDDL ++ str "\n") :: rest) (str "\n") := by
  obtain ⟨rest, comp, hgen, _⟩ :=
    GenDDLStructure_head env.DatabaseTypeTiDB env.MySQLCheckConsVersion d
  have hjoin : Join ((d.tableDDL ++ str "\n") :: rest) (str "\n") ≠ [] :=
    Join_cons_ne_nil _ _ _ (by
      intro h
      have := congrArg List.length h
      simp [str] at this)
  unfold IWriter DDL.Write
  by_cases hdw : env.DirectWrite = true
  · rw [if_pos hdw]
    simp only [DDL.WriteDB, hgen, Bind.bind]
    rw [if_pos hjoin]
    exact ⟨_, [], rest, comp,
      Run.bind_trace_head _ _ _ (by rw [(sinkWriteText_returns _ _ _ _).2.1]; rfl),
      Or.inr ⟨rfl, rfl⟩, rfl, rfl⟩
  · rw [if_neg hdw]
    simp only [DDL.WriteFile, hgen, Bind.bind]
    have hne : str "/*\n" ++ str " oracle table reverse sql \n"
        ++ env.Render [str "#", str "ORACLE TABLE TYPE", str "ORACLE", str "MYSQL", str "SUGGEST"]
            [[str "TABLE", d.SourceTableType, d.SourceSchemaName ++ str "." ++ d.SourceTableName,
              d.TargetSchemaName ++ str "." ++ d.TargetTableName, str "Create Table"]]
        ++ str "\n" ++ str "ORIGIN DDL:" ++ d.SourceTableDDL ++ str "\n" ++ str "*/\n"
        ++ Join ((d.tableDDL ++ str "\n") :: rest) (str "\n") ≠ [] := by
      intro h
      exact hjoin (List.append_eq_nil.mp h).2
    rw [if_pos hne]
    exact ⟨_, _, rest, comp,
      Run.bind_trace_head _ _ _ (by rw [(sinkWriteText_returns _ _ _ _).2.1]; rfl),
      Or.inl ⟨rfl, rfl⟩, rfl, rfl⟩

/-- C23 fails on the code: in the run of `ORDERS` and `ITEM` the reading of `ORDERS`
fails and its error-log row is recorded, the task returns nil, `ITEM` is written, and
yet `NewReverse` returns an error, the one of the closing of the writer. -/
theorem NewReverse_fails_after_skipped_table :
    readerAndCloseFailureReverseEnv.IReader (sampleTask "ORDERS")
      = Except.error (str "ORA-00942")
    ∧ readerAndCloseFailureReverseEnv.CreateErrorLog (sampleTask "ORDERS") (str "ORA-00942")
      = none
    ∧ (reverseTask readerAndCloseFailureReverseEnv (sampleTask "ORDERS")).result = Outcome.ok ()
    ∧ (NewReverse readerAndCloseFailureReverseEnv).result
      = Outcome.error (str "close failed") := by
  refine ⟨rfl, rfl, by decide, by decide⟩

/-- C23, amended: when `NewReverse` reaches its table loop and the reading or the
translation of a table fails (`IReader` or `IReverse` returns an error), then, if the
error-log row is recorded, the task of the table does nothing but read (and try to
translate) the table and record the row, so that nothing is written for it; the task
of every table of the loop is still run in full, and every table that is read and
translated has its block, with its CREATE TABLE statement, written to the reverse
output; and `NewReverse` returns nil exactly when the tasks of the other tables, the
closing of the writer and the final count of the error log succeed. If the recording
of the error-log row fails, `NewReverse` returns an error. -/
theorem NewReverse_skips_failed_table {Rule : Type} (env : ReverseEnv Rule)
    (exporters : List GoString) (nlsSort nlsComp : GoString) (tables : List Table)
    (t : Table) (cause : GoString)
    (hcfg : env.filterCFGTable = Except.ok exporters) (hne : exporters ≠ [])
    (hgate : ¬ (env.CountsErrorLogBySchema.1 > 0 ∨ env.CountsErrorLogBySchema.2 ≠ none))
    (hcomp : env.GetOracleDBCharacterNLSCompCollation = Except.ok nlsComp)
    (hsort : env.GetOracleDBCharacterNLSSortCollation = Except.ok nlsSort)
    (hmapComp : (env.OracleCollationMap.find (ToUpper env.upper nlsComp)).isNone = false)
    (hmapSort : (env.OracleCollationMap.find (ToUpper env.upper nlsSort)).isNone = false)
    (hfold : EqualFold env.fold nlsSort nlsComp = true)
    (hprep : (NewReverse.prepare env exporters nlsSort nlsComp).result = Outcome.ok tables)
    (ht : t ∈ tables)
    (hfail : env.IReader t = Except.error cause
      ∨ ∃ rule, env.IReader t = Except.ok rule ∧ env.IReverse rule = Except.error cause) :
    (env.CreateErrorLog t cause = none →
      ((reverseTask env t).trace
          = [{ kind := EffectKind.tableRead, what := t.SourceTableName },
             { kind := EffectKind.errorLogWrite, what := t.SourceTableName }]
        ∨ (reverseTask env t).trace
          = [{ kind := EffectKind.tableRead, what := t.SourceTableName },
             { kind := EffectKind.tableTranslate, what := t.SourceTableName },
             { kind := EffectKind.errorLogWrite, what := t.SourceTableName }])
      ∧ (∀ u ∈ tables, (reverseTask env u).trace <:+: (NewReverse env).trace)
      ∧ (∀ u ∈ tables, ∀ rule ddl, env.IReader u = Except.ok rule →
          env.IReverse rule = Except.ok ddl →
          (IWriter env ddl).trace <:+: (NewReverse env).trace
          ∧ ∃ e ∈ (NewReverse env).trace, ∃ head rest comp,
              ((e.kind = EffectKind.fileWrite ∧ e.what = str "reverse")
                ∨ (e.kind = EffectKind.targetWrite ∧ e.what = str "target"))
              ∧ ddl.GenDDLStructure env.DatabaseTypeTiDB env.MySQLCheckConsVersion
                  = some ((ddl.tableDDL ++ str "\n") :: rest, comp)
              ∧ e.text = head ++ Join ((ddl.tableDDL ++ str "\n") :: rest) (str "\n"))
      ∧ ((NewReverse env).result = Outcome.ok ()
          ↔ (∀ u ∈ tables, u ≠ t → (reverseTask env u).result = Outcome.ok ())
            ∧ env.Close = none ∧ env.CountsErrorLogBySchemaAtEnd.2 = none))
    ∧ (∀ err, env.CreateErrorLog t cause = some err →
        ∃ msg, (NewReverse env).result = Outcome.error msg) := by
  obtain ⟨htrace, hresult⟩ := NewReverse_table_loop env exporters nlsSort nlsComp tables hcfg hne
    hgate hcomp hsort hmapComp hmapSort hfold hprep
  obtain ⟨hflat, hprefix, hok, herr⟩ := NewReverse.convert_spec env tables
  have hin : ∀ u ∈ tables, (reverseTask env u).trace <:+: (NewReverse env).trace := by
    intro u hu
    have h1 : (reverseTask env u).trace
        <:+: (Run.group (tables.map (reverseTask env))).trace := by
      rw [hflat]
      exact List.infix_of_mem_flatten (List.mem_map_of_mem _ hu)
    have h2 : (Run.group (tables.map (reverseTask env))).trace <:+: (NewReverse env).trace := by
      rw [htrace]
      exact hprefix.isInfix.trans (List.suffix_append _ _).isInfix
    exact h1.trans h2
  have htask : ∃ stage,
      (reverseTask env t).result = (recordFailure env t stage cause).result
      ∧ ((reverseTask env t).trace
          = [{ kind := EffectKind.tableRead, what := t.SourceTableName },
             { kind := EffectKind.errorLogWrite, what := t.SourceTableName }]
        ∨ (reverseTask env t).trace
          = [{ kind := EffectKind.tableRead, what := t.SourceTableName },
             { kind := EffectKind.tableTranslate, what := t.SourceTableName },
             { kind := EffectKind.errorLogWrite, what := t.SourceTableName }]) := by
    rcases hfail with hread | ⟨rule, hread, htrans⟩
    · obtain ⟨htr, hres⟩ := reverseTask_read_fails env t cause hread
      exact ⟨str "reader", hres, Or.inl htr⟩
    · obtain ⟨htr, hres⟩ := reverseTask_translate_fails env t rule cause hread htrans
      exact ⟨str "reverse", hres, Or.inr htr⟩
  obtain ⟨stage, hres, hshape⟩ := htask
  obtain ⟨_, _, hlogged, hfailed⟩ := recordFailure_spec env t stage cause
  refine ⟨?_, ?_⟩
  · intro hlog
    have htok : (reverseTask env t).result = Outcome.ok () := by rw [hres]; exact hlogged hlog
    refine ⟨hshape, hin, ?_, ?_⟩
    · intro u hu rule ddl hread htrans
      have hsub : (IWriter env ddl).trace <:+: (reverseTask env u).trace := by
        cases hwrite : (IWriter env ddl).result with
        | panic => exact absurd hwrite (IWriter_returns env ddl).1
        | ok a =>
            cases a
            rw [(reverseTask_writes env u rule ddl hread htrans hwrite).1]
            exact (List.suffix_append _ _).isInfix
        | error c =>
            rw [(reverseTask_write_fails env u rule ddl c hread htrans hwrite).1]
            exact ⟨_, _, rfl⟩
      have hall := hsub.trans (hin u hu)
      refine ⟨hall, ?_⟩
      obtain ⟨e, head, rest, comp, hhead, hkind, hgen, htext⟩ := IWriter_writes env ddl
      exact ⟨e, hall.subset (List.mem_of_mem_head? hhead), head, rest, comp, hkind, hgen, htext⟩
    · rw [hresult, hok]
      constructor
      · rintro ⟨hall, hclose, hcount⟩
        exact ⟨fun u hu _ => hall u hu, hclose, hcount⟩
      · rintro ⟨hothers, hclose, hcount⟩
        refine ⟨?_, hclose, hcount⟩
        intro u hu
        by_cases hut : u = t
        · rw [hut]; exact htok
        · exact hothers u hu hut
  · intro err hlog
    rw [hresult]
    exact herr ⟨t, ht, _, by rw [hres]; exact hfailed err hlog⟩

set_option maxRecDepth 1000000 in
/-- C23, amended, at the run of `ORDERS` and `ITEM` in which the reading of `ORDERS`
fails: with the row recorded `NewReverse` returns nil, the only table block written
to the reverse file is the one of `ITEM`, with its CREATE TABLE statement, and nothing
of `ORDERS` is written; when the row cannot be recorded `NewReverse` returns an
error. -/
theorem NewReverse_skips_failed_table_sample :
    (NewReverse readerFailureReverseEnv).result = Outcome.ok ()
    ∧ (NewReverse readerFailureReverseEnv).trace.map (fun e => (e.kind, e.what))
        = [(EffectKind.oracleRead, str "filterCFGTable"),
           (EffectKind.metaRead, str "CountsErrorLogBySchema"),
           (EffectKind.oracleRead, str "GetOracleDBCharacterNLSCompCollation"),
           (EffectKind.oracleRead, str "GetOracleDBCharacterNLSSortCollation"),
           (EffectKind.oracleRead, str "GetOracleDBVersion"),
           (EffectKind.oracleRead, str "filterOraclePartitionTable"),
           (EffectKind.oracleRead, str "filterOracleTemporaryTable"),
           (EffectKind.oracleRead, str "filterOracleClusteredTable"),
           (EffectKind.oracleRead, str "filterOracleMaterializedView"),
           (EffectKind.metaRead, str "IChanger"),
           (EffectKind.oracleRead, str "GetOracleDBCharacterSet"),
           (EffectKind.oracleRead, str "GetOracleSchemaCollation"),
           (EffectKind.oracleRead, str "GetOracleSchemaTableCollation"),
           (EffectKind.oracleRead, str "GetOracleSchemaTableType"),
           (EffectKind.targetRead, str "GetMySQLDBVersion"),
           (EffectKind.workDir, str "Getwd"),
           (EffectKind.fileCreate, str "/work/reverse_marvin.sql"),
           (EffectKind.oracleRead, str "GetOracleDBVersion"),
           (EffectKind.oracleRead, str "GetOracleSchemaCollation"),
           (EffectKind.fileWrite, str "reverse"),
           (EffectKind.tableRead, str "ORDERS"),
           (EffectKind.errorLogWrite, str "ORDERS"),
           (EffectKind.tableRead, str "ITEM"),
           (EffectKind.tableTranslate, str "ITEM"),
           (EffectKind.fileWrite, str "reverse"),
           (EffectKind.fileClose, str "Close"),
           (EffectKind.metaRead, str "CountsErrorLogBySchema")]
    ∧ (∃ schema item,
        ((NewReverse readerFailureReverseEnv).trace.filter
            (fun e => e.kind = EffectKind.fileWrite)).map Effect.text = [schema, item]
        ∧ Contains item (str "CREATE TABLE `SHOP`.`ITEM`") = true
        ∧ Contains schema (str "ORDERS") = false ∧ Contains item (str "ORDERS") = false)
    ∧ ∃ msg, (NewReverse readerAndLogFailureReverseEnv).result = Outcome.error msg :=
  ⟨((NewReverse_skips_failed_table readerFailureReverseEnv [str "ORDERS", str "ITEM"]
      (str "BINARY") (str "BINARY") [sampleTask "ORDERS", sampleTask "ITEM"]
      (sampleTask "ORDERS") (str "ORA-00942")
      rfl (by decide) (by decide) rfl rfl (by decide) (by decide) (by decide) (by decide)
      (by decide) (Or.inl rfl)).1 rfl).2.2.2.mpr ⟨by decide, rfl, rfl⟩,
    by decide,
    ⟨_, _, rfl, rfl, rfl, rfl⟩,
    (NewReverse_skips_failed_table readerAndLogFailureReverseEnv [str "ORDERS", str "ITEM"]
      (str "BINARY") (str "BINARY") [sampleTask "ORDERS", sampleTask "ITEM"]
      (sampleTask "ORDERS") (str "ORA-00942")
      rfl (by decide) (by decide) rfl rfl (by decide) (by decide) (by decide) (by decide)
      (by decide) (Or.inl rfl)).2 (str "meta down") rfl⟩

/-! ## Check constraints at and above the boundary version -/

theorem versionCompare_self (a : GoString) : versionCompare a a = some Ordering.eq := by
  obtain ⟨x, hx⟩ := VersionOrdinal_returns (goBytes a)
  simp [versionCompare, hx, (bytesCompare_eq_iff x x).mpr rfl]

/-- C2, amended: for a DDL whose target is not TiDB, `GenDDLStructure` returns, and
(a) when `TargetDBVersion` is strictly greater than `MySQLCheckConsVersion` (compared
through `VersionOrdinal`), the reversible stream is the CREATE TABLE statement, then
every foreign-key ALTER, then every check ALTER, and the compatibility stream is
`TableCompatibleDDL` alone; (b) when the two ordinals are equal, as they are whenever
`TargetDBVersion` is the text `MySQLCheckConsVersion`, the reversible stream is the
CREATE TABLE statement and the foreign-key ALTERs, and every check ALTER is in the
compatibility stream, which is the check ALTERs followed by `TableCompatibleDDL`. -/
theorem GenDDLStructure_mysql_at_or_above (DatabaseTypeTiDB MySQLCheckConsVersion : GoString)
    (d : DDL) (hdb : d.TargetDBType ≠ DatabaseTypeTiDB) :
    (versionCompare d.TargetDBVersion MySQLCheckConsVersion = some Ordering.gt →
      ∃ rev comp, d.GenDDLStructure DatabaseTypeTiDB MySQLCheckConsVersion = some (rev, comp)
        ∧ rev = [d.tableDDL ++ str "\n"] ++ d.TableForeignKeys.map d.alterSQL
            ++ d.TableCheckKeys.map d.alterSQL
        ∧ comp = d.TableCompatibleDDL
        ∧ (∀ k ∈ d.TableForeignKeys, d.alterSQL k ∈ rev)
        ∧ (∀ k ∈ d.TableCheckKeys, d.alterSQL k ∈ rev))
    ∧ (versionCompare d.TargetDBVersion MySQLCheckConsVersion = some Ordering.eq →
      ∃ rev comp, d.GenDDLStructure DatabaseTypeTiDB MySQLCheckConsVersion = some (rev, comp)
        ∧ rev = [d.tableDDL ++ str "\n"] ++ d.TableForeignKeys.map d.alterSQL
        ∧ comp = d.TableCheckKeys.map d.alterSQL ++ d.TableCompatibleDDL
        ∧ (∀ k ∈ d.TableForeignKeys, d.alterSQL k ∈ rev)
        ∧ (∀ k ∈ d.TableCheckKeys, d.alterSQL k ∈ comp))
    ∧ (d.TargetDBVersion = MySQLCheckConsVersion →
      versionCompare d.TargetDBVersion MySQLCheckConsVersion = some Ordering.eq) := by
  refine ⟨?_, ?_, ?_⟩
  · intro hver
    refine ⟨_, _, ?_, rfl, rfl, ?_, ?_⟩
    · simp [DDL.GenDDLStructure, hdb, hver, DDL.foreignKeyDDL, DDL.checkKeyDDL]
    · intro k hk
      exact List.mem_append_left _ (List.mem_append_right _ (List.mem_map_of_mem _ hk))
    · intro k hk
      exact List.mem_append_right _ (List.mem_map_of_mem _ hk)
  · intro hver
    refine ⟨_, _, ?_, rfl, rfl, ?_, ?_⟩
    · simp [DDL.GenDDLStructure, hdb, hver, DDL.foreignKeyDDL, DDL.checkKeyDDL]
    · intro k hk
      exact List.mem_append_right _ (List.mem_map_of_mem _ hk)
    · intro k hk
      exact List.mem_append_left _ (List.mem_map_of_mem _ hk)
  · intro h
    rw [h]
    exact versionCompare_self _

/-- C2, amended, at the sample table reversed for MySQL 8.0.16, where the check ALTER
is in the reversible stream, and for MySQL 8.0.15, the boundary version itself, where
it is in the compatibility stream. -/
theorem GenDDLStructure_mysql_at_or_above_sample :
    (sampleDDLFor "MYSQL" "8.0.16").TargetDBType ≠ str "TIDB"
    ∧ versionCompare (sampleDDLFor "MYSQL" "8.0.16").TargetDBVersion (str "8.0.15")
        = some Ordering.gt
    ∧ (∃ rev comp, (sampleDDLFor "MYSQL" "8.0.16").GenDDLStructure (str "TIDB") (str "8.0.15")
          = some (rev, comp)
      ∧ rev = [(sampleDDLFor "MYSQL" "8.0.16").tableDDL ++ str "\n"]
          ++ (sampleDDLFor "MYSQL" "8.0.16").TableForeignKeys.map
            (sampleDDLFor "MYSQL" "8.0.16").alterSQL
          ++ (sampleDDLFor "MYSQL" "8.0.16").TableCheckKeys.map
            (sampleDDLFor "MYSQL" "8.0.16").alterSQL
      ∧ comp = (sampleDDLFor "MYSQL" "8.0.16").TableCompatibleDDL
      ∧ (∀ k ∈ (sampleDDLFor "MYSQL" "8.0.16").TableForeignKeys,
          (sampleDDLFor "MYSQL" "8.0.16").alterSQL k ∈ rev)
      ∧ (∀ k ∈ (sampleDDLFor "MYSQL" "8.0.16").TableCheckKeys,
          (sampleDDLFor "MYSQL" "8.0.16").alterSQL k ∈ rev))
    ∧ (sampleDDLFor "MYSQL" "8.0.15").TargetDBType ≠ str "TIDB"
    ∧ (sampleDDLFor "MYSQL" "8.0.15").TargetDBVersion = str "8.0.15"
    ∧ (∃ rev comp, (sampleDDLFor "MYSQL" "8.0.15").GenDDLStructure (str "TIDB") (str "8.0.15")
          = some (rev, comp)
      ∧ rev = [(sampleDDLFor "MYSQL" "8.0.15").tableDDL ++ str "\n"]
          ++ (sampleDDLFor "MYSQL" "8.0.15").TableForeignKeys.map
            (sampleDDLFor "MYSQL" "8.0.15").alterSQL
      ∧ comp = (sampleDDLFor "MYSQL" "8.0.15").TableCheckKeys.map
            (sampleDDLFor "MYSQL" "8.0.15").alterSQL
          ++ (sampleDDLFor "MYSQL" "8.0.15").TableCompatibleDDL
      ∧ (∀ k ∈ (sampleDDLFor "MYSQL" "8.0.15").TableForeignKeys,
          (sampleDDLFor "MYSQL" "8.0.15").alterSQL k ∈ rev)
      ∧ (∀ k ∈ (sampleDDLFor "MYSQL" "8.0.15").TableCheckKeys,
          (sampleDDLFor "MYSQL" "8.0.15").alterSQL k ∈ comp)) :=
  ⟨by decide, by decide,
    (GenDDLStructure_mysql_at_or_above (str "TIDB") (str "8.0.15")
      (sampleDDLFor "MYSQL" "8.0.16") (by decide)).1 (by decide),
    by decide, rfl,
    (GenDDLStructure_mysql_at_or_above (str "TIDB") (str "8.0.15")
      (sampleDDLFor "MYSQL" "8.0.15") (by decide)).2.1
      ((GenDDLStructure_mysql_at_or_above (str "TIDB") (str "8.0.15")
        (sampleDDLFor "MYSQL" "8.0.15") (by decide)).2.2 rfl)⟩

end TransferDB
